import Mathlib

/-! Latte-Dock `LayoutManager`: layout reconciliation and dynamic switching.

A shallow embedding of `app/layoutmanager.cpp`.  Qt strings are Lean strings
(`QString::isEmpty` is equality with `""`), `QStringList` is `List String`,
the `QHash` of assigned layouts is an association list with first-match lookup,
and the calls the manager makes on collaborators to load, unload, schedule,
notify and ask the host (layout objects, corona, timers, signals, activities
controller) are appended to a call log carried by the manager state.  The
classes `ActiveLayout` and `UniversalSettings`, the activity consumer and the
layout files are collaborators: their state is carried as plain data, and the
constant `MultipleLayoutsName` and the file system are parameters (`Env`).
-/

namespace Latte

/-! ## Collaborator types -/

/-- The two memory modes of `Types::LayoutsMemoryUsage`. -/
inductive LayoutsMemoryUsage where
  | SingleLayout
  | MultipleLayouts
  deriving DecidableEq, Repr

/-- The hash `QHash<const QString, QString> m_assignedLayouts`, activity id to layout name. -/
structure QHash where
  entries : List (String × String)
  deriving DecidableEq, Repr

namespace QHash

/-- Membership test `QHash::contains(key)`. -/
def contains (m : QHash) (key : String) : Bool :=
  m.entries.any (fun e => e.1 == key)

/-- Read-only lookup: the value stored for `key`, a default-constructed (empty)
string when the key is absent. -/
def value (m : QHash) (key : String) : String :=
  match m.entries.find? (fun e => e.1 == key) with
  | some e => e.2
  | none => ""

/-- The non-const `operator[]`: returns the stored value and, when the key is
absent, first inserts a default-constructed (empty) value for it. -/
def subscript (m : QHash) (key : String) : String × QHash :=
  if m.contains key then (m.value key, m) else ("", { entries := m.entries ++ [(key, "")] })

/-- Assignment `hash[key] = v`: replaces the value of an existing key, inserts otherwise. -/
def assign (m : QHash) (key v : String) : QHash :=
  if m.contains key then
    { entries := m.entries.map (fun e => if e.1 == key then (e.1, v) else e) }
  else { entries := m.entries ++ [(key, v)] }

/-- The list `QHash::values()`. -/
def values (m : QHash) : List String :=
  m.entries.map Prod.snd

end QHash

/-- What the constructor of `ActiveLayout` reads from a layout file. -/
structure LayoutFile where
  activities : List String
  lastUsedActivity : String
  isOriginalLayout : Bool
  showInMenu : Bool
  deriving DecidableEq, Repr

/-- The surroundings the manager reads but does not own: the constant
`Layout::AbstractLayout::MultipleLayoutsName`, `QDir::homePath()`, the files of
the layouts directory (`entryList` lists the file names that match a name
filter), the static functions `ActiveLayout::layoutName`, which reads the layout
name off a file path, and `Importer::layoutFilePath`, which gives the file path
for a layout name, and the file paths of the installed package. -/
structure Env where
  MultipleLayoutsName : String
  homePath : String
  fileExists : String → Bool
  readFile : String → LayoutFile
  entryList : String → List String
  layoutName : String → String
  layoutFilePath : String → String
  packageFilePath : String → String

/-- A loaded layout object (`ActiveLayout *`): `ptr` is the address of the
object, the remaining fields are what its accessors return. -/
structure ActiveLayout where
  ptr : Nat
  name : String
  activities : List String
  lastUsedActivity : String
  isOriginalLayout : Bool
  deriving DecidableEq, Repr

/-- A loaded shared layout object (`SharedLayout *`). -/
structure SharedLayout where
  name : String
  deriving DecidableEq, Repr

/-- The settings of `m_corona->universalSettings()` the manager uses. -/
structure UniversalSettings where
  layoutsMemoryUsage : LayoutsMemoryUsage
  currentLayoutName : String
  lastNonAssignedLayoutName : String
  showInfoWindow : Bool
  deriving DecidableEq, Repr

/-- The host activity service `m_corona->m_activityConsumer`. -/
structure ActivityConsumer where
  activities : List String
  runningActivities : List String
  currentActivity : String
  deriving DecidableEq, Repr

/-- One call made by the manager on a collaborator, or one signal it emits. -/
inductive Call where
  | syncToLayoutFile (layout : String)
  | unloadContainments (layout : String)
  | unloadLatteViews (layout : String)
  | clearUnloadedContainmentsFromLinkedFile (layout : String) (bypassChecks : Bool)
  | deleteLayout (layout : String)
  | newActiveLayout (path : String) (layout : String)
  | initToCorona (layout : String)
  | importToCorona (layout : String)
  | showInfoWindow (info : String) (duration : Nat) (activities : List String)
  | currentLayoutNameChanged
  | activeLayoutsChanged
  | currentLayoutIsSwitching (layout : String)
  | timerStart
  | singleShotSwitchToLayout (msec : Nat) (layout : String)
  | setCurrentActivity (activity : String)
  | singleShotStartActivity (msec : Nat) (activity : String) (makeCurrent : Bool)
  | singleShotTransition (msec : Nat) (layout : String) (path : String) (previousMemoryUsage : Int)
  | loadLatteLayout (path : String)
  | copyFile (source : String) (target : String)
  | removeFile (path : String)
  | layoutsChanged
  | menuLayoutsChanged
  deriving DecidableEq, Repr

/-- The calls that belong to unloading a layout. -/
def Call.isUnload : Call → Bool
  | .syncToLayoutFile _ => true
  | .unloadContainments _ => true
  | .unloadLatteViews _ => true
  | .clearUnloadedContainmentsFromLinkedFile _ _ => true
  | .deleteLayout _ => true
  | _ => false

/-- The calls that belong to loading a layout. -/
def Call.isLoad : Call → Bool
  | .newActiveLayout _ _ => true
  | .initToCorona _ => true
  | .importToCorona _ => true
  | .loadLatteLayout _ => true
  | _ => false

/-- The layout a load or unload call is about. -/
def Call.layout : Call → Option String
  | .syncToLayoutFile n => some n
  | .unloadContainments n => some n
  | .unloadLatteViews n => some n
  | .clearUnloadedContainmentsFromLinkedFile n _ => some n
  | .deleteLayout n => some n
  | .newActiveLayout _ n => some n
  | .initToCorona n => some n
  | .importToCorona n => some n
  | _ => none

/-- The single-shot timer `m_dynamicSwitchTimer`: its interval in milliseconds and
whether it is running. -/
structure QTimer where
  interval : Nat
  active : Bool
  deriving DecidableEq, Repr

/-- The call `QTimer::start()`: the timer runs, from the beginning of its interval. -/
def QTimer.start (t : QTimer) : QTimer :=
  { t with active := true }

/-- The call `QTimer::setInterval(msec)`. -/
def QTimer.setInterval (t : QTimer) (msec : Nat) : QTimer :=
  { t with interval := msec }

/-- The state of a `LayoutManager`, together with the settings and the activity
service it reads and the log of the calls it has made. -/
structure LayoutManager where
  universalSettings : UniversalSettings
  activityConsumer : ActivityConsumer
  m_layouts : List String
  m_menuLayouts : List String
  m_presetsPaths : List String
  m_assignedLayouts : QHash
  m_activeLayouts : List ActiveLayout
  m_sharedLayouts : List SharedLayout
  m_currentLayoutNameInMultiEnvironment : String
  m_shouldSwitchToLayout : String
  m_dynamicSwitchTimer : QTimer
  calls : List Call
  deriving DecidableEq, Repr

/-! ## Simple accessors -/

/-- The function `LayoutManager::memoryUsage`. -/
def memoryUsage (s : LayoutManager) : LayoutsMemoryUsage :=
  s.universalSettings.layoutsMemoryUsage

/-- The function `LayoutManager::currentLayoutName`. -/
def currentLayoutName (s : LayoutManager) : String :=
  match memoryUsage s with
  | .SingleLayout => s.universalSettings.currentLayoutName
  | .MultipleLayouts => s.m_currentLayoutNameInMultiEnvironment

/-- The function `LayoutManager::runningActivities`. -/
def runningActivities (s : LayoutManager) : List String :=
  s.activityConsumer.runningActivities

/-- The function `LayoutManager::layoutPath`: the path of the layout file, empty
when the file does not exist. -/
def layoutPath (env : Env) (layoutName : String) : String :=
  let path := env.homePath ++ "/.config/latte/" ++ layoutName ++ ".layout.latte"
  if env.fileExists path then path else ""

/-- The function `LayoutManager::activeLayout`: the first loaded layout of that name. -/
def activeLayout (s : LayoutManager) (id : String) : Option ActiveLayout :=
  s.m_activeLayouts.find? (fun layout => layout.name == id)

/-- The loop of `LayoutManager::activeLayoutPos` from index `i` on. -/
def activeLayoutPosFrom (id : String) : List ActiveLayout → Int → Int
  | [], _ => -1
  | layout :: rest, i => if layout.name = id then i else activeLayoutPosFrom id rest (i + 1)

/-- The function `LayoutManager::activeLayoutPos`: the index of the first loaded
layout of that name, `-1` when there is none. -/
def activeLayoutPos (s : LayoutManager) (id : String) : Int :=
  activeLayoutPosFrom id s.m_activeLayouts 0

/-- The function `LayoutManager::layoutIsAssigned`. -/
def layoutIsAssigned (s : LayoutManager) (layoutName : String) : Bool :=
  s.m_assignedLayouts.entries.any (fun e => e.2 == layoutName)

/-- Appends calls to the log. -/
def record (s : LayoutManager) (cs : List Call) : LayoutManager :=
  { s with calls := s.calls ++ cs }

/-- The address returned by `new`: one that no loaded layout object has. -/
def freshPtr (layouts : List ActiveLayout) : Nat :=
  (layouts.map (fun l => l.ptr)).foldr max 0 + 1

/-- Modelled from the spec: the constructor `ActiveLayout(parent, layoutFile,
assignedName)`, whose code is not in `layoutmanager.cpp`.  The object carries
the assigned name and the activity set, last used activity and role persisted
in the layout file. -/
def ActiveLayout.construct (env : Env) (s : LayoutManager) (layoutFile assignedName : String) :
    ActiveLayout :=
  { ptr := freshPtr s.m_activeLayouts
    name := assignedName
    activities := (env.readFile layoutFile).activities
    lastUsedActivity := (env.readFile layoutFile).lastUsedActivity
    isOriginalLayout := (env.readFile layoutFile).isOriginalLayout }

/-- The function `LayoutManager::addLayout`: appends the object unless this very
object (the same pointer) is already in the list. -/
def addLayout (s : LayoutManager) (layout : ActiveLayout) : LayoutManager :=
  if s.m_activeLayouts.any (fun l => l.ptr == layout.ptr) then s
  else record { s with m_activeLayouts := s.m_activeLayouts ++ [layout] } [Call.initToCorona layout.name]

/-- The loop of `LayoutManager::orphanedActivities`; the subscript access inserts
an empty entry for every activity that had none. -/
def orphanedActivitiesFrom : List String → QHash → List String → List String × QHash
  | [], m, orphans => (orphans, m)
  | activity :: rest, m, orphans =>
    let r := m.subscript activity
    if r.1 = "" then orphanedActivitiesFrom rest r.2 (orphans ++ [activity])
    else orphanedActivitiesFrom rest r.2 orphans

/-- The function `LayoutManager::orphanedActivities`. -/
def orphanedActivities (s : LayoutManager) : List String × LayoutManager :=
  let r := orphanedActivitiesFrom s.activityConsumer.activities s.m_assignedLayouts []
  (r.1, { s with m_assignedLayouts := r.2 })

/-- Modelled from the spec: `ActiveLayout::appliedActivities`, whose code is not
in `layoutmanager.cpp`: the declared activities of the layout, or, for a layout
without declared activities, the activities without an assignment. -/
def appliedActivities (s : LayoutManager) (layout : ActiveLayout) : List String :=
  if layout.activities = [] then
    s.activityConsumer.activities.filter (fun a => s.m_assignedLayouts.value a == "")
  else layout.activities

/-- The function `LayoutManager::clearUnloadedContainmentsFromLinkedFile`, called
with the unloaded containment ids of `layout`, for a manager that has its
corona: nothing in Single mode unless the checks are bypassed. -/
def clearUnloadedContainmentsFromLinkedFile (s : LayoutManager) (layout : String)
    (bypassChecks : Bool) : LayoutManager :=
  if memoryUsage s = .SingleLayout ∧ bypassChecks = false then s
  else record s [Call.clearUnloadedContainmentsFromLinkedFile layout bypassChecks]

/-- The function `LayoutManager::updateCurrentLayoutNameInMultiEnvironment`. -/
def updateCurrentLayoutNameInMultiEnvironment (s : LayoutManager) : LayoutManager :=
  match s.m_activeLayouts.find? (fun layout =>
      layout.isOriginalLayout && layout.activities.contains s.activityConsumer.currentActivity) with
  | some layout =>
    record { s with m_currentLayoutNameInMultiEnvironment := layout.name }
      [Call.currentLayoutNameChanged]
  | none =>
    match s.m_activeLayouts.find? (fun layout =>
        layout.isOriginalLayout && layout.activities.isEmpty) with
    | some layout =>
      record { s with m_currentLayoutNameInMultiEnvironment := layout.name }
        [Call.currentLayoutNameChanged]
    | none => s

/-! ## The synchronizer `syncMultipleLayoutsToActivities` -/

/-- The orphan layout name after the first test of
`syncMultipleLayoutsToActivities`: the argument, replaced by the last
non-assigned layout name when it is empty or is some assigned layout. -/
def orphanLayoutName (s : LayoutManager) (layoutForOrphans : String) : String :=
  if layoutForOrphans = "" ∨ layoutForOrphans ∈ s.m_assignedLayouts.values then
    s.universalSettings.lastNonAssignedLayoutName
  else layoutForOrphans

/-- What the loop over the running activities computes. -/
structure Reservation where
  assigned : QHash
  layoutsToLoad : List String
  allRunningActivitiesWillBeReserved : Bool
  deriving DecidableEq, Repr

/-- The loop over `runningActivities()`: collects the assigned layouts of the
running activities and notes whether every running activity has one.  The first
subscript access of an activity without entry inserts an empty entry. -/
def reserveLayouts : List String → Reservation → Reservation
  | [], r => r
  | activity :: rest, r =>
    let a := r.assigned.subscript activity
    if a.1 ≠ "" then
      if a.1 ∈ r.layoutsToLoad then reserveLayouts rest { r with assigned := a.2 }
      else reserveLayouts rest { r with assigned := a.2, layoutsToLoad := r.layoutsToLoad ++ [a.1] }
    else
      reserveLayouts rest { r with assigned := a.2, allRunningActivitiesWillBeReserved := false }

/-- The name the loop over the loaded layouts puts into `tempLayoutName`. -/
def tempLayoutName (layoutsToLoad : List String) (layoutForOrphans : String)
    (allReserved : Bool) (layout : ActiveLayout) : String :=
  if layout.name ∉ layoutsToLoad ∧ layout.name ≠ layoutForOrphans then layout.name
  else if layout.activities = [] ∧ allReserved = true then layout.name
  else ""

/-- The loop over `m_activeLayouts` that fills `layoutsToUnload`. -/
def collectLayoutsToUnload (layoutsToLoad : List String) (layoutForOrphans : String)
    (allReserved : Bool) : List ActiveLayout → List String → List String
  | [], layoutsToUnload => layoutsToUnload
  | layout :: rest, layoutsToUnload =>
    let temp := tempLayoutName layoutsToLoad layoutForOrphans allReserved layout
    if temp ≠ "" ∧ temp ∉ layoutsToUnload then
      collectLayoutsToUnload layoutsToLoad layoutForOrphans allReserved rest (layoutsToUnload ++ [temp])
    else collectLayoutsToUnload layoutsToLoad layoutForOrphans allReserved rest layoutsToUnload

/-- The body of the unload loop for one name of `layoutsToUnload`. -/
def unloadNoNeededLayout (env : Env) (s : LayoutManager) (layoutName : String) : LayoutManager :=
  if layoutName ≠ env.MultipleLayoutsName then
    let layout := activeLayout s layoutName
    let posLayout := activeLayoutPos s layoutName
    if posLayout ≥ 0 then
      match layout with
      | some l =>
        let s1 := { s with m_activeLayouts := s.m_activeLayouts.eraseIdx posLayout.toNat }
        let s2 := if l.isOriginalLayout then record s1 [Call.syncToLayoutFile l.name] else s1
        let s3 := record s2 [Call.unloadContainments l.name, Call.unloadLatteViews l.name]
        let s4 := clearUnloadedContainmentsFromLinkedFile s3 l.name false
        record s4 [Call.deleteLayout l.name]
      | none => s
    else s
  else s

/-- The unload loop over `layoutsToUnload`. -/
def unloadNoNeededLayouts (env : Env) : List String → LayoutManager → LayoutManager
  | [], s => s
  | layoutName :: rest, s => unloadNoNeededLayouts env rest (unloadNoNeededLayout env s layoutName)

/-- The block that adds the layout for the orphan activities. -/
def addLayoutForOrphans (env : Env) (s : LayoutManager) (layoutForOrphans : String)
    (allReserved : Bool) : LayoutManager :=
  if allReserved = false then
    match activeLayout s layoutForOrphans with
    | none =>
      let path := layoutPath env layoutForOrphans
      let newLayout := ActiveLayout.construct env s path layoutForOrphans
      let s1 := record s [Call.newActiveLayout path layoutForOrphans]
      let s2 := addLayout s1 newLayout
      record s2 [Call.importToCorona newLayout.name]
    | some _ => s
  else s

/-- The body of the load loop for one name of `layoutsToLoad`. -/
def addNeededLayout (env : Env) (s : LayoutManager) (layoutName : String) : LayoutManager :=
  match activeLayout s layoutName with
  | none =>
    let path := layoutPath env layoutName
    let newLayout := ActiveLayout.construct env s path layoutName
    let s1 := record s [Call.newActiveLayout path layoutName]
    let s2 := addLayout s1 newLayout
    let s3 := record s2 [Call.importToCorona newLayout.name]
    if newLayout.isOriginalLayout = true ∧ s3.universalSettings.showInfoWindow = true then
      record s3 [Call.showInfoWindow ("Activating layout: <b>" ++ newLayout.name ++ "</b> ...") 5000
        (appliedActivities s3 newLayout)]
    else s3
  | some _ => s

/-- The load loop over `layoutsToLoad`. -/
def addNeededLayouts (env : Env) : List String → LayoutManager → LayoutManager
  | [], s => s
  | layoutName :: rest, s => addNeededLayouts env rest (addNeededLayout env s layoutName)

/-- The reservation computed by `syncMultipleLayoutsToActivities` in state `s`. -/
def reservation (env : Env) (s : LayoutManager) : Reservation :=
  reserveLayouts (runningActivities s)
    { assigned := s.m_assignedLayouts
      layoutsToLoad := [env.MultipleLayoutsName]
      allRunningActivitiesWillBeReserved := true }

/-- The list `layoutsToUnload` computed by `syncMultipleLayoutsToActivities`. -/
def layoutsToUnload (env : Env) (s : LayoutManager) (layoutForOrphans : String) : List String :=
  let r := reservation env s
  collectLayoutsToUnload r.layoutsToLoad (orphanLayoutName s layoutForOrphans)
    r.allRunningActivitiesWillBeReserved s.m_activeLayouts []

/-- The function `LayoutManager::syncMultipleLayoutsToActivities`. -/
def syncMultipleLayoutsToActivities (env : Env) (s : LayoutManager) (layoutForOrphans : String) :
    LayoutManager :=
  let orphans := orphanLayoutName s layoutForOrphans
  let r := reservation env s
  let toUnload := collectLayoutsToUnload r.layoutsToLoad orphans
    r.allRunningActivitiesWillBeReserved s.m_activeLayouts []
  let s1 := { s with m_assignedLayouts := r.assigned }
  let s2 := unloadNoNeededLayouts env toUnload s1
  let s3 := addLayoutForOrphans env s2 orphans r.allRunningActivitiesWillBeReserved
  let s4 := addNeededLayouts env r.layoutsToLoad s3
  let s5 := updateCurrentLayoutNameInMultiEnvironment s4
  record s5 [Call.activeLayoutsChanged]

/-! ## The dynamic-switch debouncer -/

/-- The function `LayoutManager::shouldSwitchToLayout`. -/
def shouldSwitchToLayout (s : LayoutManager) (activityId : String) : String :=
  if s.m_assignedLayouts.contains activityId = true
      ∧ s.m_assignedLayouts.value activityId ≠ currentLayoutName s then
    s.m_assignedLayouts.value activityId
  else if s.m_assignedLayouts.contains activityId = false
      ∧ s.universalSettings.lastNonAssignedLayoutName ≠ ""
      ∧ s.universalSettings.lastNonAssignedLayoutName ≠ currentLayoutName s then
    s.universalSettings.lastNonAssignedLayoutName
  else ""

/-- The function `LayoutManager::currentActivityChanged`, the slot run when the
host reports a new current activity. -/
def currentActivityChanged (s : LayoutManager) (id : String) : LayoutManager :=
  match memoryUsage s with
  | .SingleLayout =>
    record
      { s with
        m_shouldSwitchToLayout := shouldSwitchToLayout s id
        m_dynamicSwitchTimer := s.m_dynamicSwitchTimer.start }
      [Call.timerStart]
  | .MultipleLayouts => updateCurrentLayoutNameInMultiEnvironment s

/-- The function `LayoutManager::showInfoWindowChanged`. -/
def showInfoWindowChanged (s : LayoutManager) : LayoutManager :=
  if s.universalSettings.showInfoWindow then
    { s with m_dynamicSwitchTimer := s.m_dynamicSwitchTimer.setInterval 1800 }
  else { s with m_dynamicSwitchTimer := s.m_dynamicSwitchTimer.setInterval 2300 }

/-- The function `LayoutManager::confirmDynamicSwitch`, the slot of the timeout
of the dynamic-switch timer. -/
def confirmDynamicSwitch (s : LayoutManager) : LayoutManager :=
  let tempShouldSwitch := shouldSwitchToLayout s s.activityConsumer.currentActivity
  if tempShouldSwitch = "" then s
  else if s.m_shouldSwitchToLayout = tempShouldSwitch
      ∧ s.m_shouldSwitchToLayout ≠ currentLayoutName s then
    let s1 := record s [Call.currentLayoutIsSwitching (currentLayoutName s)]
    let s2 := if s1.universalSettings.showInfoWindow then
        record s1 [Call.showInfoWindow
          ("Switching to layout <b>" ++ s.m_shouldSwitchToLayout ++ "</b> ...") 4000 []]
      else s1
    record s2 [Call.singleShotSwitchToLayout 500 tempShouldSwitch]
  else
    record
      { s with
        m_shouldSwitchToLayout := tempShouldSwitch
        m_dynamicSwitchTimer := s.m_dynamicSwitchTimer.start }
      [Call.timerStart]

/-- The host makes `id` its current activity and notifies the manager. -/
def hostActivityChange (s : LayoutManager) (id : String) : LayoutManager :=
  currentActivityChanged { s with activityConsumer := { s.activityConsumer with currentActivity := id } } id

/-- The single-shot dynamic-switch timer fires: it stops being active and its
timeout slot runs.  Nothing happens when the timer is not running. -/
def timerTimeout (s : LayoutManager) : LayoutManager :=
  if s.m_dynamicSwitchTimer.active then
    confirmDynamicSwitch
      { s with m_dynamicSwitchTimer := { s.m_dynamicSwitchTimer with active := false } }
  else s

/-- A burst of activity changes, each arriving before the timer fires. -/
def burst (s : LayoutManager) (ids : List String) : LayoutManager :=
  ids.foldl hostActivityChange s

/-- The timer keeps firing while it is running, at most `fuel` times. -/
def settle : Nat → LayoutManager → LayoutManager
  | 0, s => s
  | fuel + 1, s => if s.m_dynamicSwitchTimer.active then settle fuel (timerTimeout s) else s

/-- The targets of the `switchToLayout` invocations scheduled in a call log. -/
def switchTargets : List Call → List String
  | [] => []
  | Call.singleShotSwitchToLayout _ layout :: rest => layout :: switchTargets rest
  | _ :: rest => switchTargets rest

/-! ## The switch engine `switchToLayout` -/

/-- The integer value of a memory mode, as `previousMemoryUsage` carries it: the
enumerators of `Types::LayoutsMemoryUsage` in their order. -/
def LayoutsMemoryUsage.toInt : LayoutsMemoryUsage → Int
  | .SingleLayout => 0
  | .MultipleLayouts => 1

/-- The first loop of `LayoutManager::unload`, over the loaded layouts. -/
def unloadActiveLayouts (multipleMode : Bool) : List ActiveLayout → LayoutManager → LayoutManager
  | [], s => s
  | layout :: rest, s =>
    let s1 := { s with m_activeLayouts := rest }
    let s2 := if layout.isOriginalLayout = true ∧ multipleMode = true then
        record s1 [Call.syncToLayoutFile layout.name]
      else s1
    let s3 := record s2 [Call.unloadContainments layout.name, Call.unloadLatteViews layout.name]
    let s4 := if layout.isOriginalLayout = true ∧ multipleMode = true then
        clearUnloadedContainmentsFromLinkedFile s3 layout.name true
      else s3
    unloadActiveLayouts multipleMode rest (record s4 [Call.deleteLayout layout.name])

/-- The second loop of `LayoutManager::unload`, over the shared layouts. -/
def unloadSharedLayouts (multipleMode : Bool) : List SharedLayout → LayoutManager → LayoutManager
  | [], s => s
  | layout :: rest, s =>
    let s1 := { s with m_sharedLayouts := rest }
    let s2 := if multipleMode = true then record s1 [Call.syncToLayoutFile layout.name] else s1
    let s3 := record s2 [Call.unloadContainments layout.name, Call.unloadLatteViews layout.name]
    let s4 := if multipleMode = true then
        clearUnloadedContainmentsFromLinkedFile s3 layout.name true
      else s3
    unloadSharedLayouts multipleMode rest (record s4 [Call.deleteLayout layout.name])

/-- The function `LayoutManager::unload`. -/
def unload (env : Env) (s : LayoutManager) : LayoutManager :=
  let multipleMode := (activeLayout s env.MultipleLayoutsName).isSome
  let s1 := unloadActiveLayouts multipleMode s.m_activeLayouts s
  let s2 := unloadSharedLayouts multipleMode s1.m_sharedLayouts s1
  let temp1File := env.homePath ++ "/.config/lattedock.copy1.bak"
  let temp2File := env.homePath ++ "/.config/lattedock.copy2.bak"
  let s3 := if env.fileExists temp1File then record s2 [Call.removeFile temp1File] else s2
  if env.fileExists temp2File then record s3 [Call.removeFile temp2File] else s3

/-- The function `LayoutManager::loadLatteLayout`; the containments of the corona
are not part of the state, the call is logged. -/
def loadLatteLayout (s : LayoutManager) (layoutPath : String) : LayoutManager :=
  record s [Call.loadLatteLayout layoutPath]

/-- The path `LayoutManager::newLayout` chooses for a new layout: the name gets a
counter when files of the layouts directory already begin with it. -/
def newLayoutPath (env : Env) (layoutName : String) : String :=
  let files := env.entryList (layoutName ++ "*.layout.latte")
  let layoutName :=
    if files.length ≥ 1 then layoutName ++ "-" ++ toString (files.length + 1) else layoutName
  env.homePath ++ "/.config/latte" ++ "/" ++ layoutName ++ ".layout.latte"

/-- The function `LayoutManager::newLayout`, with the texts of `i18n` untranslated:
returns the path of the new layout file and copies the first preset to it when
the preset is the default one and the file does not exist. -/
def newLayout (env : Env) (s : LayoutManager) (layoutName preset : String) :
    String × LayoutManager :=
  (newLayoutPath env layoutName,
    record s
      (if preset = "Default" ∧ env.fileExists (newLayoutPath env layoutName) = false then
        [Call.copyFile (env.packageFilePath "preset1") (newLayoutPath env layoutName)]
      else []))

/-- The block of `switchToLayout` for a target that is already loaded in Multiple
mode.  It gives `none` when `appliedActivities[0]` is evaluated on an empty
list, `some (some s')` when the function returns `true` after asking the host
to change its current activity, and `some none` when control goes on. -/
def switchToPresentLayout (s : LayoutManager) (layoutName : String) (previousMemoryUsage : Int) :
    Option (Option LayoutManager) :=
  if memoryUsage s = .MultipleLayouts ∧ previousMemoryUsage = -1 then
    match activeLayout s layoutName with
    | some layout =>
      let applied := appliedActivities s layout
      let nextActivity : Option String :=
        if layout.lastUsedActivity ≠ "" then some layout.lastUsedActivity else applied.head?
      match nextActivity with
      | none => none
      | some next =>
        if s.activityConsumer.currentActivity ∉ applied then
          some (some (record s [Call.setCurrentActivity next]))
        else some none
    | none => some none
  else some none

/-- The signals of the block of `switchToLayout` that announces the layouts that
will change when the memory mode changes: one for every loaded original layout,
then one for every shared layout. -/
def switchingAnnouncements (s : LayoutManager) (previousMemoryUsage : Int) : List Call :=
  if previousMemoryUsage ≠ -1 then
    ((s.m_activeLayouts.filter (fun layout => layout.isOriginalLayout)).map
        (fun layout => Call.currentLayoutIsSwitching layout.name)) ++
      s.m_sharedLayouts.map (fun layout => Call.currentLayoutIsSwitching layout.name)
  else []

/-- The signal of the block of `switchToLayout` that runs once the path is found:
in Multiple mode and for a target other than the master, the loaded original
layout without activities is announced as switching when the target, read
from its file, has no activities either and bears another name. -/
def orphanAnnouncement (env : Env) (s : LayoutManager) (layoutName lPath : String) : List Call :=
  match memoryUsage s with
  | .SingleLayout => []
  | .MultipleLayouts =>
    if layoutName ≠ env.MultipleLayoutsName then
      let toActivities := (env.readFile lPath).activities
      match s.m_activeLayouts.find? (fun fromLayout =>
          fromLayout.isOriginalLayout && fromLayout.activities.isEmpty) with
      | some activeForOrphans =>
        if toActivities = [] ∧ env.layoutName lPath ≠ activeForOrphans.name then
          [Call.currentLayoutIsSwitching activeForOrphans.name]
        else []
      | none => []
    else []

/-- The function `LayoutManager::switchToLayout` up to the scheduling of its
deferred part, with the texts of `i18n` untranslated.  The result is `none`
when a list is indexed out of range, and otherwise the returned value with the
new state. -/
def switchToLayout (env : Env) (s : LayoutManager) (layoutName : String)
    (previousMemoryUsage : Int) : Option (Bool × LayoutManager) :=
  if s.m_activeLayouts.length > 0 ∧ currentLayoutName s = layoutName ∧ previousMemoryUsage = -1 then
    some (false, s)
  else
    match switchToPresentLayout s layoutName previousMemoryUsage with
    | none => none
    | some (some s') => some (true, s')
    | some none =>
      let s1 := record s (switchingAnnouncements s previousMemoryUsage)
      let found := layoutPath env layoutName
      let r := if found = "" ∧ layoutName = "Alternative" then
          newLayout env s1 "Alternative" "Default"
        else (found, s1)
      let lPath := r.1
      let s2 := r.2
      if lPath ≠ "" then
        let s3 := record s2 (orphanAnnouncement env s2 layoutName lPath)
        some (true, record s3 [Call.singleShotTransition 350 layoutName lPath previousMemoryUsage])
      else some (true, s2)

/-- The calls scheduled by the loop over the activities of an assigned layout: the
activity at position `i` is started `i * 1000` ms later and made current when it
is the last used one. -/
def scheduleStartActivities (lastUsedActivity : String) : List String → Nat → List Call
  | [], _ => []
  | assignedActivity :: rest, i =>
    Call.singleShotStartActivity (i * 1000) assignedActivity
        (decide (lastUsedActivity = assignedActivity)) ::
      scheduleStartActivities lastUsedActivity rest (i + 1)

/-- The block of the deferred part of `switchToLayout` for a target that is not
loaded in Multiple mode: the activities of the layout are started.  It gives
`none` when `layout.activities()[0]` is evaluated on an empty list. -/
def activateLayoutActivities (env : Env) (s : LayoutManager) (layoutName : String) :
    Option LayoutManager :=
  let layout := env.readFile (env.layoutFilePath layoutName)
  let lastUsedActivity := layout.lastUsedActivity
  let orphanedLayout := !layoutIsAssigned s layoutName
  if orphanedLayout = false then
    let assignedActivities := layout.activities
    let s1 := record s (scheduleStartActivities lastUsedActivity assignedActivities 0)
    let lastUsedActivityFound := decide (lastUsedActivity ∈ assignedActivities)
    if lastUsedActivityFound = false then
      match layout.activities with
      | [] => none
      | first :: _ => some (record s1 [Call.setCurrentActivity first])
    else some s1
  else
    let r := orphanedActivities s
    let assignedActivities := r.1
    let s1 := r.2
    let lastUsedActivityFound := decide (lastUsedActivity ∈ assignedActivities)
    let s2 :=
      if (lastUsedActivityFound = false ∧ assignedActivities.length = 0)
          ∨ s1.activityConsumer.currentActivity ∉ assignedActivities then
        record s1 [Call.singleShotStartActivity 1000 lastUsedActivity true]
      else s1
    some (syncMultipleLayoutsToActivities env s2 layoutName)

/-- The first block of the deferred part of `switchToLayout`: every layout is
unloaded and one layout is constructed and loaded, the master when Multiple mode
is being set up and the target otherwise. -/
def fullTransition (env : Env) (s : LayoutManager) (layoutName lPath : String)
    (initializingMultipleLayouts : Bool) : LayoutManager :=
  let s1 := unload env s
  let fixedLayoutName := if initializingMultipleLayouts then env.MultipleLayoutsName else layoutName
  let fixedLPath :=
    if initializingMultipleLayouts then layoutPath env env.MultipleLayoutsName else lPath
  let newLayout := ActiveLayout.construct env s1 fixedLPath fixedLayoutName
  let s2 := record s1 [Call.newActiveLayout fixedLPath fixedLayoutName]
  let s3 := addLayout s2 newLayout
  let s4 := loadLatteLayout s3 fixedLPath
  record s4 [Call.activeLayoutsChanged]

/-- Whether the deferred part of `switchToLayout` finds Multiple mode not set up
yet: the mode is Multiple and the master layout is not loaded. -/
def initializingMultipleLayouts (env : Env) (s : LayoutManager) : Bool :=
  decide (memoryUsage s = .MultipleLayouts ∧ activeLayout s env.MultipleLayoutsName = none)

/-- The first step of the deferred part of `switchToLayout`: the full transition
when the mode is Single, or Multiple mode is being set up, or the previous mode
was Multiple. -/
def deferredFirstStep (env : Env) (s : LayoutManager) (layoutName lPath : String)
    (previousMemoryUsage : Int) : LayoutManager :=
  if memoryUsage s = .SingleLayout ∨ initializingMultipleLayouts env s = true
      ∨ previousMemoryUsage = LayoutsMemoryUsage.MultipleLayouts.toInt then
    fullTransition env s layoutName lPath (initializingMultipleLayouts env s)
  else s

/-- The second step of the deferred part of `switchToLayout`, in Multiple mode:
the activities of a target that is not loaded are started, otherwise the
synchronizer runs with the target as the layout for orphans. -/
def deferredSecondStep (env : Env) (s1 : LayoutManager) (layoutName : String)
    (initializing : Bool) : Option LayoutManager :=
  match memoryUsage s1 with
  | .MultipleLayouts =>
    if initializing = false ∧ activeLayout s1 layoutName = none then
      activateLayoutActivities env s1 layoutName
    else some (syncMultipleLayoutsToActivities env s1 layoutName)
  | .SingleLayout => some s1

/-- The last step of the deferred part of `switchToLayout`: the target becomes the
current layout name and, when it is assigned to no activity, the last
non-assigned layout name. -/
def recordCurrentLayout (s2 : LayoutManager) (layoutName : String) : LayoutManager :=
  let s3 := { s2 with
    universalSettings := { s2.universalSettings with currentLayoutName := layoutName } }
  if layoutIsAssigned s3 layoutName = false then
    { s3 with
      universalSettings := { s3.universalSettings with lastNonAssignedLayoutName := layoutName } }
  else s3

/-- The deferred part of `LayoutManager::switchToLayout`, run 350 ms after the
call.  It gives `none` when a list is indexed out of range. -/
def switchToLayoutDeferred (env : Env) (s : LayoutManager) (layoutName lPath : String)
    (previousMemoryUsage : Int) : Option LayoutManager :=
  (deferredSecondStep env (deferredFirstStep env s layoutName lPath previousMemoryUsage)
      layoutName (initializingMultipleLayouts env s)).map
    (fun s2 => recordCurrentLayout s2 layoutName)

/-! ## The catalog `loadLayouts` -/

/-- The function `LayoutManager::validActivities`: the ids the host knows. -/
def validActivities (s : LayoutManager) (currentList : List String) : List String :=
  currentList.filter (fun activity => s.activityConsumer.activities.contains activity)

/-- The inner loop of `loadLayouts`: the valid activities of one layout are
assigned to it. -/
def assignActivities (name : String) : List String → QHash → QHash
  | [], m => m
  | activity :: rest, m => assignActivities name rest (m.assign activity name)

/-- The loop of `loadLayouts` over the files of the layouts directory. -/
def loadLayoutFiles (env : Env) : List String → LayoutManager → LayoutManager
  | [], s => s
  | layout :: rest, s =>
    let path := env.homePath ++ "/.config/latte" ++ "/" ++ layout
    let layoutSets := env.readFile path
    let name := env.layoutName path
    let validActivityIds := validActivities s layoutSets.activities
    let s1 := { s with
      m_assignedLayouts := assignActivities name validActivityIds s.m_assignedLayouts
      m_layouts := s.m_layouts ++ [name] }
    let s2 := if layoutSets.showInMenu then { s1 with m_menuLayouts := s1.m_menuLayouts ++ [name] }
      else s1
    loadLayoutFiles env rest s2

/-- The function `LayoutManager::loadLayouts`. -/
def loadLayouts (env : Env) (s : LayoutManager) : LayoutManager :=
  let s1 := { s with
    m_layouts := []
    m_menuLayouts := []
    m_presetsPaths := []
    m_assignedLayouts := { entries := [] } }
  let files := env.entryList "*.layout.latte"
  let s2 := loadLayoutFiles env files s1
  let s3 := { s2 with
    m_presetsPaths := s2.m_presetsPaths ++ [env.packageFilePath "preset1",
      env.packageFilePath "preset2", env.packageFilePath "preset3", env.packageFilePath "preset4"] }
  record s3 [Call.layoutsChanged, Call.menuLayoutsChanged]

/-! ## Vocabulary of the statements -/

/-- The calls made on one layout while the synchronizer unloads it, in order:
flush to its file when it is an original layout, teardown of containments and
views, purge of its unloaded containments from the linked file (skipped in
Single mode), deletion. -/
def unloadCalls (mode : LayoutsMemoryUsage) (l : ActiveLayout) : List Call :=
  (if l.isOriginalLayout then [Call.syncToLayoutFile l.name] else []) ++
    [Call.unloadContainments l.name, Call.unloadLatteViews l.name] ++
    (if mode = .SingleLayout then [] else [Call.clearUnloadedContainmentsFromLinkedFile l.name false]) ++
    [Call.deleteLayout l.name]

/-- The layout objects the unload loop removes for a list of names, in order. -/
def unloadedBy (env : Env) : List String → List ActiveLayout → List ActiveLayout
  | [], _ => []
  | n :: rest, active =>
    if n = env.MultipleLayoutsName then unloadedBy env rest active
    else
      match active.find? (fun l => l.name == n) with
      | none => unloadedBy env rest active
      | some l => l :: unloadedBy env rest (active.eraseP (fun l => l.name == n))

/-- The layout objects the unload loop leaves in the list for a list of names. -/
def keptBy (env : Env) : List String → List ActiveLayout → List ActiveLayout
  | [], active => active
  | n :: rest, active =>
    if n = env.MultipleLayoutsName then keptBy env rest active
    else keptBy env rest (active.eraseP (fun l => l.name == n))

/-- The loaded layouts have pairwise distinct names. -/
def NamesDistinct (s : LayoutManager) : Prop :=
  (s.m_activeLayouts.map (fun l => l.name)).Nodup

/-- The assignment-map invariant: every entry that assigns a layout to an
activity names a layout whose persisted activity set contains that activity. -/
def AssignmentInvariant (env : Env) (s : LayoutManager) : Prop :=
  ∀ e ∈ s.m_assignedLayouts.entries, e.2 ≠ "" →
    e.1 ∈ (env.readFile (layoutPath env e.2)).activities

instance (s : LayoutManager) : Decidable (NamesDistinct s) := by
  unfold NamesDistinct
  infer_instance

instance (env : Env) (s : LayoutManager) : Decidable (AssignmentInvariant env s) := by
  unfold AssignmentInvariant
  infer_instance

/-- The state `s2` arises from `s1` by loading layouts only: nothing but the list
of loaded layouts and the call log differs, the list grows at its end by
freshly constructed layouts whose names satisfy `N` and were not loaded, and the
new calls are no unload calls. -/
def LoadsOnly (env : Env) (N : String → Prop) (s1 s2 : LayoutManager) : Prop :=
  s2.universalSettings = s1.universalSettings ∧
  s2.activityConsumer = s1.activityConsumer ∧
  s2.m_assignedLayouts = s1.m_assignedLayouts ∧
  s2.m_sharedLayouts = s1.m_sharedLayouts ∧
  s2.m_currentLayoutNameInMultiEnvironment = s1.m_currentLayoutNameInMultiEnvironment ∧
  s2.m_shouldSwitchToLayout = s1.m_shouldSwitchToLayout ∧
  s2.m_dynamicSwitchTimer = s1.m_dynamicSwitchTimer ∧
  (∃ added : List ActiveLayout, s2.m_activeLayouts = s1.m_activeLayouts ++ added ∧
    (added.map (fun l => l.name)).Nodup ∧
    ∀ l ∈ added, N l.name ∧ activeLayout s1 l.name = none ∧
      l.activities = (env.readFile (layoutPath env l.name)).activities) ∧
  (∃ cs : List Call, s2.calls = s1.calls ++ cs ∧ ∀ c ∈ cs, c.isUnload = false)

/-- The state of `syncMultipleLayoutsToActivities` after its unload loop. -/
def afterUnload (env : Env) (s : LayoutManager) (layoutForOrphans : String) : LayoutManager :=
  unloadNoNeededLayouts env (layoutsToUnload env s layoutForOrphans)
    { s with m_assignedLayouts := (reservation env s).assigned }

/-- The state of `syncMultipleLayoutsToActivities` after its two load blocks. -/
def afterLoad (env : Env) (s : LayoutManager) (layoutForOrphans : String) : LayoutManager :=
  addNeededLayouts env (reservation env s).layoutsToLoad
    (addLayoutForOrphans env (afterUnload env s layoutForOrphans)
      (orphanLayoutName s layoutForOrphans)
      (reservation env s).allRunningActivitiesWillBeReserved)

/-- The path `switchToLayout` works with: the path of the layout file, or the path
of the layout it creates when the target `Alternative` has no file. -/
def resolvedPath (env : Env) (layoutName : String) : String :=
  if layoutPath env layoutName = "" ∧ layoutName = "Alternative" then
    newLayoutPath env "Alternative"
  else layoutPath env layoutName

/-- The calls `switchToLayout` makes to create the layout `Alternative`. -/
def creationCalls (env : Env) (layoutName : String) : List Call :=
  if layoutPath env layoutName = "" ∧ layoutName = "Alternative" then
    (if env.fileExists (newLayoutPath env "Alternative") = false then
      [Call.copyFile (env.packageFilePath "preset1") (newLayoutPath env "Alternative")]
    else [])
  else []

/-- The calls `switchToLayout` makes once the path is found: the announcement for
the orphan layout and the scheduling of the deferred part. -/
def schedulingCalls (env : Env) (s : LayoutManager) (layoutName : String)
    (previousMemoryUsage : Int) : List Call :=
  if resolvedPath env layoutName ≠ "" then
    orphanAnnouncement env s layoutName (resolvedPath env layoutName) ++
      [Call.singleShotTransition 350 layoutName (resolvedPath env layoutName) previousMemoryUsage]
  else []

/-- The layouts announced as switching in a call log, in order. -/
def switchingNotices : List Call → List String
  | [] => []
  | Call.currentLayoutIsSwitching layout :: rest => layout :: switchingNotices rest
  | _ :: rest => switchingNotices rest

/-- The deferred transitions scheduled in a call log. -/
def scheduledTransitions : List Call → List Call
  | [] => []
  | Call.singleShotTransition msec layout path previous :: rest =>
    Call.singleShotTransition msec layout path previous :: scheduledTransitions rest
  | _ :: rest => scheduledTransitions rest

/-- The calls `unload` makes on one layout, in order: flush to its file when
`flush` holds, teardown of containments and of views, purge of its unloaded
containments from the linked file when `flush` holds, deletion. -/
def fullUnloadCalls (flush : Bool) (name : String) : List Call :=
  (if flush then [Call.syncToLayoutFile name] else []) ++
    [Call.unloadContainments name, Call.unloadLatteViews name] ++
    (if flush then [Call.clearUnloadedContainmentsFromLinkedFile name true] else []) ++
    [Call.deleteLayout name]

/-- The removals of the temporary files at the end of `unload`. -/
def tempFileCalls (env : Env) : List Call :=
  (if env.fileExists (env.homePath ++ "/.config/lattedock.copy1.bak") then
    [Call.removeFile (env.homePath ++ "/.config/lattedock.copy1.bak")] else []) ++
  (if env.fileExists (env.homePath ++ "/.config/lattedock.copy2.bak") then
    [Call.removeFile (env.homePath ++ "/.config/lattedock.copy2.bak")] else [])

/-- The start requests scheduled in a call log: delay and activity, in order. -/
def startRequests : List Call → List (Nat × String)
  | [] => []
  | Call.singleShotStartActivity msec activity _ :: rest => (msec, activity) :: startRequests rest
  | _ :: rest => startRequests rest

/-- The path of a file of the layouts directory, as `loadLayouts` builds it. -/
def catalogPath (env : Env) (file : String) : String :=
  env.homePath ++ "/.config/latte" ++ "/" ++ file

/-- The assignment-map invariant with respect to the catalog: every entry
`activity -> name` names a layout of the catalog, and some file of the layouts
directory carries this name and a validated activity set that contains the
activity. -/
def CatalogInvariant (env : Env) (s : LayoutManager) : Prop :=
  ∀ e ∈ s.m_assignedLayouts.entries, e.2 ∈ s.m_layouts ∧
    ∃ file ∈ env.entryList "*.layout.latte", env.layoutName (catalogPath env file) = e.2 ∧
      e.1 ∈ validActivities s (env.readFile (catalogPath env file)).activities

instance (env : Env) (s : LayoutManager) : Decidable (CatalogInvariant env s) := by
  unfold CatalogInvariant
  infer_instance

/-- The states the engine reaches from an empty list of loaded layouts: by the
synchronizer, by `unload`, by the deferred part of `switchToLayout`, and by any
step that leaves the list of loaded layouts alone (a change of the settings or
of the host's activities, the rescan `loadLayouts`, the immediate part of
`switchToLayout`). -/
inductive Reachable (env : Env) : LayoutManager → Prop
  | start (s : LayoutManager) (h : s.m_activeLayouts = []) : Reachable env s
  | sync (s : LayoutManager) (layoutForOrphans : String) (h : Reachable env s) :
      Reachable env (syncMultipleLayoutsToActivities env s layoutForOrphans)
  | unload (s : LayoutManager) (h : Reachable env s) : Reachable env (unload env s)
  | deferred (s s2 : LayoutManager) (layoutName lPath : String) (previousMemoryUsage : Int)
      (h : Reachable env s)
      (hstep : switchToLayoutDeferred env s layoutName lPath previousMemoryUsage = some s2) :
      Reachable env s2
  | other (s s2 : LayoutManager) (h : Reachable env s)
      (hsame : s2.m_activeLayouts = s.m_activeLayouts) : Reachable env s2

/-! ## Concrete scenarios -/

/-- A layouts directory holding the master layout and the layouts `L1` (for the
activities `act1` and `act4`), `L2` (for `act2`) and `Work` (for no activity);
a file read under any other name, such as `Home`, has no activities, and no
file exists for the empty layout name, for `Ghost` and for `Alternative`. -/
def demoEnv : Env :=
  { MultipleLayoutsName := ".multiple-layouts_hidden"
    homePath := "/home/u"
    fileExists := fun path =>
      !(["/home/u/.config/latte/.layout.latte", "/home/u/.config/latte/Ghost.layout.latte",
        "/home/u/.config/latte/Alternative.layout.latte"].contains path)
    readFile := fun path =>
      if path = "/home/u/.config/latte/L1.layout.latte" then
        { activities := ["act1", "act4"], lastUsedActivity := "act1", isOriginalLayout := true,
          showInMenu := true }
      else if path = "/home/u/.config/latte/L2.layout.latte" then
        { activities := ["act2"], lastUsedActivity := "act2", isOriginalLayout := true,
          showInMenu := true }
      else if path = "/home/u/.config/latte/.multiple-layouts_hidden.layout.latte" then
        { activities := [], lastUsedActivity := "", isOriginalLayout := false,
          showInMenu := false }
      else
        { activities := [], lastUsedActivity := "", isOriginalLayout := true, showInMenu := true }
    entryList := fun filter =>
      if filter = "*.layout.latte" then
        [".multiple-layouts_hidden.layout.latte", "L1.layout.latte", "L2.layout.latte",
          "Work.layout.latte"]
      else []
    layoutName := fun path =>
      if path = "/home/u/.config/latte/L1.layout.latte" then "L1"
      else if path = "/home/u/.config/latte/L2.layout.latte" then "L2"
      else if path = "/home/u/.config/latte/Work.layout.latte" then "Work"
      else if path = "/home/u/.config/latte/Home.layout.latte" then "Home"
      else if path = "/home/u/.config/latte/Alternative.layout.latte" then "Alternative"
      else if path = "/home/u/.config/latte/.multiple-layouts_hidden.layout.latte" then
        ".multiple-layouts_hidden"
      else ""
    layoutFilePath := fun name => "/home/u/.config/latte/" ++ name ++ ".layout.latte"
    packageFilePath := fun file => "/usr/share/latte/" ++ file }

/-- The loaded master layout of the scenarios. -/
def demoMaster : ActiveLayout :=
  { ptr := 1, name := ".multiple-layouts_hidden", activities := [], lastUsedActivity := "",
    isOriginalLayout := false }

/-- Scenario A: activities `act1` and `act2` run, are assigned to `L1` and `L2`,
and both layouts are loaded next to the master; the activity `act4`, also
assigned to `L1`, and the unassigned activity `act3` are stopped. -/
def scenarioA : LayoutManager :=
  { universalSettings :=
      { layoutsMemoryUsage := .MultipleLayouts, currentLayoutName := "L1",
        lastNonAssignedLayoutName := "Work", showInfoWindow := false }
    activityConsumer :=
      { activities := ["act1", "act2", "act3", "act4"], runningActivities := ["act1", "act2"],
        currentActivity := "act1" }
    m_layouts := [".multiple-layouts_hidden", "L1", "L2", "Work"]
    m_menuLayouts := ["L1", "L2", "Work"]
    m_presetsPaths := []
    m_assignedLayouts := { entries := [("act1", "L1"), ("act2", "L2"), ("act4", "L1")] }
    m_activeLayouts :=
      [demoMaster,
       { ptr := 2, name := "L1", activities := ["act1", "act4"], lastUsedActivity := "act1",
         isOriginalLayout := true },
       { ptr := 3, name := "L2", activities := ["act2"], lastUsedActivity := "act2",
         isOriginalLayout := true }]
    m_sharedLayouts := []
    m_currentLayoutNameInMultiEnvironment := "L1"
    m_shouldSwitchToLayout := ""
    m_dynamicSwitchTimer := { interval := 2300, active := false }
    calls := [] }

/-- Scenario B: as scenario A, and the unassigned activity `act3` has started. -/
def scenarioB : LayoutManager :=
  { scenarioA with
    activityConsumer :=
      { activities := ["act1", "act2", "act3", "act4"],
        runningActivities := ["act1", "act2", "act3"], currentActivity := "act3" } }

/-- Activity `act2` of scenario A has stopped and the unassigned `act3` has started. -/
def scenarioSwap : LayoutManager :=
  { scenarioA with
    activityConsumer :=
      { activities := ["act1", "act2", "act3", "act4"],
        runningActivities := ["act1", "act3"], currentActivity := "act3" } }

/-- The value of `shouldSwitchToLayout` as the specification words it: the
assigned layout if an assignment exists and differs from the current layout
name, else the last non-assigned layout name if that is set and differs from
the current layout name, else the empty string. -/
def shouldSwitchAsSpecified (s : LayoutManager) (activityId : String) : String :=
  if s.m_assignedLayouts.contains activityId = true
      ∧ s.m_assignedLayouts.value activityId ≠ currentLayoutName s then
    s.m_assignedLayouts.value activityId
  else if s.universalSettings.lastNonAssignedLayoutName ≠ ""
      ∧ s.universalSettings.lastNonAssignedLayoutName ≠ currentLayoutName s then
    s.universalSettings.lastNonAssignedLayoutName
  else ""

/-- Single mode: the layout `L1` is current, the current activity `act1` is
assigned to it, `act2` is assigned to `L2`, and `Work` is the last non-assigned
layout. -/
def scenarioSingle : LayoutManager :=
  { universalSettings :=
      { layoutsMemoryUsage := .SingleLayout, currentLayoutName := "L1",
        lastNonAssignedLayoutName := "Work", showInfoWindow := false }
    activityConsumer :=
      { activities := ["act1", "act2", "act3"], runningActivities := ["act1", "act2", "act3"],
        currentActivity := "act1" }
    m_layouts := [".multiple-layouts_hidden", "L1", "L2", "Work"]
    m_menuLayouts := ["L1", "L2", "Work"]
    m_presetsPaths := []
    m_assignedLayouts := { entries := [("act1", "L1"), ("act2", "L2")] }
    m_activeLayouts :=
      [{ ptr := 1, name := "L1", activities := ["act1"], lastUsedActivity := "act1",
         isOriginalLayout := true }]
    m_sharedLayouts := []
    m_currentLayoutNameInMultiEnvironment := ""
    m_shouldSwitchToLayout := ""
    m_dynamicSwitchTimer := { interval := 2300, active := false }
    calls := [] }

/-- Multiple mode right after its start: only the master is loaded, no last
non-assigned layout is recorded yet, and the unassigned activity `act3` runs. -/
def scenarioFresh : LayoutManager :=
  { scenarioA with
    universalSettings :=
      { layoutsMemoryUsage := .MultipleLayouts, currentLayoutName := "L1",
        lastNonAssignedLayoutName := "", showInfoWindow := false }
    activityConsumer :=
      { activities := ["act1", "act2", "act3", "act4"], runningActivities := ["act3"],
        currentActivity := "act3" }
    m_activeLayouts := [demoMaster]
    m_currentLayoutNameInMultiEnvironment := "" }

/-- The state reached from `scenarioFresh` by one reconciliation, with an empty call log. -/
def scenarioNameless : LayoutManager :=
  { syncMultipleLayoutsToActivities demoEnv scenarioFresh "" with calls := [] }

/-- The state `scenarioNameless` after `act3` has stopped and `act1` has started. -/
def scenarioNamelessReserved : LayoutManager :=
  { scenarioNameless with
    activityConsumer :=
      { activities := ["act1", "act2", "act3", "act4"], runningActivities := ["act1"],
        currentActivity := "act1" } }

/-- The state `scenarioSingle` after the host has made `act2` current and the
dynamic-switch timer has run out. -/
def scenarioPending : LayoutManager :=
  { hostActivityChange scenarioSingle "act2" with
    m_dynamicSwitchTimer := { interval := 2300, active := false } }

/-- Single mode at start-up: the current layout name is `L1` and no layout is
loaded yet. -/
def scenarioStartup : LayoutManager :=
  { scenarioSingle with m_activeLayouts := [] }

/-- The state `scenarioSingle` with the information window enabled. -/
def scenarioInfo : LayoutManager :=
  { scenarioSingle with
    universalSettings :=
      { layoutsMemoryUsage := .SingleLayout, currentLayoutName := "L1",
        lastNonAssignedLayoutName := "Work", showInfoWindow := true } }

/-- The state reached from scenario B by one reconciliation, with an empty call
log: the master, `L1`, `L2` and the orphan layout `Work` are loaded and the
unassigned activity `act3` is current. -/
def scenarioWork : LayoutManager :=
  { syncMultipleLayoutsToActivities demoEnv scenarioB "" with calls := [] }

/-- Scenario A with a current layout name that is not `L1`. -/
def scenarioStale : LayoutManager :=
  { scenarioA with m_currentLayoutNameInMultiEnvironment := "L2" }

/-- The state of `scenarioWork` with the assigned activity `act1` current. -/
def scenarioWorkElsewhere : LayoutManager :=
  { scenarioWork with
    activityConsumer :=
      { activities := ["act1", "act2", "act3", "act4"],
        runningActivities := ["act1", "act2", "act3"], currentActivity := "act1" } }

/-- Scenario A after the activity `act1` has stopped and `L1` was unloaded: only
`act2` runs and the master and `L2` are loaded. -/
def scenarioResting : LayoutManager :=
  { scenarioA with
    activityConsumer :=
      { activities := ["act1", "act2", "act3", "act4"], runningActivities := ["act2"],
        currentActivity := "act2" }
    m_activeLayouts :=
      [demoMaster,
       { ptr := 3, name := "L2", activities := ["act2"], lastUsedActivity := "act2",
         isOriginalLayout := true }]
    m_currentLayoutNameInMultiEnvironment := "L2" }

/-- The state of `scenarioWork` after the unassigned activity `act3` has stopped:
every running activity is assigned and the orphan layout `Work` is loaded. -/
def scenarioWorkSettled : LayoutManager :=
  { scenarioWork with
    activityConsumer :=
      { activities := ["act1", "act2", "act3", "act4"],
        runningActivities := ["act1", "act2"], currentActivity := "act1" } }

/-- The loaded layout `L2` of scenario A. -/
def demoL2 : ActiveLayout :=
  { ptr := 3, name := "L2", activities := ["act2"], lastUsedActivity := "act2",
    isOriginalLayout := true }

/-- The state `scenarioResting` with the activity `act3` assigned to the layout
`Home`, whose file declares no activities. -/
def scenarioMisassigned : LayoutManager :=
  { scenarioResting with
    m_assignedLayouts :=
      { entries := [("act1", "L1"), ("act2", "L2"), ("act4", "L1"), ("act3", "Home")] } }

/-- Scenario B with the running activity `act3` assigned to `Work` in the map
although the file of `Work` declares no activities, as when the file was changed
after the last rescan. -/
def scenarioStaleAssignment : LayoutManager :=
  { scenarioB with
    m_assignedLayouts :=
      { entries := [("act1", "L1"), ("act2", "L2"), ("act4", "L1"), ("act3", "Work")] } }

/-- Scenario A for a host that knows no unassigned activity: its activities are
`act1`, `act2` and `act4`. -/
def scenarioAssigned : LayoutManager :=
  { scenarioA with
    activityConsumer :=
      { activities := ["act1", "act2", "act4"], runningActivities := ["act1", "act2"],
        currentActivity := "act1" } }

/-- The environment `demoEnv` after the file of `L2` was changed to declare the
activity `act3` besides `act2`. -/
def rescanEnv : Env :=
  { demoEnv with
    readFile := fun path =>
      if path = "/home/u/.config/latte/L2.layout.latte" then
        { activities := ["act2", "act3"], lastUsedActivity := "act2", isOriginalLayout := true,
          showInMenu := true }
      else demoEnv.readFile path }

/-- Multiple mode with only the master loaded while `act1`, `act2` and `act3` run
and `act1` is current; the assignment map is the one scanned from the files of
`demoEnv`, in which no layout declares `act3`. -/
def scenarioScanned : LayoutManager :=
  loadLayouts demoEnv
    { scenarioFresh with
      universalSettings :=
        { layoutsMemoryUsage := .MultipleLayouts, currentLayoutName := "L1",
          lastNonAssignedLayoutName := "Work", showInfoWindow := false }
      activityConsumer :=
        { activities := ["act1", "act2", "act3", "act4"],
          runningActivities := ["act1", "act2", "act3"], currentActivity := "act1" } }

/-- The state reached from `scenarioScanned` once the file of `L2` declares
`act3`: the synchronizer runs with the map scanned before the change and loads
`Work` for `act3`, then the catalog is rescanned. -/
def scenarioRescanned : LayoutManager :=
  loadLayouts rescanEnv (syncMultipleLayoutsToActivities rescanEnv scenarioScanned "")

/-! ## Facts about the hash of assigned layouts -/

namespace QHash

theorem value_append_absent (m : QHash) (key v k : String) (h : m.contains key = false) :
    (QHash.mk (m.entries ++ [(key, v)])).value k = if k = key then (if m.contains k then m.value k else v) else m.value k := by
  unfold QHash.value QHash.contains at *
  simp only [List.find?_append]
  cases hf : m.entries.find? (fun e => e.1 == k) with
  | some e =>
    have hk : m.entries.any (fun e => e.1 == k) = true := by
      rw [List.any_eq_true]
      exact ⟨e, List.mem_of_find?_eq_some hf, @List.find?_some _ (fun e => e.1 == k) e _ hf⟩
    simp [hk]
  | none =>
    have hk : m.entries.any (fun e => e.1 == k) = false := by
      rw [Bool.eq_false_iff]
      intro hc
      rw [List.any_eq_true] at hc
      obtain ⟨x, hx, hpx⟩ := hc
      exact (List.find?_eq_none.mp hf) x hx hpx
    by_cases hkk : k = key
    · subst hkk
      simp [hk]
    · have : (key == k) = false := by
        rw [beq_eq_false_iff_ne]
        exact fun h => hkk h.symm
      simp [hk, hkk, this]

theorem value_of_not_contains (m : QHash) (k : String) (h : m.contains k = false) :
    m.value k = "" := by
  unfold QHash.value QHash.contains at *
  cases hf : m.entries.find? (fun e => e.1 == k) with
  | some e =>
    have hk : m.entries.any (fun e => e.1 == k) = true := by
      rw [List.any_eq_true]
      exact ⟨e, List.mem_of_find?_eq_some hf, @List.find?_some _ (fun e => e.1 == k) e _ hf⟩
    rw [hk] at h
    cases h
  | none => rfl

theorem subscript_fst (m : QHash) (k : String) : (m.subscript k).1 = m.value k := by
  unfold QHash.subscript
  by_cases h : m.contains k = true
  · simp [h]
  · have h' : m.contains k = false := by simpa using h
    simp [h', value_of_not_contains m k h']

theorem subscript_value (m : QHash) (k k' : String) :
    (m.subscript k).2.value k' = m.value k' := by
  unfold QHash.subscript
  by_cases h : m.contains k = true
  · simp [h]
  · have h' : m.contains k = false := by simpa using h
    simp only [h', Bool.false_eq_true, if_false]
    rw [value_append_absent m k "" k' h']
    by_cases hk : k' = k
    · subst hk
      simp [h', value_of_not_contains m k' h']
    · simp [hk]

theorem subscript_values (m : QHash) (k x : String) (hx : x ≠ "") :
    x ∈ (m.subscript k).2.values ↔ x ∈ m.values := by
  unfold QHash.subscript QHash.values
  by_cases h : m.contains k = true
  · simp [h]
  · have h' : m.contains k = false := by simpa using h
    simp only [h', Bool.false_eq_true, if_false, List.map_append, List.mem_append, List.map_cons,
      List.map_nil, List.mem_singleton]
    constructor
    · rintro (h1 | h1)
      · exact h1
      · exact absurd h1 hx
    · exact fun h1 => Or.inl h1

theorem subscript_entries (m : QHash) (k : String) (e : String × String)
    (he : e ∈ (m.subscript k).2.entries) : e ∈ m.entries ∨ e = (k, "") := by
  unfold QHash.subscript at he
  by_cases h : m.contains k = true
  · simp [h] at he
    exact Or.inl he
  · have h' : m.contains k = false := by simpa using h
    simp only [h', Bool.false_eq_true, if_false, List.mem_append, List.mem_singleton] at he
    exact he

theorem value_mem_values (m : QHash) (k : String) (h : m.value k ≠ "") :
    (k, m.value k) ∈ m.entries := by
  unfold QHash.value at *
  cases hf : m.entries.find? (fun e => e.1 == k) with
  | some e =>
    have hk : e.1 = k := by simpa using @List.find?_some _ (fun e => e.1 == k) e _ hf
    have hm := List.mem_of_find?_eq_some hf
    simp only [hf]
    rw [← hk]
    exact hm
  | none => simp [hf] at h

end QHash

/-! ## Facts about the loop over the running activities -/

theorem reserveLayouts_value (acts : List String) (r : Reservation) (k : String) :
    (reserveLayouts acts r).assigned.value k = r.assigned.value k := by
  induction acts generalizing r with
  | nil => rfl
  | cons a rest ih =>
    unfold reserveLayouts
    simp only []
    split_ifs <;> rw [ih] <;> exact QHash.subscript_value _ _ _

theorem reserveLayouts_values (acts : List String) (r : Reservation) (x : String) (hx : x ≠ "") :
    x ∈ (reserveLayouts acts r).assigned.values ↔ x ∈ r.assigned.values := by
  induction acts generalizing r with
  | nil => rfl
  | cons a rest ih =>
    unfold reserveLayouts
    simp only []
    split_ifs <;> rw [ih] <;> exact QHash.subscript_values _ _ _ hx

theorem mem_reserveLayouts (acts : List String) (r : Reservation) (x : String) :
    x ∈ (reserveLayouts acts r).layoutsToLoad ↔
      x ∈ r.layoutsToLoad ∨ (x ≠ "" ∧ ∃ a ∈ acts, r.assigned.value a = x) := by
  induction acts generalizing r with
  | nil => simp [reserveLayouts]
  | cons a rest ih =>
    unfold reserveLayouts
    simp only [QHash.subscript_fst]
    split_ifs with h1 h2
    · rw [ih]
      simp only [QHash.subscript_value, List.mem_cons, exists_eq_or_imp]
      constructor
      · rintro (h | ⟨hx, a', ha', hv⟩)
        · exact Or.inl h
        · exact Or.inr ⟨hx, Or.inr ⟨a', ha', hv⟩⟩
      · rintro (h | ⟨hx, hv | ⟨a', ha', hv⟩⟩)
        · exact Or.inl h
        · exact Or.inl (hv ▸ h2)
        · exact Or.inr ⟨hx, a', ha', hv⟩
    · rw [ih]
      simp only [QHash.subscript_value, List.mem_cons, exists_eq_or_imp, List.mem_append,
        List.mem_singleton, List.not_mem_nil, or_false]
      constructor
      · rintro ((h | h) | ⟨hx, a', ha', hv⟩)
        · exact Or.inl h
        · exact Or.inr ⟨h ▸ h1, Or.inl h.symm⟩
        · exact Or.inr ⟨hx, Or.inr ⟨a', ha', hv⟩⟩
      · rintro (h | ⟨hx, hv | ⟨a', ha', hv⟩⟩)
        · exact Or.inl (Or.inl h)
        · exact Or.inl (Or.inr hv.symm)
        · exact Or.inr ⟨hx, a', ha', hv⟩
    · rw [ih]
      simp only [QHash.subscript_value, List.mem_cons, exists_eq_or_imp]
      have h1' : r.assigned.value a = "" := by simpa using h1
      constructor
      · rintro (h | ⟨hx, a', ha', hv⟩)
        · exact Or.inl h
        · exact Or.inr ⟨hx, Or.inr ⟨a', ha', hv⟩⟩
      · rintro (h | ⟨hx, hv | ⟨a', ha', hv⟩⟩)
        · exact Or.inl h
        · exact absurd (hv ▸ h1') hx
        · exact Or.inr ⟨hx, a', ha', hv⟩

theorem reserveLayouts_allReserved (acts : List String) (r : Reservation) :
    (reserveLayouts acts r).allRunningActivitiesWillBeReserved = true ↔
      r.allRunningActivitiesWillBeReserved = true ∧ ∀ a ∈ acts, r.assigned.value a ≠ "" := by
  induction acts generalizing r with
  | nil => simp [reserveLayouts]
  | cons a rest ih =>
    unfold reserveLayouts
    simp only [QHash.subscript_fst]
    split_ifs with h1 h2
    · rw [ih]
      simp only [QHash.subscript_value, List.mem_cons, forall_eq_or_imp]
      tauto
    · rw [ih]
      simp only [QHash.subscript_value, List.mem_cons, forall_eq_or_imp]
      tauto
    · rw [ih]
      simp only [QHash.subscript_value, List.mem_cons, forall_eq_or_imp]
      have h1' : r.assigned.value a = "" := by simpa using h1
      constructor
      · rintro ⟨h, _⟩
        exact absurd h (by simp)
      · rintro ⟨_, h, _⟩
        exact absurd h1' h

theorem reserveLayouts_entries (acts : List String) (r : Reservation) (e : String × String)
    (he : e ∈ (reserveLayouts acts r).assigned.entries) : e ∈ r.assigned.entries ∨ e.2 = "" := by
  induction acts generalizing r with
  | nil => exact Or.inl he
  | cons a rest ih =>
    unfold reserveLayouts at he
    simp only [] at he
    have key : ∀ r' : Reservation, r'.assigned = (r.assigned.subscript a).2 →
        e ∈ (reserveLayouts rest r').assigned.entries → e ∈ r.assigned.entries ∨ e.2 = "" := by
      intro r' hr' h
      rcases ih r' h with h | h
      · rw [hr'] at h
        rcases QHash.subscript_entries _ _ _ h with h | h
        · exact Or.inl h
        · exact Or.inr (by rw [h])
      · exact Or.inr h
    split_ifs at he
    · exact key _ rfl he
    · exact key _ rfl he
    · exact key _ rfl he

/-- Membership in `layoutsToLoad`: the master and the assigned layouts of the running activities. -/
theorem mem_layoutsToLoad (env : Env) (s : LayoutManager) (x : String) :
    x ∈ (reservation env s).layoutsToLoad ↔
      x = env.MultipleLayoutsName ∨
        (x ≠ "" ∧ ∃ a ∈ runningActivities s, s.m_assignedLayouts.value a = x) := by
  unfold reservation
  rw [mem_reserveLayouts]
  simp

/-- The flag `allRunningActivitiesWillBeReserved`: every running activity has an assignment. -/
theorem allReserved_iff (env : Env) (s : LayoutManager) :
    (reservation env s).allRunningActivitiesWillBeReserved = true ↔
      ∀ a ∈ runningActivities s, s.m_assignedLayouts.value a ≠ "" := by
  unfold reservation
  rw [reserveLayouts_allReserved]
  simp

/-! ## Facts about the unload pass -/

theorem mem_collectLayoutsToUnload (toLoad : List String) (orphans : String) (allRes : Bool)
    (ls : List ActiveLayout) (acc : List String) (x : String) :
    x ∈ collectLayoutsToUnload toLoad orphans allRes ls acc ↔
      x ∈ acc ∨ (x ≠ "" ∧ ∃ l ∈ ls, tempLayoutName toLoad orphans allRes l = x) := by
  induction ls generalizing acc with
  | nil => simp [collectLayoutsToUnload]
  | cons l rest ih =>
    unfold collectLayoutsToUnload
    simp only []
    split_ifs with h
    · rw [ih]
      simp only [List.mem_append, List.mem_singleton, List.mem_cons, exists_eq_or_imp,
        List.not_mem_nil, or_false]
      constructor
      · rintro ((h1 | h1) | ⟨hx, l', hl', ht⟩)
        · exact Or.inl h1
        · exact Or.inr ⟨h1 ▸ h.1, Or.inl h1.symm⟩
        · exact Or.inr ⟨hx, Or.inr ⟨l', hl', ht⟩⟩
      · rintro (h1 | ⟨hx, ht | ⟨l', hl', ht⟩⟩)
        · exact Or.inl (Or.inl h1)
        · exact Or.inl (Or.inr ht.symm)
        · exact Or.inr ⟨hx, l', hl', ht⟩
    · rw [ih]
      simp only [List.mem_cons, exists_eq_or_imp]
      constructor
      · rintro (h1 | ⟨hx, l', hl', ht⟩)
        · exact Or.inl h1
        · exact Or.inr ⟨hx, Or.inr ⟨l', hl', ht⟩⟩
      · rintro (h1 | ⟨hx, ht | ⟨l', hl', ht⟩⟩)
        · exact Or.inl h1
        · rw [not_and_or, not_not, not_not] at h
          rcases h with h | h
          · exact absurd (ht ▸ h) hx
          · exact Or.inl (ht ▸ h)
        · exact Or.inr ⟨hx, l', hl', ht⟩

theorem activeLayoutPosFrom_spec (id : String) (ls : List ActiveLayout) (i : Int) (hi : 0 ≤ i) :
    (ls.find? (fun l => l.name == id) = none ∧ activeLayoutPosFrom id ls i = -1) ∨
    (∃ l, ls.find? (fun l => l.name == id) = some l ∧ i ≤ activeLayoutPosFrom id ls i ∧
      ls.eraseIdx (activeLayoutPosFrom id ls i - i).toNat = ls.eraseP (fun l => l.name == id)) := by
  induction ls generalizing i with
  | nil => exact Or.inl ⟨rfl, rfl⟩
  | cons l rest ih =>
    unfold activeLayoutPosFrom
    by_cases h : l.name = id
    · right
      refine ⟨l, ?_, ?_, ?_⟩
      · simp [List.find?_cons, h]
      · simp [h]
      · simp [h, List.eraseP_cons]
    · have hb : (l.name == id) = false := by simpa using h
      rcases ih (i + 1) (by omega) with ⟨h1, h2⟩ | ⟨x, h1, h2, h3⟩
      · left
        simp [List.find?_cons, hb, h1, h, h2]
      · right
        refine ⟨x, ?_, ?_, ?_⟩
        · simp [List.find?_cons, hb, h1]
        · simp only [h, if_false]
          omega
        · simp only [h, if_false, List.eraseP_cons, hb, cond_false]
          have e : (activeLayoutPosFrom id rest (i + 1) - i).toNat =
              (activeLayoutPosFrom id rest (i + 1) - (i + 1)).toNat + 1 := by omega
          rw [e, List.eraseIdx_cons_succ, h3]

theorem keptBy_nil (env : Env) (active : List ActiveLayout) : keptBy env [] active = active := rfl

theorem keptBy_cons (env : Env) (n : String) (rest : List String) (active : List ActiveLayout) :
    keptBy env (n :: rest) active =
      if n = env.MultipleLayoutsName then keptBy env rest active
      else keptBy env rest (active.eraseP (fun l => l.name == n)) := rfl

theorem unloadedBy_nil (env : Env) (active : List ActiveLayout) : unloadedBy env [] active = [] := rfl

theorem unloadedBy_cons (env : Env) (n : String) (rest : List String) (active : List ActiveLayout) :
    unloadedBy env (n :: rest) active =
      if n = env.MultipleLayoutsName then unloadedBy env rest active
      else
        match active.find? (fun l => l.name == n) with
        | none => unloadedBy env rest active
        | some l => l :: unloadedBy env rest (active.eraseP (fun l => l.name == n)) := rfl

/-- The effect of the unload loop body for one name. -/
theorem unloadNoNeededLayout_eq (env : Env) (s : LayoutManager) (n : String) :
    unloadNoNeededLayout env s n =
      { s with
        m_activeLayouts := keptBy env [n] s.m_activeLayouts
        calls := s.calls ++ (unloadedBy env [n] s.m_activeLayouts).flatMap (unloadCalls (memoryUsage s)) } := by
  rw [keptBy_cons, unloadedBy_cons]
  simp only [keptBy_nil, unloadedBy_nil]
  unfold unloadNoNeededLayout
  by_cases hm : n = env.MultipleLayoutsName
  · simp [hm]
  · simp only [hm, ne_eq, not_false_eq_true, if_true, if_false]
    unfold activeLayout activeLayoutPos
    rcases activeLayoutPosFrom_spec n s.m_activeLayouts 0 (le_refl 0) with ⟨h1, h2⟩ | ⟨l, h1, h2, h3⟩
    · have hk : s.m_activeLayouts.eraseP (fun l => l.name == n) = s.m_activeLayouts :=
        List.eraseP_of_forall_not (List.find?_eq_none.mp h1)
      simp [h1, h2, hk]
    · simp only [sub_zero] at h3
      simp only [h1, h2, ge_iff_le, if_true, h3]
      unfold clearUnloadedContainmentsFromLinkedFile record unloadCalls memoryUsage
      cases hmode : s.universalSettings.layoutsMemoryUsage <;> cases ho : l.isOriginalLayout <;>
        simp [hmode, ho, record]

/-- The effect of the unload loop. -/
theorem unloadNoNeededLayouts_eq (env : Env) (names : List String) (s : LayoutManager) :
    unloadNoNeededLayouts env names s =
      { s with
        m_activeLayouts := keptBy env names s.m_activeLayouts
        calls := s.calls ++ (unloadedBy env names s.m_activeLayouts).flatMap (unloadCalls (memoryUsage s)) } := by
  induction names generalizing s with
  | nil => simp [unloadNoNeededLayouts, keptBy, unloadedBy]
  | cons n rest ih =>
    unfold unloadNoNeededLayouts
    rw [ih, unloadNoNeededLayout_eq]
    rw [keptBy_cons env n rest, unloadedBy_cons env n rest, keptBy_cons env n [], unloadedBy_cons env n []]
    simp only [keptBy_nil, unloadedBy_nil]
    by_cases hm : n = env.MultipleLayoutsName
    · simp [hm, memoryUsage]
    · simp only [hm, if_false, memoryUsage]
      cases hf : s.m_activeLayouts.find? (fun l => l.name == n) with
      | none =>
        have hk : s.m_activeLayouts.eraseP (fun l => l.name == n) = s.m_activeLayouts :=
          List.eraseP_of_forall_not (List.find?_eq_none.mp hf)
        simp [hk]
      | some l => simp [List.append_assoc]

theorem keptBy_sublist (env : Env) (names : List String) (active : List ActiveLayout) :
    (keptBy env names active).Sublist active := by
  induction names generalizing active with
  | nil => exact List.Sublist.refl _
  | cons n rest ih =>
    rw [keptBy_cons]
    split_ifs
    · exact ih active
    · exact (ih _).trans (List.eraseP_sublist _)

theorem mem_keptBy_of_mem (env : Env) (names : List String) (active : List ActiveLayout)
    (l : ActiveLayout) (hl : l ∈ active) (hn : l.name ∉ names ∨ l.name = env.MultipleLayoutsName) :
    l ∈ keptBy env names active := by
  induction names generalizing active with
  | nil => exact hl
  | cons n rest ih =>
    rw [keptBy_cons]
    have hrest : l.name ∉ rest ∨ l.name = env.MultipleLayoutsName := by
      rcases hn with h | h
      · exact Or.inl (fun hc => h (List.mem_cons_of_mem _ hc))
      · exact Or.inr h
    split_ifs with hm
    · exact ih active hl hrest
    · apply ih _ _ hrest
      have hne : ¬ ((fun l : ActiveLayout => l.name == n) l = true) := by
        simp only [beq_iff_eq]
        intro hc
        rcases hn with h | h
        · exact h (hc ▸ List.mem_cons_self _ _)
        · exact hm (hc ▸ h)
      exact (@List.mem_eraseP_of_neg _ (fun l : ActiveLayout => l.name == n) l active hne).mpr hl

theorem name_ne_of_mem_eraseP (n : String) (active : List ActiveLayout)
    (hd : (active.map (fun l => l.name)).Nodup) (l : ActiveLayout)
    (hl : l ∈ active.eraseP (fun l => l.name == n)) : l.name ≠ n := by
  induction active with
  | nil => simp at hl
  | cons a rest ih =>
    rw [List.map_cons, List.nodup_cons] at hd
    rw [List.eraseP_cons] at hl
    by_cases ha : a.name = n
    · have hb : (a.name == n) = true := by simpa using ha
      rw [hb, cond_true] at hl
      intro hc
      exact hd.1 (List.mem_map.mpr ⟨l, hl, by rw [hc, ha]⟩)
    · have hb : (a.name == n) = false := by simpa using ha
      rw [hb, cond_false, List.mem_cons] at hl
      rcases hl with h | h
      · rw [h]
        exact ha
      · exact ih hd.2 h

theorem name_of_mem_keptBy (env : Env) (names : List String) (active : List ActiveLayout)
    (hd : (active.map (fun l => l.name)).Nodup) (l : ActiveLayout)
    (hl : l ∈ keptBy env names active) :
    l.name ∉ names ∨ l.name = env.MultipleLayoutsName := by
  induction names generalizing active with
  | nil => exact Or.inl (List.not_mem_nil _)
  | cons n rest ih =>
    rw [keptBy_cons] at hl
    split_ifs at hl with hm
    · rcases ih active hd hl with h | h
      · by_cases hn : l.name = n
        · exact Or.inr (hn.trans hm)
        · exact Or.inl (by simp [hn, h])
      · exact Or.inr h
    · have hsub : (active.eraseP (fun l => l.name == n)).Sublist active := List.eraseP_sublist _
      have hd' := List.Nodup.sublist (hsub.map (fun l => l.name)) hd
      have hne := name_ne_of_mem_eraseP n active hd l ((keptBy_sublist env rest _).subset hl)
      rcases ih _ hd' hl with h | h
      · exact Or.inl (by simp [hne, h])
      · exact Or.inr h

theorem mem_unloadedBy (env : Env) (names : List String) (active : List ActiveLayout)
    (l : ActiveLayout) (hl : l ∈ unloadedBy env names active) :
    l ∈ active ∧ l.name ∈ names ∧ l.name ≠ env.MultipleLayoutsName := by
  induction names generalizing active with
  | nil => simp [unloadedBy_nil] at hl
  | cons n rest ih =>
    rw [unloadedBy_cons] at hl
    split_ifs at hl with hm
    · obtain ⟨h1, h2, h3⟩ := ih active hl
      exact ⟨h1, List.mem_cons_of_mem _ h2, h3⟩
    · cases hf : active.find? (fun l => l.name == n) with
      | none =>
        rw [hf] at hl
        obtain ⟨h1, h2, h3⟩ := ih active hl
        exact ⟨h1, List.mem_cons_of_mem _ h2, h3⟩
      | some x =>
        rw [hf] at hl
        simp only [List.mem_cons] at hl
        rcases hl with h | h
        · subst h
          have hx : l.name = n := by simpa using @List.find?_some _ (fun l => l.name == n) l _ hf
          exact ⟨List.mem_of_find?_eq_some hf, by simp [hx], by rw [hx]; exact hm⟩
        · obtain ⟨h1, h2, h3⟩ := ih _ h
          exact ⟨List.mem_of_mem_eraseP h1, List.mem_cons_of_mem _ h2, h3⟩

theorem unload_nothing (env : Env) (names : List String) (active : List ActiveLayout)
    (h : ∀ n ∈ names, n = env.MultipleLayoutsName ∨ ∀ l ∈ active, l.name ≠ n) :
    keptBy env names active = active ∧ unloadedBy env names active = [] := by
  induction names with
  | nil => exact ⟨rfl, rfl⟩
  | cons n rest ih =>
    have ih' := ih (fun m hm => h m (List.mem_cons_of_mem _ hm))
    rw [keptBy_cons, unloadedBy_cons]
    split_ifs with hm
    · exact ih'
    · have hn : ∀ l ∈ active, l.name ≠ n := (h n (List.mem_cons_self _ _)).resolve_left hm
      have hf : active.find? (fun l => l.name == n) = none := by
        rw [List.find?_eq_none]
        intro x hx
        simpa using hn x hx
      have hk : active.eraseP (fun l => l.name == n) = active :=
        List.eraseP_of_forall_not (List.find?_eq_none.mp hf)
      rw [hk, hf]
      exact ih'

/-! ## Facts about the load pass -/

theorem ptr_lt_freshPtr (ls : List ActiveLayout) (l : ActiveLayout) (hl : l ∈ ls) :
    l.ptr < freshPtr ls := by
  unfold freshPtr
  induction ls with
  | nil => simp at hl
  | cons a rest ih =>
    simp only [List.map_cons, List.foldr_cons]
    rcases List.mem_cons.mp hl with h | h
    · subst h
      omega
    · have := ih h
      omega

theorem addLayout_construct (env : Env) (s s1 : LayoutManager) (path n : String)
    (h : s1.m_activeLayouts = s.m_activeLayouts) :
    addLayout s1 (ActiveLayout.construct env s path n) =
      { s1 with
        m_activeLayouts := s1.m_activeLayouts ++ [ActiveLayout.construct env s path n]
        calls := s1.calls ++ [Call.initToCorona n] } := by
  unfold addLayout
  have hno : s1.m_activeLayouts.any (fun l => l.ptr == (ActiveLayout.construct env s path n).ptr) = false := by
    rw [Bool.eq_false_iff]
    intro hc
    rw [List.any_eq_true] at hc
    obtain ⟨x, hx, hp⟩ := hc
    have hlt := ptr_lt_freshPtr s.m_activeLayouts x (h ▸ hx)
    have heq : x.ptr = freshPtr s.m_activeLayouts := by simpa [ActiveLayout.construct] using hp
    omega
  rw [hno]
  simp [record, ActiveLayout.construct]

theorem activeLayout_eq_none_iff (s : LayoutManager) (n : String) :
    activeLayout s n = none ↔ ∀ l ∈ s.m_activeLayouts, l.name ≠ n := by
  unfold activeLayout
  rw [List.find?_eq_none]
  simp

theorem activeLayout_ne_none_iff (s : LayoutManager) (n : String) :
    activeLayout s n ≠ none ↔ ∃ l ∈ s.m_activeLayouts, l.name = n := by
  rw [ne_eq, activeLayout_eq_none_iff]
  push_neg
  rfl

theorem addNeededLayout_of_loaded (env : Env) (s : LayoutManager) (n : String)
    (h : activeLayout s n ≠ none) : addNeededLayout env s n = s := by
  unfold addNeededLayout
  cases hf : activeLayout s n with
  | none => exact absurd hf h
  | some l => rfl

theorem addNeededLayout_of_not_loaded (env : Env) (s : LayoutManager) (n : String)
    (h : activeLayout s n = none) :
    ∃ cs : List Call, (∀ c ∈ cs, c.isUnload = false) ∧
      addNeededLayout env s n =
        { s with
          m_activeLayouts := s.m_activeLayouts ++ [ActiveLayout.construct env s (layoutPath env n) n]
          calls := s.calls ++ cs } := by
  unfold addNeededLayout
  simp only [h]
  rw [addLayout_construct env s (record s [Call.newActiveLayout (layoutPath env n) n]) _ _ rfl]
  split_ifs
  · refine ⟨[Call.newActiveLayout (layoutPath env n) n, Call.initToCorona n, Call.importToCorona n,
      Call.showInfoWindow ("Activating layout: <b>" ++ n ++ "</b> ...") 5000
        (appliedActivities
          { s with
            m_activeLayouts := s.m_activeLayouts ++ [ActiveLayout.construct env s (layoutPath env n) n]
            calls := s.calls ++ [Call.newActiveLayout (layoutPath env n) n, Call.initToCorona n,
              Call.importToCorona n] }
          (ActiveLayout.construct env s (layoutPath env n) n))], ?_, ?_⟩
    · intro c hc
      simp only [List.mem_cons, List.mem_singleton, List.not_mem_nil, or_false] at hc
      rcases hc with h | h | h | h <;> subst h <;> rfl
    · simp [record, ActiveLayout.construct, appliedActivities]
  · refine ⟨[Call.newActiveLayout (layoutPath env n) n, Call.initToCorona n, Call.importToCorona n],
      ?_, ?_⟩
    · intro c hc
      simp only [List.mem_cons, List.mem_singleton, List.not_mem_nil, or_false] at hc
      rcases hc with h | h | h <;> subst h <;> rfl
    · simp [record, ActiveLayout.construct]

theorem LoadsOnly.refl (env : Env) (N : String → Prop) (s : LayoutManager) : LoadsOnly env N s s :=
  ⟨rfl, rfl, rfl, rfl, rfl, rfl, rfl, ⟨[], by simp, by simp, by simp⟩, ⟨[], by simp, by simp⟩⟩

theorem LoadsOnly.trans {env : Env} {N : String → Prop} {s1 s2 s3 : LayoutManager}
    (h12 : LoadsOnly env N s1 s2) (h23 : LoadsOnly env N s2 s3) : LoadsOnly env N s1 s3 := by
  obtain ⟨a1, a2, a3, a4, a5, a6, a7, ⟨ad1, e1, d1, p1⟩, ⟨cs1, c1, u1⟩⟩ := h12
  obtain ⟨b1, b2, b3, b4, b5, b6, b7, ⟨ad2, e2, d2, p2⟩, ⟨cs2, c2, u2⟩⟩ := h23
  refine ⟨b1.trans a1, b2.trans a2, b3.trans a3, b4.trans a4, b5.trans a5, b6.trans a6,
    b7.trans a7, ⟨ad1 ++ ad2, ?_, ?_, ?_⟩, ⟨cs1 ++ cs2, ?_, ?_⟩⟩
  · rw [e2, e1, List.append_assoc]
  · rw [List.map_append, List.nodup_append]
    refine ⟨d1, d2, ?_⟩
    intro x hx1 hx2
    obtain ⟨l1, hl1, rfl⟩ := List.mem_map.mp hx1
    obtain ⟨l2, hl2, hn⟩ := List.mem_map.mp hx2
    have hnone := (p2 l2 hl2).2.1
    rw [activeLayout_eq_none_iff, e1] at hnone
    exact hnone l1 (List.mem_append_right _ hl1) hn.symm
  · intro l hl
    rcases List.mem_append.mp hl with h | h
    · exact p1 l h
    · obtain ⟨q1, q2, q3⟩ := p2 l h
      refine ⟨q1, ?_, q3⟩
      rw [activeLayout_eq_none_iff] at q2 ⊢
      intro x hx
      exact q2 x (e1 ▸ List.mem_append_left _ hx)
  · rw [c2, c1, List.append_assoc]
  · intro c hc
    rcases List.mem_append.mp hc with h | h
    · exact u1 c h
    · exact u2 c h

theorem addNeededLayout_loadsOnly (env : Env) (N : String → Prop) (s : LayoutManager) (n : String)
    (hN : N n) : LoadsOnly env N s (addNeededLayout env s n) := by
  by_cases h : activeLayout s n = none
  · obtain ⟨cs, hcs, heq⟩ := addNeededLayout_of_not_loaded env s n h
    rw [heq]
    refine ⟨rfl, rfl, rfl, rfl, rfl, rfl, rfl,
      ⟨[ActiveLayout.construct env s (layoutPath env n) n], rfl, by simp, ?_⟩, ⟨cs, rfl, hcs⟩⟩
    intro l hl
    rw [List.mem_singleton] at hl
    subst hl
    exact ⟨hN, h, rfl⟩
  · rw [addNeededLayout_of_loaded env s n h]
    exact LoadsOnly.refl env N s

theorem addNeededLayouts_loadsOnly (env : Env) (N : String → Prop) (names : List String)
    (s : LayoutManager) (hN : ∀ n ∈ names, N n) : LoadsOnly env N s (addNeededLayouts env names s) := by
  induction names generalizing s with
  | nil => exact LoadsOnly.refl env N s
  | cons n rest ih =>
    unfold addNeededLayouts
    exact (addNeededLayout_loadsOnly env N s n (hN n (List.mem_cons_self _ _))).trans
      (ih _ (fun m hm => hN m (List.mem_cons_of_mem _ hm)))

theorem LoadsOnly.loaded {env : Env} {N : String → Prop} {s1 s2 : LayoutManager}
    (h : LoadsOnly env N s1 s2) (n : String) (hn : activeLayout s1 n ≠ none) :
    activeLayout s2 n ≠ none := by
  obtain ⟨_, _, _, _, _, _, _, ⟨ad, e, _, _⟩, _⟩ := h
  rw [activeLayout_ne_none_iff] at hn ⊢
  obtain ⟨l, hl, hname⟩ := hn
  exact ⟨l, e ▸ List.mem_append_left _ hl, hname⟩

theorem addNeededLayout_loaded (env : Env) (s : LayoutManager) (n : String) :
    activeLayout (addNeededLayout env s n) n ≠ none := by
  by_cases h : activeLayout s n = none
  · obtain ⟨cs, _, heq⟩ := addNeededLayout_of_not_loaded env s n h
    rw [heq, activeLayout_ne_none_iff]
    exact ⟨ActiveLayout.construct env s (layoutPath env n) n, by simp, rfl⟩
  · rw [addNeededLayout_of_loaded env s n h]
    exact h

theorem addNeededLayouts_loaded (env : Env) (names : List String) (s : LayoutManager) (n : String)
    (hn : n ∈ names ∨ activeLayout s n ≠ none) :
    activeLayout (addNeededLayouts env names s) n ≠ none := by
  induction names generalizing s with
  | nil =>
    rcases hn with h | h
    · simp at h
    · exact h
  | cons m rest ih =>
    unfold addNeededLayouts
    apply ih
    rcases hn with h | h
    · rcases List.mem_cons.mp h with h | h
      · right
        rw [h]
        exact addNeededLayout_loaded env s m
      · exact Or.inl h
    · exact Or.inr ((addNeededLayout_loadsOnly env (fun _ => True) s m trivial).loaded n h)

theorem addNeededLayouts_of_loaded (env : Env) (names : List String) (s : LayoutManager)
    (h : ∀ n ∈ names, activeLayout s n ≠ none) : addNeededLayouts env names s = s := by
  induction names with
  | nil => rfl
  | cons m rest ih =>
    unfold addNeededLayouts
    rw [addNeededLayout_of_loaded env s m (h m (List.mem_cons_self _ _))]
    exact ih (fun n hn => h n (List.mem_cons_of_mem _ hn))

theorem addLayoutForOrphans_of_loaded (env : Env) (s : LayoutManager) (orphans : String)
    (allRes : Bool) (h : allRes = true ∨ activeLayout s orphans ≠ none) :
    addLayoutForOrphans env s orphans allRes = s := by
  unfold addLayoutForOrphans
  rcases h with h | h
  · simp [h]
  · cases hf : activeLayout s orphans with
    | none => exact absurd hf h
    | some l => simp

theorem addLayoutForOrphans_of_not_loaded (env : Env) (s : LayoutManager) (orphans : String)
    (h : activeLayout s orphans = none) :
    addLayoutForOrphans env s orphans false =
      { s with
        m_activeLayouts :=
          s.m_activeLayouts ++ [ActiveLayout.construct env s (layoutPath env orphans) orphans]
        calls := s.calls ++ [Call.newActiveLayout (layoutPath env orphans) orphans,
          Call.initToCorona orphans, Call.importToCorona orphans] } := by
  unfold addLayoutForOrphans
  simp only [h, if_true]
  rw [addLayout_construct env s
    (record s [Call.newActiveLayout (layoutPath env orphans) orphans]) _ _ rfl]
  simp [record, ActiveLayout.construct]

theorem addLayoutForOrphans_loadsOnly (env : Env) (N : String → Prop) (s : LayoutManager)
    (orphans : String) (allRes : Bool) (hN : allRes = false → N orphans) :
    LoadsOnly env N s (addLayoutForOrphans env s orphans allRes) := by
  by_cases h : allRes = true ∨ activeLayout s orphans ≠ none
  · rw [addLayoutForOrphans_of_loaded env s orphans allRes h]
    exact LoadsOnly.refl env N s
  · rw [not_or] at h
    have hf : allRes = false := by simpa using h.1
    have hnone : activeLayout s orphans = none := by simpa using h.2
    subst hf
    rw [addLayoutForOrphans_of_not_loaded env s orphans hnone]
    refine ⟨rfl, rfl, rfl, rfl, rfl, rfl, rfl,
      ⟨[ActiveLayout.construct env s (layoutPath env orphans) orphans], rfl, by simp, ?_⟩,
      ⟨_, rfl, ?_⟩⟩
    · intro l hl
      rw [List.mem_singleton] at hl
      subst hl
      exact ⟨hN rfl, hnone, rfl⟩
    · intro c hc
      simp only [List.mem_cons, List.mem_singleton, List.not_mem_nil, or_false] at hc
      rcases hc with h | h | h <;> subst h <;> rfl

theorem addLayoutForOrphans_loaded (env : Env) (s : LayoutManager) (orphans : String) :
    activeLayout (addLayoutForOrphans env s orphans false) orphans ≠ none := by
  by_cases h : activeLayout s orphans = none
  · rw [addLayoutForOrphans_of_not_loaded env s orphans h, activeLayout_ne_none_iff]
    exact ⟨ActiveLayout.construct env s (layoutPath env orphans) orphans, by simp, rfl⟩
  · rw [addLayoutForOrphans_of_loaded env s orphans false (Or.inr h)]
    exact h

/-! ## The synchronizer as unload pass, load pass and notification -/

theorem sync_eq (env : Env) (s : LayoutManager) (lfo : String) :
    syncMultipleLayoutsToActivities env s lfo =
      record (updateCurrentLayoutNameInMultiEnvironment (afterLoad env s lfo))
        [Call.activeLayoutsChanged] := rfl

theorem updateCurrent_eq (s : LayoutManager) :
    ∃ (name : String) (cs : List Call),
      updateCurrentLayoutNameInMultiEnvironment s =
        { s with m_currentLayoutNameInMultiEnvironment := name, calls := s.calls ++ cs } ∧
      ∀ c ∈ cs, c = Call.currentLayoutNameChanged := by
  unfold updateCurrentLayoutNameInMultiEnvironment
  split
  · exact ⟨_, [Call.currentLayoutNameChanged], rfl, by simp⟩
  · split
    · exact ⟨_, [Call.currentLayoutNameChanged], rfl, by simp⟩
    · exact ⟨s.m_currentLayoutNameInMultiEnvironment, [], by simp, by simp⟩

theorem afterUnload_eq (env : Env) (s : LayoutManager) (lfo : String) :
    afterUnload env s lfo =
      { s with
        m_assignedLayouts := (reservation env s).assigned
        m_activeLayouts := keptBy env (layoutsToUnload env s lfo) s.m_activeLayouts
        calls := s.calls ++
          (unloadedBy env (layoutsToUnload env s lfo) s.m_activeLayouts).flatMap
            (unloadCalls (memoryUsage s)) } := by
  unfold afterUnload
  rw [unloadNoNeededLayouts_eq]
  rfl

theorem afterLoad_loadsOnly (env : Env) (s : LayoutManager) (lfo : String) :
    LoadsOnly env
      (fun n => n ∈ (reservation env s).layoutsToLoad ∨
        ((reservation env s).allRunningActivitiesWillBeReserved = false ∧ n = orphanLayoutName s lfo))
      (afterUnload env s lfo) (afterLoad env s lfo) := by
  unfold afterLoad
  exact (addLayoutForOrphans_loadsOnly env _ _ _ _ (fun h => Or.inr ⟨h, rfl⟩)).trans
    (addNeededLayouts_loadsOnly env _ _ _ (fun n hn => Or.inl hn))

/-- The shape of the state after `syncMultipleLayoutsToActivities`. -/
theorem sync_shape (env : Env) (s : LayoutManager) (lfo : String) :
    ∃ (added : List ActiveLayout) (loads tail : List Call),
      (syncMultipleLayoutsToActivities env s lfo).m_activeLayouts =
        keptBy env (layoutsToUnload env s lfo) s.m_activeLayouts ++ added ∧
      (syncMultipleLayoutsToActivities env s lfo).calls =
        s.calls ++ (unloadedBy env (layoutsToUnload env s lfo) s.m_activeLayouts).flatMap
          (unloadCalls (memoryUsage s)) ++ loads ++ tail ∧
      (added.map (fun l => l.name)).Nodup ∧
      (∀ l ∈ added,
        (l.name ∈ (reservation env s).layoutsToLoad ∨
          ((reservation env s).allRunningActivitiesWillBeReserved = false ∧
            l.name = orphanLayoutName s lfo)) ∧
        (∀ k ∈ keptBy env (layoutsToUnload env s lfo) s.m_activeLayouts, k.name ≠ l.name) ∧
        l.activities = (env.readFile (layoutPath env l.name)).activities) ∧
      (∀ c ∈ loads, c.isUnload = false) ∧
      (∀ c ∈ tail, c.isUnload = false ∧ c.isLoad = false) ∧
      (syncMultipleLayoutsToActivities env s lfo).m_assignedLayouts = (reservation env s).assigned ∧
      (syncMultipleLayoutsToActivities env s lfo).universalSettings = s.universalSettings ∧
      (syncMultipleLayoutsToActivities env s lfo).activityConsumer = s.activityConsumer := by
  obtain ⟨a1, a2, a3, _, _, _, _, ⟨added, e1, d1, p1⟩, ⟨loads, c1, u1⟩⟩ :=
    afterLoad_loadsOnly env s lfo
  obtain ⟨name, cs, hup, hcs⟩ := updateCurrent_eq (afterLoad env s lfo)
  rw [afterUnload_eq] at a1 a2 a3 e1 c1 p1
  simp only [] at a1 a2 a3 e1 c1
  refine ⟨added, loads, cs ++ [Call.activeLayoutsChanged], ?_, ?_, d1, ?_, u1, ?_, ?_, ?_, ?_⟩
  · rw [sync_eq, hup]
    exact e1
  · rw [sync_eq, hup]
    simp only [record, c1, List.append_assoc]
  · intro l hl
    obtain ⟨q1, q2, q3⟩ := p1 l hl
    refine ⟨q1, ?_, q3⟩
    rw [activeLayout_eq_none_iff] at q2
    exact q2
  · intro c hc
    rcases List.mem_append.mp hc with h | h
    · rw [hcs c h]
      exact ⟨rfl, rfl⟩
    · rw [List.mem_singleton] at h
      rw [h]
      exact ⟨rfl, rfl⟩
  · rw [sync_eq, hup]
    exact a3
  · rw [sync_eq, hup]
    exact a1
  · rw [sync_eq, hup]
    exact a2

theorem sync_loaded_of_afterLoad (env : Env) (s : LayoutManager) (lfo n : String)
    (h : activeLayout (afterLoad env s lfo) n ≠ none) :
    activeLayout (syncMultipleLayoutsToActivities env s lfo) n ≠ none := by
  obtain ⟨name, cs, hup, _⟩ := updateCurrent_eq (afterLoad env s lfo)
  rw [sync_eq, hup]
  exact h

theorem afterLoad_toLoad_loaded (env : Env) (s : LayoutManager) (lfo n : String)
    (hn : n ∈ (reservation env s).layoutsToLoad) :
    activeLayout (afterLoad env s lfo) n ≠ none := by
  unfold afterLoad
  exact addNeededLayouts_loaded env _ _ n (Or.inl hn)

theorem afterLoad_orphan_loaded (env : Env) (s : LayoutManager) (lfo : String)
    (h : (reservation env s).allRunningActivitiesWillBeReserved = false) :
    activeLayout (afterLoad env s lfo) (orphanLayoutName s lfo) ≠ none := by
  unfold afterLoad
  apply addNeededLayouts_loaded
  right
  rw [h]
  exact addLayoutForOrphans_loaded env _ _

theorem tempLayoutName_eq (toLoad : List String) (orphans : String) (allRes : Bool)
    (l : ActiveLayout) :
    tempLayoutName toLoad orphans allRes l = l.name ∨
      (tempLayoutName toLoad orphans allRes l = "" ∧ (l.name ∈ toLoad ∨ l.name = orphans) ∧
        ¬ (l.activities = [] ∧ allRes = true)) := by
  unfold tempLayoutName
  split_ifs with h1 h2
  · exact Or.inl rfl
  · exact Or.inl rfl
  · right
    refine ⟨rfl, ?_, h2⟩
    by_contra hc
    rw [not_or] at hc
    exact h1 hc

theorem tempLayoutName_congr (toLoad toLoad' : List String) (orphans : String) (allRes : Bool)
    (l : ActiveLayout) (h : ∀ x, x ∈ toLoad' ↔ x ∈ toLoad) :
    tempLayoutName toLoad' orphans allRes l = tempLayoutName toLoad orphans allRes l := by
  unfold tempLayoutName
  simp only [h l.name]

/-- A layout that stays in the list is named in no entry of `layoutsToUnload`, so
the loop over the loaded layouts found no reason to unload it. -/
theorem kept_not_to_unload (env : Env) (s : LayoutManager) (lfo : String) (hd : NamesDistinct s)
    (l : ActiveLayout) (hl : l ∈ keptBy env (layoutsToUnload env s lfo) s.m_activeLayouts)
    (hname : l.name ≠ "") (hmaster : l.name ≠ env.MultipleLayoutsName) :
    (l.name ∈ (reservation env s).layoutsToLoad ∨ l.name = orphanLayoutName s lfo) ∧
      ¬ (l.activities = [] ∧ (reservation env s).allRunningActivitiesWillBeReserved = true) := by
  have hs : l ∈ s.m_activeLayouts := (keptBy_sublist env _ _).subset hl
  have hnot : l.name ∉ layoutsToUnload env s lfo :=
    (name_of_mem_keptBy env _ _ hd l hl).resolve_right hmaster
  rcases tempLayoutName_eq (reservation env s).layoutsToLoad (orphanLayoutName s lfo)
      (reservation env s).allRunningActivitiesWillBeReserved l with h | ⟨_, h2, h3⟩
  · exfalso
    apply hnot
    unfold layoutsToUnload
    simp only []
    rw [mem_collectLayoutsToUnload]
    exact Or.inr ⟨hname, l, hs, h⟩
  · exact ⟨h2, h3⟩

theorem reservation_sync_mem (env : Env) (s : LayoutManager) (lfo x : String) :
    x ∈ (reservation env (syncMultipleLayoutsToActivities env s lfo)).layoutsToLoad ↔
      x ∈ (reservation env s).layoutsToLoad := by
  obtain ⟨_, _, _, _, _, _, _, _, _, hmap, _, hcons⟩ := sync_shape env s lfo
  rw [mem_layoutsToLoad, mem_layoutsToLoad]
  unfold runningActivities
  rw [hcons, hmap]
  unfold reservation
  simp only [reserveLayouts_value]

theorem reservation_sync_allReserved (env : Env) (s : LayoutManager) (lfo : String) :
    (reservation env (syncMultipleLayoutsToActivities env s lfo)).allRunningActivitiesWillBeReserved =
      (reservation env s).allRunningActivitiesWillBeReserved := by
  obtain ⟨_, _, _, _, _, _, _, _, _, hmap, _, hcons⟩ := sync_shape env s lfo
  rw [Bool.eq_iff_iff, allReserved_iff, allReserved_iff]
  unfold runningActivities
  rw [hcons, hmap]
  unfold reservation
  simp only [reserveLayouts_value]

theorem orphanLayoutName_sync (env : Env) (s : LayoutManager) (lfo : String) :
    orphanLayoutName (syncMultipleLayoutsToActivities env s lfo) lfo = orphanLayoutName s lfo := by
  obtain ⟨_, _, _, _, _, _, _, _, _, hmap, hset, _⟩ := sync_shape env s lfo
  unfold orphanLayoutName
  rw [hset, hmap]
  by_cases h : lfo = ""
  · simp [h]
  · have hv : lfo ∈ (reservation env s).assigned.values ↔ lfo ∈ s.m_assignedLayouts.values := by
      unfold reservation
      exact reserveLayouts_values _ _ lfo h
    simp only [h, false_or, hv]

/-- After the synchronizer has run in a state with distinct names and a valid
assignment map, the loop over the loaded layouts would find no reason to unload
any named layout other than the master. -/
theorem sync_result_settled (env : Env) (s : LayoutManager) (lfo : String)
    (hd : NamesDistinct s) (hinv : AssignmentInvariant env s) (l : ActiveLayout)
    (hl : l ∈ (syncMultipleLayoutsToActivities env s lfo).m_activeLayouts)
    (hn : l.name ≠ "") (hm : l.name ≠ env.MultipleLayoutsName) :
    tempLayoutName (reservation env s).layoutsToLoad (orphanLayoutName s lfo)
      (reservation env s).allRunningActivitiesWillBeReserved l = "" := by
  obtain ⟨added, _, _, hact, _, _, hadded, _, _, _, _, _⟩ := sync_shape env s lfo
  have hkeep : (l.name ∈ (reservation env s).layoutsToLoad ∨ l.name = orphanLayoutName s lfo) ∧
      ¬ (l.activities = [] ∧ (reservation env s).allRunningActivitiesWillBeReserved = true) := by
    rw [hact] at hl
    rcases List.mem_append.mp hl with hk | ha
    · exact kept_not_to_unload env s lfo hd l hk hn hm
    · obtain ⟨q1, _, q3⟩ := hadded l ha
      rcases q1 with q1 | ⟨q1, q2⟩
      · refine ⟨Or.inl q1, ?_⟩
        rintro ⟨he, _⟩
        rw [mem_layoutsToLoad] at q1
        rcases q1 with q1 | ⟨hne, a, _, hv⟩
        · exact hm q1
        · have hentry := QHash.value_mem_values s.m_assignedLayouts a (by rw [hv]; exact hne)
          have := hinv _ hentry (by rw [hv]; exact hne)
          simp only [hv] at this
          rw [← q3, he] at this
          simp at this
      · refine ⟨Or.inr q2, ?_⟩
        rintro ⟨_, he⟩
        rw [q1] at he
        cases he
  unfold tempLayoutName
  have h1 : ¬ (l.name ∉ (reservation env s).layoutsToLoad ∧ l.name ≠ orphanLayoutName s lfo) := by
    rintro ⟨x1, x2⟩
    exact hkeep.1.elim x1 x2
  simp only [h1, if_false, hkeep.2]

/-! ## The claims about the synchronizer -/

/-- C1, amended. Idempotence of `syncMultipleLayoutsToActivities`: in a state whose
loaded layouts have pairwise distinct names and whose assignment map satisfies
its invariant, a second call with the same argument and unchanged external
state leaves the list of loaded layouts as the first call left it and makes no
unload and no load call. -/
theorem sync_idempotent (env : Env) (s : LayoutManager) (layoutForOrphans : String)
    (hd : NamesDistinct s) (hinv : AssignmentInvariant env s) :
    (syncMultipleLayoutsToActivities env
        (syncMultipleLayoutsToActivities env s layoutForOrphans) layoutForOrphans).m_activeLayouts =
      (syncMultipleLayoutsToActivities env s layoutForOrphans).m_activeLayouts ∧
    ∃ cs : List Call,
      (syncMultipleLayoutsToActivities env
          (syncMultipleLayoutsToActivities env s layoutForOrphans) layoutForOrphans).calls =
        (syncMultipleLayoutsToActivities env s layoutForOrphans).calls ++ cs ∧
      ∀ c ∈ cs, c.isUnload = false ∧ c.isLoad = false := by
  have hmem := reservation_sync_mem env s layoutForOrphans
  have hall := reservation_sync_allReserved env s layoutForOrphans
  have horph := orphanLayoutName_sync env s layoutForOrphans
  have hloaded1 : ∀ n ∈ (reservation env s).layoutsToLoad,
      activeLayout (syncMultipleLayoutsToActivities env s layoutForOrphans) n ≠ none :=
    fun n hn => sync_loaded_of_afterLoad env s _ n (afterLoad_toLoad_loaded env s _ n hn)
  have hloaded2 : (reservation env s).allRunningActivitiesWillBeReserved = false →
      activeLayout (syncMultipleLayoutsToActivities env s layoutForOrphans)
        (orphanLayoutName s layoutForOrphans) ≠ none :=
    fun h => sync_loaded_of_afterLoad env s _ _ (afterLoad_orphan_loaded env s _ h)
  have hsettled := sync_result_settled env s layoutForOrphans hd hinv
  generalize syncMultipleLayoutsToActivities env s layoutForOrphans = s1 at *
  -- nothing is unloaded by the second call
  have hnothing : ∀ n ∈ layoutsToUnload env s1 layoutForOrphans,
      n = env.MultipleLayoutsName ∨ ∀ l ∈ s1.m_activeLayouts, l.name ≠ n := by
    intro n hn
    by_cases hm : n = env.MultipleLayoutsName
    · exact Or.inl hm
    exfalso
    unfold layoutsToUnload at hn
    simp only [] at hn
    rw [mem_collectLayoutsToUnload, hall, horph] at hn
    rcases hn with h | ⟨hne, l, hl, ht⟩
    · simp at h
    · rw [tempLayoutName_congr _ _ _ _ _ hmem] at ht
      rcases tempLayoutName_eq (reservation env s).layoutsToLoad
          (orphanLayoutName s layoutForOrphans)
          (reservation env s).allRunningActivitiesWillBeReserved l with h | ⟨h, _⟩
      · have hname : l.name = n := h.symm.trans ht
        rw [hsettled l hl (hname ▸ hne) (hname ▸ hm)] at ht
        exact hne ht.symm
      · rw [h] at ht
        exact hne ht.symm
  obtain ⟨hkept, hunl⟩ := unload_nothing env _ _ hnothing
  have hafterU : afterUnload env s1 layoutForOrphans =
      { s1 with m_assignedLayouts := (reservation env s1).assigned } := by
    rw [afterUnload_eq, hkept, hunl]
    simp
  have hafterL : afterLoad env s1 layoutForOrphans =
      { s1 with m_assignedLayouts := (reservation env s1).assigned } := by
    unfold afterLoad
    rw [hafterU, addLayoutForOrphans_of_loaded, addNeededLayouts_of_loaded]
    · intro n hn
      have := hloaded1 n ((hmem n).mp hn)
      rw [activeLayout_ne_none_iff] at this ⊢
      exact this
    · rw [hall, horph]
      by_cases hr : (reservation env s).allRunningActivitiesWillBeReserved = true
      · exact Or.inl hr
      · right
        have := hloaded2 (by simpa using hr)
        rw [activeLayout_ne_none_iff] at this ⊢
        exact this
  obtain ⟨name, cs, hup, hcs⟩ := updateCurrent_eq (afterLoad env s1 layoutForOrphans)
  rw [sync_eq, hup, hafterL]
  refine ⟨rfl, cs ++ [Call.activeLayoutsChanged], by simp [record], ?_⟩
  intro c hc
  rcases List.mem_append.mp hc with h | h
  · rw [hcs c h]
    exact ⟨rfl, rfl⟩
  · rw [List.mem_singleton] at h
    rw [h]
    exact ⟨rfl, rfl⟩

/-- C1, amended, at a concrete input: in `scenarioSwap` the first reconciliation
unloads `L2` and loads `Work`, and the second one is an empty edit. -/
theorem sync_idempotent_witness :
    NamesDistinct scenarioSwap ∧ AssignmentInvariant demoEnv scenarioSwap ∧
    (syncMultipleLayoutsToActivities demoEnv scenarioSwap "").m_activeLayouts.map
      (fun l => l.name) = [".multiple-layouts_hidden", "L1", "Work"] ∧
    ((syncMultipleLayoutsToActivities demoEnv
        (syncMultipleLayoutsToActivities demoEnv scenarioSwap "") "").m_activeLayouts =
      (syncMultipleLayoutsToActivities demoEnv scenarioSwap "").m_activeLayouts ∧
    ∃ cs : List Call,
      (syncMultipleLayoutsToActivities demoEnv
          (syncMultipleLayoutsToActivities demoEnv scenarioSwap "") "").calls =
        (syncMultipleLayoutsToActivities demoEnv scenarioSwap "").calls ++ cs ∧
      ∀ c ∈ cs, c.isUnload = false ∧ c.isLoad = false) :=
  ⟨by unfold NamesDistinct; decide, by unfold AssignmentInvariant; decide, by decide,
    sync_idempotent demoEnv scenarioSwap "" (by unfold NamesDistinct; decide)
      (by unfold AssignmentInvariant; decide)⟩

/-- C2. After `syncMultipleLayoutsToActivities` every running activity that has
an assignment still has it, still runs, and its assigned layout is loaded. -/
theorem sync_loads_assigned_layouts (env : Env) (s : LayoutManager) (layoutForOrphans : String)
    (a : String) (ha : a ∈ runningActivities s) (hv : s.m_assignedLayouts.value a ≠ "") :
    a ∈ runningActivities (syncMultipleLayoutsToActivities env s layoutForOrphans) ∧
    (syncMultipleLayoutsToActivities env s layoutForOrphans).m_assignedLayouts.value a =
      s.m_assignedLayouts.value a ∧
    activeLayout (syncMultipleLayoutsToActivities env s layoutForOrphans)
      ((syncMultipleLayoutsToActivities env s layoutForOrphans).m_assignedLayouts.value a) ≠ none := by
  obtain ⟨_, _, _, _, _, _, _, _, _, hmap, _, hcons⟩ := sync_shape env s layoutForOrphans
  have hval : (syncMultipleLayoutsToActivities env s layoutForOrphans).m_assignedLayouts.value a =
      s.m_assignedLayouts.value a := by
    rw [hmap]
    unfold reservation
    exact reserveLayouts_value _ _ a
  refine ⟨?_, hval, ?_⟩
  · unfold runningActivities at ha ⊢
    rw [hcons]
    exact ha
  · rw [hval]
    apply sync_loaded_of_afterLoad
    apply afterLoad_toLoad_loaded
    rw [mem_layoutsToLoad]
    exact Or.inr ⟨hv, a, ha, rfl⟩

/-- In scenario B the running activity `act2` is assigned, and its layout is loaded
after the reconciliation. -/
theorem sync_loads_assigned_layouts_witness :
    "act2" ∈ runningActivities scenarioB ∧ scenarioB.m_assignedLayouts.value "act2" ≠ "" ∧
    ("act2" ∈ runningActivities (syncMultipleLayoutsToActivities demoEnv scenarioB "") ∧
    (syncMultipleLayoutsToActivities demoEnv scenarioB "").m_assignedLayouts.value "act2" =
      scenarioB.m_assignedLayouts.value "act2" ∧
    activeLayout (syncMultipleLayoutsToActivities demoEnv scenarioB "")
      ((syncMultipleLayoutsToActivities demoEnv scenarioB "").m_assignedLayouts.value "act2") ≠ none) :=
  ⟨by decide, by decide, sync_loads_assigned_layouts demoEnv scenarioB "" "act2" (by decide) (by decide)⟩

theorem unloadCalls_layout (mode : LayoutsMemoryUsage) (l : ActiveLayout) (c : Call)
    (hc : c ∈ unloadCalls mode l) : c.layout = some l.name ∧ c.isLoad = false := by
  unfold unloadCalls at hc
  simp only [List.mem_append, List.mem_cons, List.mem_singleton, List.not_mem_nil, or_false] at hc
  rcases hc with ((h | h | h) | h) | h
  · split_ifs at h
    · rw [List.mem_singleton] at h
      subst h
      exact ⟨rfl, rfl⟩
    · simp at h
  · subst h
    exact ⟨rfl, rfl⟩
  · subst h
    exact ⟨rfl, rfl⟩
  · split_ifs at h
    · simp at h
    · rw [List.mem_singleton] at h
      subst h
      exact ⟨rfl, rfl⟩
  · subst h
    exact ⟨rfl, rfl⟩

/-- C4. The master layout is loaded when `syncMultipleLayoutsToActivities`
returns; every loaded object named as the master stays in the list, and no
unload call (flush, teardown, purge, delete) made during the call is about the
master. -/
theorem sync_keeps_master (env : Env) (s : LayoutManager) (layoutForOrphans : String) :
    activeLayout (syncMultipleLayoutsToActivities env s layoutForOrphans)
      env.MultipleLayoutsName ≠ none ∧
    (∀ l ∈ s.m_activeLayouts, l.name = env.MultipleLayoutsName →
      l ∈ (syncMultipleLayoutsToActivities env s layoutForOrphans).m_activeLayouts) ∧
    ∃ cs : List Call,
      (syncMultipleLayoutsToActivities env s layoutForOrphans).calls = s.calls ++ cs ∧
      ∀ c ∈ cs, c.isUnload = true → c.layout ≠ some env.MultipleLayoutsName := by
  obtain ⟨added, loads, tail, hact, hcalls, _, _, hloads, htail, _, _, _⟩ :=
    sync_shape env s layoutForOrphans
  refine ⟨?_, ?_, ?_⟩
  · apply sync_loaded_of_afterLoad
    apply afterLoad_toLoad_loaded
    rw [mem_layoutsToLoad]
    exact Or.inl rfl
  · intro l hl hname
    rw [hact]
    exact List.mem_append_left _ (mem_keptBy_of_mem env _ _ l hl (Or.inr hname))
  · refine ⟨(unloadedBy env (layoutsToUnload env s layoutForOrphans) s.m_activeLayouts).flatMap
      (unloadCalls (memoryUsage s)) ++ loads ++ tail,
      by rw [hcalls]; simp only [List.append_assoc], ?_⟩
    intro c hc hun
    rcases List.mem_append.mp hc with h | h
    · rcases List.mem_append.mp h with h | h
      · obtain ⟨l, hl, hcl⟩ := List.mem_flatMap.mp h
        rw [(unloadCalls_layout _ l c hcl).1]
        intro he
        exact (mem_unloadedBy env _ _ l hl).2.2 (Option.some.inj he)
      · rw [hloads c h] at hun
        cases hun
    · rw [(htail c h).1] at hun
      cases hun

/-- C7. Ordering inside one reconciliation pass in Multiple mode: the calls of
`syncMultipleLayoutsToActivities` are, in this order, the unload steps of the
unloaded layouts, layout by layout (flush to the file only for an original
layout, then teardown of containments and of views, then purge of the unloaded
containments from the linked file, then deletion), followed by calls none of
which is an unload step; no load step occurs among the unload steps. -/
theorem sync_unloads_before_loads (env : Env) (s : LayoutManager) (layoutForOrphans : String)
    (hmode : memoryUsage s = .MultipleLayouts) :
    ∃ rest : List Call,
      (syncMultipleLayoutsToActivities env s layoutForOrphans).calls =
        s.calls ++
          (unloadedBy env (layoutsToUnload env s layoutForOrphans) s.m_activeLayouts).flatMap
            (fun l =>
              (if l.isOriginalLayout then [Call.syncToLayoutFile l.name] else []) ++
                [Call.unloadContainments l.name, Call.unloadLatteViews l.name,
                  Call.clearUnloadedContainmentsFromLinkedFile l.name false,
                  Call.deleteLayout l.name]) ++
          rest ∧
      (∀ c ∈ rest, c.isUnload = false) ∧
      (∀ c ∈ (unloadedBy env (layoutsToUnload env s layoutForOrphans) s.m_activeLayouts).flatMap
            (fun l =>
              (if l.isOriginalLayout then [Call.syncToLayoutFile l.name] else []) ++
                [Call.unloadContainments l.name, Call.unloadLatteViews l.name,
                  Call.clearUnloadedContainmentsFromLinkedFile l.name false,
                  Call.deleteLayout l.name]),
        c.isUnload = true ∧ c.isLoad = false) ∧
      (∀ l ∈ unloadedBy env (layoutsToUnload env s layoutForOrphans) s.m_activeLayouts,
        l ∈ s.m_activeLayouts ∧ l.name ∈ layoutsToUnload env s layoutForOrphans) := by
  obtain ⟨added, loads, tail, _, hcalls, _, _, hloads, htail, _, _, _⟩ :=
    sync_shape env s layoutForOrphans
  have hfun : unloadCalls (memoryUsage s) = (fun l =>
      (if l.isOriginalLayout then [Call.syncToLayoutFile l.name] else []) ++
        [Call.unloadContainments l.name, Call.unloadLatteViews l.name,
          Call.clearUnloadedContainmentsFromLinkedFile l.name false,
          Call.deleteLayout l.name]) := by
    funext l
    rw [hmode]
    simp [unloadCalls]
  rw [hfun] at hcalls
  refine ⟨loads ++ tail, by rw [hcalls]; simp only [List.append_assoc], ?_, ?_, ?_⟩
  · intro c hc
    rcases List.mem_append.mp hc with h | h
    · exact hloads c h
    · exact (htail c h).1
  · intro c hc
    obtain ⟨l, _, hcl⟩ := List.mem_flatMap.mp hc
    simp only [List.mem_append, List.mem_cons, List.mem_singleton, List.not_mem_nil,
      or_false] at hcl
    rcases hcl with h | h | h | h | h
    · split_ifs at h
      · rw [List.mem_singleton] at h
        subst h
        exact ⟨rfl, rfl⟩
      · simp at h
    all_goals subst h; exact ⟨rfl, rfl⟩
  · intro l hl
    exact ⟨(mem_unloadedBy env _ _ l hl).1, (mem_unloadedBy env _ _ l hl).2.1⟩

/-- In the state `scenarioSwap`, which is in Multiple mode, the reconciliation
unloads `L2` and loads `Work`, in the order that C7 states. -/
theorem sync_unloads_before_loads_witness :
    memoryUsage scenarioSwap = .MultipleLayouts ∧
    (syncMultipleLayoutsToActivities demoEnv scenarioSwap "").calls =
      [Call.syncToLayoutFile "L2", Call.unloadContainments "L2", Call.unloadLatteViews "L2",
        Call.clearUnloadedContainmentsFromLinkedFile "L2" false, Call.deleteLayout "L2",
        Call.newActiveLayout "/home/u/.config/latte/Work.layout.latte" "Work",
        Call.initToCorona "Work", Call.importToCorona "Work",
        Call.currentLayoutNameChanged, Call.activeLayoutsChanged] ∧
    ∃ rest : List Call,
      (syncMultipleLayoutsToActivities demoEnv scenarioSwap "").calls =
        scenarioSwap.calls ++
          (unloadedBy demoEnv (layoutsToUnload demoEnv scenarioSwap "")
              scenarioSwap.m_activeLayouts).flatMap
            (fun l =>
              (if l.isOriginalLayout then [Call.syncToLayoutFile l.name] else []) ++
                [Call.unloadContainments l.name, Call.unloadLatteViews l.name,
                  Call.clearUnloadedContainmentsFromLinkedFile l.name false,
                  Call.deleteLayout l.name]) ++
          rest ∧
      (∀ c ∈ rest, c.isUnload = false) ∧
      (∀ c ∈ (unloadedBy demoEnv (layoutsToUnload demoEnv scenarioSwap "")
              scenarioSwap.m_activeLayouts).flatMap
            (fun l =>
              (if l.isOriginalLayout then [Call.syncToLayoutFile l.name] else []) ++
                [Call.unloadContainments l.name, Call.unloadLatteViews l.name,
                  Call.clearUnloadedContainmentsFromLinkedFile l.name false,
                  Call.deleteLayout l.name]),
        c.isUnload = true ∧ c.isLoad = false) ∧
      (∀ l ∈ unloadedBy demoEnv (layoutsToUnload demoEnv scenarioSwap "")
          scenarioSwap.m_activeLayouts,
        l ∈ scenarioSwap.m_activeLayouts ∧ l.name ∈ layoutsToUnload demoEnv scenarioSwap "") :=
  ⟨by decide, by decide, sync_unloads_before_loads demoEnv scenarioSwap "" (by decide)⟩

/-- After the synchronizer, in a state with distinct names, every loaded layout
is nameless, or wanted by a running activity, or the master, or the orphan layout. -/
theorem sync_loaded_names (env : Env) (s : LayoutManager) (lfo : String) (hd : NamesDistinct s)
    (l : ActiveLayout) (hl : l ∈ (syncMultipleLayoutsToActivities env s lfo).m_activeLayouts) :
    l.name = "" ∨ l.name ∈ (reservation env s).layoutsToLoad ∨ l.name = orphanLayoutName s lfo := by
  obtain ⟨added, _, _, hact, _, _, hadded, _, _, _, _, _⟩ := sync_shape env s lfo
  rw [hact] at hl
  rcases List.mem_append.mp hl with hk | ha
  · by_cases hn : l.name = ""
    · exact Or.inl hn
    · by_cases hm : l.name = env.MultipleLayoutsName
      · right
        left
        rw [mem_layoutsToLoad]
        exact Or.inl hm
      · exact Or.inr (kept_not_to_unload env s lfo hd l hk hn hm).1
  · rcases (hadded l ha).1 with h | ⟨_, h⟩
    · exact Or.inr (Or.inl h)
    · exact Or.inr (Or.inr h)

/-- C3, the claim as stated fails: in scenario A the stopped activity `act4` is
assigned to `L1`, and `L1` is loaded after the reconciliation because the
running activity `act1` is assigned to it as well. -/
theorem sync_loaded_iff_running_counterexample :
    scenarioA.m_assignedLayouts.value "act4" = "L1" ∧
    ¬ (activeLayout (syncMultipleLayoutsToActivities demoEnv scenarioA "") "L1" ≠ none ↔
      "act4" ∈ runningActivities scenarioA) := by
  decide

/-- C3, amended. Let the loaded layouts have pairwise distinct names and let the
assignment map send activity `a` to the layout `L`. After
`syncMultipleLayoutsToActivities`: if `a` is running then `L` is loaded; and if
`L` is loaded then some running activity is assigned to `L`, or `L` is the
master or the orphan layout. -/
theorem sync_loaded_iff_some_running (env : Env) (s : LayoutManager) (layoutForOrphans : String)
    (a L : String) (hd : NamesDistinct s) (ha : s.m_assignedLayouts.value a = L) (hL : L ≠ "") :
    (a ∈ runningActivities s →
      activeLayout (syncMultipleLayoutsToActivities env s layoutForOrphans) L ≠ none) ∧
    (activeLayout (syncMultipleLayoutsToActivities env s layoutForOrphans) L ≠ none →
      (∃ b ∈ runningActivities s, s.m_assignedLayouts.value b = L) ∨
        L = env.MultipleLayoutsName ∨ L = orphanLayoutName s layoutForOrphans) := by
  constructor
  · intro hrun
    apply sync_loaded_of_afterLoad
    apply afterLoad_toLoad_loaded
    rw [mem_layoutsToLoad]
    exact Or.inr ⟨hL, a, hrun, ha⟩
  · intro hloaded
    rw [activeLayout_ne_none_iff] at hloaded
    obtain ⟨l, hl, hname⟩ := hloaded
    rcases sync_loaded_names env s layoutForOrphans hd l hl with h | h | h
    · exact absurd (hname ▸ h) hL
    · rw [mem_layoutsToLoad, hname] at h
      rcases h with h | ⟨_, b, hb, hv⟩
      · exact Or.inr (Or.inl h)
      · exact Or.inl ⟨b, hb, hv⟩
    · exact Or.inr (Or.inr (hname ▸ h))

/-- In scenario A the names are distinct and `act1` is assigned to `L1`, so the
amended C3 applies. -/
theorem sync_loaded_iff_some_running_witness :
    NamesDistinct scenarioA ∧ scenarioA.m_assignedLayouts.value "act1" = "L1" ∧ "L1" ≠ "" ∧
    (("act1" ∈ runningActivities scenarioA →
      activeLayout (syncMultipleLayoutsToActivities demoEnv scenarioA "") "L1" ≠ none) ∧
    (activeLayout (syncMultipleLayoutsToActivities demoEnv scenarioA "") "L1" ≠ none →
      (∃ b ∈ runningActivities scenarioA, scenarioA.m_assignedLayouts.value b = "L1") ∨
        "L1" = demoEnv.MultipleLayoutsName ∨ "L1" = orphanLayoutName scenarioA "")) :=
  ⟨by unfold NamesDistinct; decide, by decide, by decide,
    sync_loaded_iff_some_running demoEnv scenarioA "" "act1" "L1"
      (by unfold NamesDistinct; decide) (by decide) (by decide)⟩

/-! ## The claims about the dynamic-switch debouncer -/

/-- A non-empty result of `shouldSwitchToLayout` differs from the current layout name. -/
theorem shouldSwitchToLayout_ne_current (s : LayoutManager) (activityId : String)
    (h : shouldSwitchToLayout s activityId ≠ "") :
    shouldSwitchToLayout s activityId ≠ currentLayoutName s := by
  unfold shouldSwitchToLayout at h ⊢
  split_ifs at h ⊢ with h1 h2
  · exact h1.2
  · exact h2.2.2
  · exact absurd rfl h

theorem confirmDynamicSwitch_of_empty (s : LayoutManager)
    (hr : shouldSwitchToLayout s s.activityConsumer.currentActivity = "") :
    confirmDynamicSwitch s = s := by
  unfold confirmDynamicSwitch
  simp [hr]

theorem confirmDynamicSwitch_of_match (s : LayoutManager)
    (hr : shouldSwitchToLayout s s.activityConsumer.currentActivity ≠ "")
    (hc : shouldSwitchToLayout s s.activityConsumer.currentActivity = s.m_shouldSwitchToLayout) :
    s.m_shouldSwitchToLayout ≠ currentLayoutName s ∧
    confirmDynamicSwitch s =
      { s with
        calls := s.calls ++ [Call.currentLayoutIsSwitching (currentLayoutName s)] ++
          (if s.universalSettings.showInfoWindow then
            [Call.showInfoWindow
              ("Switching to layout <b>" ++ s.m_shouldSwitchToLayout ++ "</b> ...") 4000 []]
          else []) ++
          [Call.singleShotSwitchToLayout 500 s.m_shouldSwitchToLayout] } := by
  have hne := shouldSwitchToLayout_ne_current s _ hr
  rw [hc] at hne
  have hr' : s.m_shouldSwitchToLayout ≠ "" := hc ▸ hr
  refine ⟨hne, ?_⟩
  unfold confirmDynamicSwitch
  simp only [hc, hr', if_false, hne, ne_eq, not_false_eq_true, and_self, if_true]
  cases hw : s.universalSettings.showInfoWindow <;> simp [record, hw]

theorem confirmDynamicSwitch_of_mismatch (s : LayoutManager)
    (hr : shouldSwitchToLayout s s.activityConsumer.currentActivity ≠ "")
    (hc : shouldSwitchToLayout s s.activityConsumer.currentActivity ≠ s.m_shouldSwitchToLayout) :
    confirmDynamicSwitch s =
      { s with
        m_shouldSwitchToLayout := shouldSwitchToLayout s s.activityConsumer.currentActivity
        m_dynamicSwitchTimer := s.m_dynamicSwitchTimer.start
        calls := s.calls ++ [Call.timerStart] } := by
  unfold confirmDynamicSwitch
  have hc' : ¬ (s.m_shouldSwitchToLayout = shouldSwitchToLayout s s.activityConsumer.currentActivity) :=
    fun h => hc h.symm
  simp [hr, hc', record]

/-- C8, the claim as stated fails: in `scenarioSingle` the activity `act1` is
assigned to the current layout `L1`, so `shouldSwitchToLayout` returns the empty
string, while the wording of the claim falls through to the last non-assigned
layout `Work`. -/
theorem shouldSwitchToLayout_counterexample :
    shouldSwitchToLayout scenarioSingle "act1" = "" ∧
    shouldSwitchAsSpecified scenarioSingle "act1" = "Work" ∧
    shouldSwitchToLayout scenarioSingle "act1" ≠ shouldSwitchAsSpecified scenarioSingle "act1" := by
  decide

/-- C8, amended. `shouldSwitchToLayout` returns, when the activity has an entry
in the assignment map, the assigned layout if it differs from the current
layout name and the empty string otherwise; when the activity has no entry, the
last non-assigned layout name if that is non-empty and differs from the current
layout name, and the empty string otherwise. -/
theorem shouldSwitchToLayout_eq (s : LayoutManager) (activityId : String) :
    shouldSwitchToLayout s activityId =
      if s.m_assignedLayouts.contains activityId = true then
        (if s.m_assignedLayouts.value activityId ≠ currentLayoutName s then
          s.m_assignedLayouts.value activityId
        else "")
      else
        (if s.universalSettings.lastNonAssignedLayoutName ≠ "" ∧
            s.universalSettings.lastNonAssignedLayoutName ≠ currentLayoutName s then
          s.universalSettings.lastNonAssignedLayoutName
        else "") := by
  unfold shouldSwitchToLayout
  by_cases hc : s.m_assignedLayouts.contains activityId = true
  · by_cases hv : s.m_assignedLayouts.value activityId = currentLayoutName s
    · simp [hc, hv]
    · simp [hc, hv]
  · have hc' : s.m_assignedLayouts.contains activityId = false := by simpa using hc
    simp [hc']

/-- C9, the claim as stated fails: in `scenarioSingle` the recomputed target and
the stored candidate are both empty, hence equal, and differ from the current
layout name `L1`; yet `confirmDynamicSwitch` confirms nothing: it emits no
notification and schedules no switch. -/
theorem confirmDynamicSwitch_counterexample :
    shouldSwitchToLayout scenarioSingle scenarioSingle.activityConsumer.currentActivity =
      scenarioSingle.m_shouldSwitchToLayout ∧
    scenarioSingle.m_shouldSwitchToLayout ≠ currentLayoutName scenarioSingle ∧
    (confirmDynamicSwitch scenarioSingle).calls = scenarioSingle.calls ∧
    switchTargets (confirmDynamicSwitch scenarioSingle).calls = [] := by
  decide

/-- C9, amended. With `r` the recomputed target for the current host activity and
`c` the stored candidate: if `r` is empty `confirmDynamicSwitch` does nothing;
if `r` is non-empty and equals `c` (it then differs from the current layout
name) the switch is confirmed: the switching notification is emitted, the
information window is shown when enabled, `switchToLayout(c)` is scheduled
after 500 ms, and neither the candidate nor the timer is touched; if `r` is
non-empty and differs from `c`, nothing is scheduled, the candidate becomes `r`
and the timer is restarted. -/
theorem confirmDynamicSwitch_cases (s : LayoutManager) :
    (shouldSwitchToLayout s s.activityConsumer.currentActivity = "" →
      confirmDynamicSwitch s = s) ∧
    (shouldSwitchToLayout s s.activityConsumer.currentActivity ≠ "" →
      shouldSwitchToLayout s s.activityConsumer.currentActivity = s.m_shouldSwitchToLayout →
        s.m_shouldSwitchToLayout ≠ currentLayoutName s ∧
        (confirmDynamicSwitch s).calls =
          s.calls ++ [Call.currentLayoutIsSwitching (currentLayoutName s)] ++
            (if s.universalSettings.showInfoWindow then
              [Call.showInfoWindow
                ("Switching to layout <b>" ++ s.m_shouldSwitchToLayout ++ "</b> ...") 4000 []]
            else []) ++
            [Call.singleShotSwitchToLayout 500 s.m_shouldSwitchToLayout] ∧
        (confirmDynamicSwitch s).m_shouldSwitchToLayout = s.m_shouldSwitchToLayout ∧
        (confirmDynamicSwitch s).m_dynamicSwitchTimer = s.m_dynamicSwitchTimer) ∧
    (shouldSwitchToLayout s s.activityConsumer.currentActivity ≠ "" →
      shouldSwitchToLayout s s.activityConsumer.currentActivity ≠ s.m_shouldSwitchToLayout →
        (confirmDynamicSwitch s).calls = s.calls ++ [Call.timerStart] ∧
        (confirmDynamicSwitch s).m_shouldSwitchToLayout =
          shouldSwitchToLayout s s.activityConsumer.currentActivity ∧
        (confirmDynamicSwitch s).m_dynamicSwitchTimer = s.m_dynamicSwitchTimer.start) := by
  refine ⟨confirmDynamicSwitch_of_empty s, ?_, ?_⟩
  · intro hr hc
    obtain ⟨hne, heq⟩ := confirmDynamicSwitch_of_match s hr hc
    rw [heq]
    exact ⟨hne, rfl, rfl, rfl⟩
  · intro hr hc
    rw [confirmDynamicSwitch_of_mismatch s hr hc]
    exact ⟨rfl, rfl, rfl⟩

/-- In `scenarioPending` the recomputed target `L2` is the stored candidate, and
the switch to `L2` is confirmed as the amended C9 states. -/
theorem confirmDynamicSwitch_cases_witness :
    shouldSwitchToLayout scenarioPending scenarioPending.activityConsumer.currentActivity ≠ "" ∧
    shouldSwitchToLayout scenarioPending scenarioPending.activityConsumer.currentActivity =
      scenarioPending.m_shouldSwitchToLayout ∧
    (confirmDynamicSwitch scenarioPending).calls =
      [Call.timerStart, Call.currentLayoutIsSwitching "L1", Call.singleShotSwitchToLayout 500 "L2"] ∧
    (scenarioPending.m_shouldSwitchToLayout ≠ currentLayoutName scenarioPending ∧
      (confirmDynamicSwitch scenarioPending).calls =
        scenarioPending.calls ++ [Call.currentLayoutIsSwitching (currentLayoutName scenarioPending)] ++
          (if scenarioPending.universalSettings.showInfoWindow then
            [Call.showInfoWindow
              ("Switching to layout <b>" ++ scenarioPending.m_shouldSwitchToLayout ++ "</b> ...")
              4000 []]
          else []) ++
          [Call.singleShotSwitchToLayout 500 scenarioPending.m_shouldSwitchToLayout] ∧
      (confirmDynamicSwitch scenarioPending).m_shouldSwitchToLayout =
        scenarioPending.m_shouldSwitchToLayout ∧
      (confirmDynamicSwitch scenarioPending).m_dynamicSwitchTimer =
        scenarioPending.m_dynamicSwitchTimer) :=
  ⟨by decide, by decide, by decide,
    (confirmDynamicSwitch_cases scenarioPending).2.1 (by decide) (by decide)⟩

theorem switchTargets_append (xs ys : List Call) :
    switchTargets (xs ++ ys) = switchTargets xs ++ switchTargets ys := by
  induction xs with
  | nil => rfl
  | cons c rest ih =>
    cases c <;> simp [switchTargets, ih]

theorem shouldSwitchToLayout_congr (s s' : LayoutManager) (activityId : String)
    (h1 : s'.universalSettings = s.universalSettings)
    (h2 : s'.m_assignedLayouts = s.m_assignedLayouts)
    (h3 : s'.m_currentLayoutNameInMultiEnvironment = s.m_currentLayoutNameInMultiEnvironment) :
    shouldSwitchToLayout s' activityId = shouldSwitchToLayout s activityId := by
  unfold shouldSwitchToLayout currentLayoutName memoryUsage
  rw [h1, h2, h3]

theorem hostActivityChange_single (s : LayoutManager) (id : String)
    (hmode : memoryUsage s = .SingleLayout) :
    hostActivityChange s id =
      { s with
        activityConsumer := { s.activityConsumer with currentActivity := id }
        m_shouldSwitchToLayout := shouldSwitchToLayout s id
        m_dynamicSwitchTimer := s.m_dynamicSwitchTimer.start
        calls := s.calls ++ [Call.timerStart] } := by
  unfold hostActivityChange currentActivityChanged
  unfold memoryUsage at hmode ⊢
  simp only [hmode, record]
  rw [shouldSwitchToLayout_congr s
    { s with activityConsumer := { s.activityConsumer with currentActivity := id } } id rfl rfl rfl]

theorem burst_frame (ids : List String) (s : LayoutManager)
    (hmode : memoryUsage s = .SingleLayout) :
    (burst s ids).universalSettings = s.universalSettings ∧
    (burst s ids).m_assignedLayouts = s.m_assignedLayouts ∧
    (burst s ids).m_currentLayoutNameInMultiEnvironment =
      s.m_currentLayoutNameInMultiEnvironment ∧
    switchTargets (burst s ids).calls = switchTargets s.calls := by
  induction ids generalizing s with
  | nil => exact ⟨rfl, rfl, rfl, rfl⟩
  | cons id rest ih =>
    have hstep := hostActivityChange_single s id hmode
    have hmode' : memoryUsage (hostActivityChange s id) = .SingleLayout := by
      rw [hstep]
      exact hmode
    obtain ⟨h1, h2, h3, h4⟩ := ih (hostActivityChange s id) hmode'
    unfold burst at *
    rw [List.foldl_cons]
    rw [h1, h2, h3, h4, hstep]
    simp [switchTargets_append, switchTargets]

/-- C10. Debouncer convergence in Single mode: after a burst of one or more
`currentActivityChanged` events that all arrive before the timer fires, letting
the timer fire until it rests (any positive number of allowed firings) leaves
the timer stopped and has scheduled exactly one `switchToLayout`, with target
`shouldSwitchToLayout(final activity)`, when that target is non-empty and
differs from the current layout name, and none otherwise. -/
theorem debounce_converges (s : LayoutManager) (ids : List String) (final : String) (fuel : Nat)
    (hmode : memoryUsage s = .SingleLayout) :
    (settle (fuel + 1) (burst s (ids ++ [final]))).m_dynamicSwitchTimer.active = false ∧
    switchTargets (settle (fuel + 1) (burst s (ids ++ [final]))).calls =
      switchTargets s.calls ++
        (if shouldSwitchToLayout s final ≠ "" ∧ shouldSwitchToLayout s final ≠ currentLayoutName s
          then [shouldSwitchToLayout s final] else []) := by
  obtain ⟨h1, h2, h3, h4⟩ := burst_frame ids s hmode
  have hmode' : memoryUsage (burst s ids) = .SingleLayout := by
    unfold memoryUsage at hmode ⊢
    rw [h1]
    exact hmode
  have hb : burst s (ids ++ [final]) = hostActivityChange (burst s ids) final := by
    unfold burst
    rw [List.foldl_append]
    rfl
  have hsw : shouldSwitchToLayout (burst s ids) final = shouldSwitchToLayout s final :=
    shouldSwitchToLayout_congr s _ final h1 h2 h3
  have hcur : ∀ t : LayoutManager, t.universalSettings = s.universalSettings →
      currentLayoutName t = currentLayoutName s := by
    intro t ht
    unfold currentLayoutName memoryUsage at *
    rw [ht, hmode]
  rw [hb, hostActivityChange_single _ _ hmode', hsw]
  unfold QTimer.start
  generalize burst s ids = b at *
  -- the state in which the timer fires
  have hr : shouldSwitchToLayout
      { b with
        activityConsumer := { b.activityConsumer with currentActivity := final }
        m_shouldSwitchToLayout := shouldSwitchToLayout s final
        m_dynamicSwitchTimer := { b.m_dynamicSwitchTimer with active := false }
        calls := b.calls ++ [Call.timerStart] } final = shouldSwitchToLayout s final :=
    shouldSwitchToLayout_congr s _ final h1 h2 h3
  by_cases hempty : shouldSwitchToLayout s final = ""
  · have hfire : timerTimeout
        { b with
          activityConsumer := { b.activityConsumer with currentActivity := final }
          m_shouldSwitchToLayout := shouldSwitchToLayout s final
          m_dynamicSwitchTimer := { b.m_dynamicSwitchTimer with active := true }
          calls := b.calls ++ [Call.timerStart] } =
        { b with
          activityConsumer := { b.activityConsumer with currentActivity := final }
          m_shouldSwitchToLayout := shouldSwitchToLayout s final
          m_dynamicSwitchTimer := { b.m_dynamicSwitchTimer with active := false }
          calls := b.calls ++ [Call.timerStart] } := by
      unfold timerTimeout
      simp only [if_true]
      exact confirmDynamicSwitch_of_empty _ (hr.trans hempty)
    unfold settle
    simp only [if_true]
    rw [hfire]
    cases fuel <;> simp [settle, switchTargets_append, switchTargets, h4, hempty]
  · have hne := shouldSwitchToLayout_ne_current s final hempty
    obtain ⟨_, hconf⟩ := confirmDynamicSwitch_of_match
        { b with
          activityConsumer := { b.activityConsumer with currentActivity := final }
          m_shouldSwitchToLayout := shouldSwitchToLayout s final
          m_dynamicSwitchTimer := { b.m_dynamicSwitchTimer with active := false }
          calls := b.calls ++ [Call.timerStart] } (by rw [hr]; exact hempty) hr
    have hfire : timerTimeout
        { b with
          activityConsumer := { b.activityConsumer with currentActivity := final }
          m_shouldSwitchToLayout := shouldSwitchToLayout s final
          m_dynamicSwitchTimer := { b.m_dynamicSwitchTimer with active := true }
          calls := b.calls ++ [Call.timerStart] } =
        confirmDynamicSwitch
          { b with
            activityConsumer := { b.activityConsumer with currentActivity := final }
            m_shouldSwitchToLayout := shouldSwitchToLayout s final
            m_dynamicSwitchTimer := { b.m_dynamicSwitchTimer with active := false }
            calls := b.calls ++ [Call.timerStart] } := by
      unfold timerTimeout
      simp
    unfold settle
    simp only [if_true]
    rw [hfire, hconf]
    have hstop : ∀ t : LayoutManager, t.m_dynamicSwitchTimer.active = false → settle fuel t = t := by
      intro t ht
      cases fuel <;> simp [settle, ht]
    rw [hstop _ rfl]
    refine ⟨rfl, ?_⟩
    cases hw : b.universalSettings.showInfoWindow <;>
      simp [switchTargets_append, switchTargets, h4, hempty, hne]

/-- Scenario C: in Single mode with `L1` current, the host's current activity
changes three times within the interval and ends at `act2`, assigned to `L2`;
exactly one switch, to `L2`, is scheduled. -/
theorem debounce_converges_witness :
    memoryUsage scenarioSingle = .SingleLayout ∧
    switchTargets (settle 3 (burst scenarioSingle (["act2", "act1"] ++ ["act2"]))).calls = ["L2"] ∧
    ((settle (2 + 1) (burst scenarioSingle (["act2", "act1"] ++ ["act2"]))).m_dynamicSwitchTimer.active = false ∧
    switchTargets (settle (2 + 1) (burst scenarioSingle (["act2", "act1"] ++ ["act2"]))).calls =
      switchTargets scenarioSingle.calls ++
        (if shouldSwitchToLayout scenarioSingle "act2" ≠ "" ∧
            shouldSwitchToLayout scenarioSingle "act2" ≠ currentLayoutName scenarioSingle
          then [shouldSwitchToLayout scenarioSingle "act2"] else [])) :=
  ⟨by decide, by decide, debounce_converges scenarioSingle ["act2", "act1"] "act2" 2 (by decide)⟩

/-! ## The orphan handler -/

/-- The layout for the orphan activities is loaded after the synchronizer whenever
some running activity has no assignment. -/
theorem sync_loads_orphan_layout (env : Env) (s : LayoutManager) (layoutForOrphans : String)
    (h : (reservation env s).allRunningActivitiesWillBeReserved = false) :
    activeLayout (syncMultipleLayoutsToActivities env s layoutForOrphans)
      (orphanLayoutName s layoutForOrphans) ≠ none :=
  sync_loaded_of_afterLoad env s _ _ (afterLoad_orphan_loaded env s _ h)

/-- When every running activity is reserved, the names of the loaded layouts are
distinct and non-empty and the assignment-map invariant holds, no layout other
than the master is loaded without activities after the synchronizer. -/
theorem sync_unloads_named_orphan_layouts (env : Env) (s : LayoutManager)
    (layoutForOrphans : String) (hd : NamesDistinct s) (hinv : AssignmentInvariant env s)
    (hnames : ∀ l ∈ s.m_activeLayouts, l.name ≠ "")
    (hall : (reservation env s).allRunningActivitiesWillBeReserved = true)
    (l : ActiveLayout)
    (hl : l ∈ (syncMultipleLayoutsToActivities env s layoutForOrphans).m_activeLayouts)
    (hm : l.name ≠ env.MultipleLayoutsName) : l.activities ≠ [] := by
  obtain ⟨added, _, _, hact, _, _, hadded, _, _, _, _, _⟩ := sync_shape env s layoutForOrphans
  rw [hact] at hl
  rcases List.mem_append.mp hl with hk | ha
  · have hs : l ∈ s.m_activeLayouts := (keptBy_sublist env _ _).subset hk
    have := (kept_not_to_unload env s layoutForOrphans hd l hk (hnames l hs) hm).2
    exact fun he => this ⟨he, hall⟩
  · obtain ⟨q1, _, q3⟩ := hadded l ha
    rcases q1 with q1 | ⟨q1, _⟩
    · rw [mem_layoutsToLoad] at q1
      rcases q1 with q1 | ⟨hne, a, _, hv⟩
      · exact absurd q1 hm
      · have hentry := QHash.value_mem_values s.m_assignedLayouts a (by rw [hv]; exact hne)
        have := hinv _ hentry (by rw [hv]; exact hne)
        simp only [hv] at this
        rw [← q3] at this
        exact List.ne_nil_of_mem this
    · rw [hall] at q1
      cases q1

/-- C6, evaluated at a failing input. From `scenarioFresh` one reconciliation
loads, as the layout for the orphan activity, a layout under the empty last
non-assigned name.  Once only the assigned activity `act1` runs, names are
distinct, the assignment-map invariant holds and every running activity is
reserved; the next reconciliation unloads nothing, and the nameless layout,
which is not the master and has no activities, is still loaded. -/
theorem sync_keeps_nameless_orphan_layout :
    scenarioNameless.m_activeLayouts =
      [demoMaster,
       { ptr := 2, name := "", activities := [], lastUsedActivity := "", isOriginalLayout := true }] ∧
    NamesDistinct scenarioNamelessReserved ∧
    AssignmentInvariant demoEnv scenarioNamelessReserved ∧
    (reservation demoEnv scenarioNamelessReserved).allRunningActivitiesWillBeReserved = true ∧
    layoutsToUnload demoEnv scenarioNamelessReserved "" = [".multiple-layouts_hidden"] ∧
    (syncMultipleLayoutsToActivities demoEnv scenarioNamelessReserved "").m_activeLayouts =
      [demoMaster,
       { ptr := 2, name := "", activities := [], lastUsedActivity := "", isOriginalLayout := true },
       { ptr := 3, name := "L1", activities := ["act1", "act4"], lastUsedActivity := "act1",
         isOriginalLayout := true }] ∧
    ∃ l ∈ (syncMultipleLayoutsToActivities demoEnv scenarioNamelessReserved "").m_activeLayouts,
      l.name ≠ demoEnv.MultipleLayoutsName ∧ l.activities = [] := by
  decide

/-- C5, evaluated at a failing input. In `scenarioNameless` the unassigned
activity `act3` runs and a nameless layout without activities is loaded.
Reconciling with `Work` as the layout for orphans loads `Work` and leaves the
nameless layout loaded: two loaded layouts other than the master have an empty
activity set, and the first of them, not `Work`, becomes the current layout. -/
theorem sync_leaves_two_orphan_handlers :
    NamesDistinct scenarioNameless ∧
    AssignmentInvariant demoEnv scenarioNameless ∧
    (reservation demoEnv scenarioNameless).allRunningActivitiesWillBeReserved = false ∧
    orphanLayoutName scenarioNameless "Work" = "Work" ∧
    (syncMultipleLayoutsToActivities demoEnv scenarioNameless "Work").m_activeLayouts =
      [demoMaster,
       { ptr := 2, name := "", activities := [], lastUsedActivity := "", isOriginalLayout := true },
       { ptr := 3, name := "Work", activities := [], lastUsedActivity := "",
         isOriginalLayout := true }] ∧
    ((syncMultipleLayoutsToActivities demoEnv scenarioNameless "Work").m_activeLayouts.filter
      (fun l => l.name != demoEnv.MultipleLayoutsName && l.activities.isEmpty)).length = 2 ∧
    (syncMultipleLayoutsToActivities demoEnv scenarioNameless "Work").m_currentLayoutNameInMultiEnvironment
      = "" := by
  decide

/-! ## The claim about the debounce interval -/

/-- C11, the claim as stated fails: the interval set with the information window
enabled is 1800 ms, the interval set with it disabled is 2300 ms, so the first
is not longer than the second. -/
theorem showInfoWindowChanged_counterexample :
    scenarioInfo.universalSettings.showInfoWindow = true ∧
    scenarioSingle.universalSettings.showInfoWindow = false ∧
    (showInfoWindowChanged scenarioInfo).m_dynamicSwitchTimer.interval = 1800 ∧
    (showInfoWindowChanged scenarioSingle).m_dynamicSwitchTimer.interval = 2300 ∧
    ¬ ((showInfoWindowChanged scenarioInfo).m_dynamicSwitchTimer.interval >
        (showInfoWindowChanged scenarioSingle).m_dynamicSwitchTimer.interval) := by
  decide

/-- C11, amended. The debounce interval set by `showInfoWindowChanged` is 1800 ms
when the information window is enabled and 2300 ms when it is disabled, hence
strictly shorter when the window is enabled. -/
theorem showInfoWindowChanged_interval (s t : LayoutManager)
    (hs : s.universalSettings.showInfoWindow = true)
    (ht : t.universalSettings.showInfoWindow = false) :
    (showInfoWindowChanged s).m_dynamicSwitchTimer.interval = 1800 ∧
    (showInfoWindowChanged t).m_dynamicSwitchTimer.interval = 2300 ∧
    (showInfoWindowChanged s).m_dynamicSwitchTimer.interval <
      (showInfoWindowChanged t).m_dynamicSwitchTimer.interval := by
  unfold showInfoWindowChanged
  simp [hs, ht, QTimer.setInterval]

/-- The amended C11 at two concrete states. -/
theorem showInfoWindowChanged_interval_witness :
    scenarioInfo.universalSettings.showInfoWindow = true ∧
    scenarioSingle.universalSettings.showInfoWindow = false ∧
    ((showInfoWindowChanged scenarioInfo).m_dynamicSwitchTimer.interval = 1800 ∧
    (showInfoWindowChanged scenarioSingle).m_dynamicSwitchTimer.interval = 2300 ∧
    (showInfoWindowChanged scenarioInfo).m_dynamicSwitchTimer.interval <
      (showInfoWindowChanged scenarioSingle).m_dynamicSwitchTimer.interval) :=
  ⟨by decide, by decide, showInfoWindowChanged_interval scenarioInfo scenarioSingle (by decide) (by decide)⟩

/-! ## Facts about `switchToLayout` -/

theorem record_nil (s : LayoutManager) : record s [] = s := by
  unfold record
  simp

theorem record_record (s : LayoutManager) (a b : List Call) :
    record (record s a) b = record s (a ++ b) := by
  unfold record
  simp

theorem orphanAnnouncement_record (env : Env) (s : LayoutManager) (cs : List Call)
    (n lPath : String) :
    orphanAnnouncement env (record s cs) n lPath = orphanAnnouncement env s n lPath := rfl

theorem switchToLayout_of_guard (env : Env) (s : LayoutManager) (n : String) (prev : Int)
    (h : s.m_activeLayouts.length > 0 ∧ currentLayoutName s = n ∧ prev = -1) :
    switchToLayout env s n prev = some (false, s) := by
  unfold switchToLayout
  rw [if_pos h]

/-- The result of `switchToLayout` when neither the guard nor the block for a
loaded target returns. -/
theorem switchToLayout_continue (env : Env) (s : LayoutManager) (n : String) (prev : Int)
    (hg : ¬ (s.m_activeLayouts.length > 0 ∧ currentLayoutName s = n ∧ prev = -1))
    (hp : switchToPresentLayout s n prev = some none) :
    switchToLayout env s n prev =
      some (true, record s
        (switchingAnnouncements s prev ++ creationCalls env n ++ schedulingCalls env s n prev)) := by
  unfold switchToLayout
  rw [if_neg hg, hp]
  simp only []
  unfold creationCalls schedulingCalls resolvedPath newLayout
  by_cases ha : layoutPath env n = "" ∧ n = "Alternative"
  · obtain ⟨h1, h2⟩ := ha
    subst h2
    have hc : layoutPath env "Alternative" = "" ∧ "Alternative" = "Alternative" := ⟨h1, rfl⟩
    simp only [h1, and_self, if_true]
    by_cases hne : newLayoutPath env "Alternative" = ""
    · simp [hne, record_record]
    · simp only [hne, ne_eq, not_false_eq_true, if_true, if_false, record_record,
        List.append_assoc, true_and, orphanAnnouncement_record]
  · simp only [if_neg ha]
    by_cases hne : layoutPath env n = ""
    · simp [hne, record_record]
    · simp only [hne, ne_eq, not_false_eq_true, if_true, if_false, record_record,
        List.append_assoc, List.nil_append, orphanAnnouncement_record]

/-- The three ways the block for a loaded target can end. -/
theorem switchToPresentLayout_cases (s : LayoutManager) (n : String) (prev : Int) :
    switchToPresentLayout s n prev = none ∨ switchToPresentLayout s n prev = some none ∨
      ∃ layout a, memoryUsage s = .MultipleLayouts ∧ prev = -1 ∧
        activeLayout s n = some layout ∧
        s.activityConsumer.currentActivity ∉ appliedActivities s layout ∧
        (layout.lastUsedActivity ≠ "" → a = layout.lastUsedActivity) ∧
        (layout.lastUsedActivity = "" → (appliedActivities s layout).head? = some a) ∧
        switchToPresentLayout s n prev = some (some (record s [Call.setCurrentActivity a])) := by
  unfold switchToPresentLayout
  by_cases hm : memoryUsage s = .MultipleLayouts ∧ prev = -1
  · rw [if_pos hm]
    cases hl : activeLayout s n with
    | none => exact Or.inr (Or.inl rfl)
    | some layout =>
      simp only []
      by_cases hu : layout.lastUsedActivity = ""
      · cases hh : (appliedActivities s layout).head? with
        | none => simp [hu, hh]
        | some a =>
          by_cases hc : s.activityConsumer.currentActivity ∈ appliedActivities s layout
          · simp [hu, hh, hc]
          · right
            right
            refine ⟨layout, a, hm.1, hm.2, rfl, hc, fun h => absurd hu h, fun _ => hh, ?_⟩
            simp [hu, hh, hc]
      · by_cases hc : s.activityConsumer.currentActivity ∈ appliedActivities s layout
        · simp [hu, hc]
        · right
          right
          refine ⟨layout, layout.lastUsedActivity, hm.1, hm.2, rfl, hc, fun _ => rfl,
            fun h => absurd h hu, ?_⟩
          simp [hu, hc]
  · rw [if_neg hm]
    exact Or.inr (Or.inl rfl)

theorem switchingNotices_append (xs ys : List Call) :
    switchingNotices (xs ++ ys) = switchingNotices xs ++ switchingNotices ys := by
  induction xs with
  | nil => rfl
  | cons c rest ih =>
    cases c <;> simp [switchingNotices, ih]

theorem scheduledTransitions_append (xs ys : List Call) :
    scheduledTransitions (xs ++ ys) = scheduledTransitions xs ++ scheduledTransitions ys := by
  induction xs with
  | nil => rfl
  | cons c rest ih =>
    cases c <;> simp [scheduledTransitions, ih]

theorem switchingAnnouncements_spec (s : LayoutManager) (prev : Int) :
    (∀ c ∈ switchingAnnouncements s prev, ∃ l, c = Call.currentLayoutIsSwitching l) ∧
    (prev = -1 → switchingAnnouncements s prev = []) := by
  unfold switchingAnnouncements
  constructor
  · intro c hc
    split_ifs at hc
    · rcases List.mem_append.mp hc with h | h
      · obtain ⟨l, _, rfl⟩ := List.mem_map.mp h
        exact ⟨l.name, rfl⟩
      · obtain ⟨l, _, rfl⟩ := List.mem_map.mp h
        exact ⟨l.name, rfl⟩
    · simp at hc
  · intro h
    simp [h]

theorem creationCalls_spec (env : Env) (n : String) :
    (∀ c ∈ creationCalls env n, ∃ a b, c = Call.copyFile a b) ∧
    (¬ (layoutPath env n = "" ∧ n = "Alternative") → creationCalls env n = []) := by
  unfold creationCalls
  constructor
  · intro c hc
    split_ifs at hc
    · rw [List.mem_singleton] at hc
      exact ⟨_, _, hc⟩
    · simp at hc
    · simp at hc
  · intro h
    rw [if_neg h]

/-- The orphan announcement is at most one signal, for a loaded original layout
without activities whose name differs from the name read off the target file. -/
theorem orphanAnnouncement_spec (env : Env) (s : LayoutManager) (n lPath : String) :
    orphanAnnouncement env s n lPath = [] ∨
      ∃ l ∈ s.m_activeLayouts,
        orphanAnnouncement env s n lPath = [Call.currentLayoutIsSwitching l.name] ∧
        memoryUsage s = .MultipleLayouts ∧ n ≠ env.MultipleLayoutsName ∧
        l.isOriginalLayout = true ∧ l.activities = [] ∧
        (env.readFile lPath).activities = [] ∧ env.layoutName lPath ≠ l.name := by
  unfold orphanAnnouncement
  cases hm : memoryUsage s with
  | SingleLayout => exact Or.inl rfl
  | MultipleLayouts =>
    simp only []
    by_cases hn : n = env.MultipleLayoutsName
    · simp [hn]
    · simp only [ne_eq, hn, not_false_eq_true, if_true]
      cases hf : s.m_activeLayouts.find? (fun fromLayout =>
          fromLayout.isOriginalLayout && fromLayout.activities.isEmpty) with
      | none => exact Or.inl rfl
      | some l =>
        simp only []
        by_cases hc : (env.readFile lPath).activities = [] ∧ ¬ env.layoutName lPath = l.name
        · right
          have hp := @List.find?_some _ (fun fromLayout : ActiveLayout =>
            fromLayout.isOriginalLayout && fromLayout.activities.isEmpty) l _ hf
          simp only [Bool.and_eq_true, List.isEmpty_iff] at hp
          exact ⟨l, List.mem_of_find?_eq_some hf, by rw [if_pos hc], trivial, trivial,
            hp.1, hp.2, hc.1, hc.2⟩
        · left
          rw [if_neg hc]

/-- The calls of `switchToLayout` after the announcements of a mode change: no
unload call, and at most one more switching signal, for the orphan layout. -/
theorem schedulingCalls_spec (env : Env) (s : LayoutManager) (n : String) (prev : Int) :
    (∀ c ∈ schedulingCalls env s n prev, c.isUnload = false ∧ c.isLoad = false) ∧
    (resolvedPath env n = "" → schedulingCalls env s n prev = []) ∧
    (switchingNotices (schedulingCalls env s n prev) = [] ∨
      ∃ l ∈ s.m_activeLayouts,
        switchingNotices (schedulingCalls env s n prev) = [l.name] ∧
        memoryUsage s = .MultipleLayouts ∧ n ≠ env.MultipleLayoutsName ∧
        l.isOriginalLayout = true ∧ l.activities = [] ∧
        (env.readFile (resolvedPath env n)).activities = [] ∧
        env.layoutName (resolvedPath env n) ≠ l.name) := by
  unfold schedulingCalls
  by_cases hr : resolvedPath env n = ""
  · simp [hr, switchingNotices]
  · simp only [ne_eq, hr, not_false_eq_true, if_true, false_implies, true_and]
    rcases orphanAnnouncement_spec env s n (resolvedPath env n) with h | ⟨l, hl, h, rest⟩
    · rw [h]
      refine ⟨?_, Or.inl rfl⟩
      intro c hc
      simp only [List.nil_append, List.mem_singleton] at hc
      subst hc
      exact ⟨rfl, rfl⟩
    · rw [h]
      refine ⟨?_, Or.inr ⟨l, hl, rfl, rest⟩⟩
      intro c hc
      simp only [List.cons_append, List.nil_append, List.mem_cons, List.mem_singleton,
        List.not_mem_nil, or_false] at hc
      rcases hc with hc | hc <;> subst hc <;> exact ⟨rfl, rfl⟩

/-! ## The claims about the guard, the missing path and the loaded target -/

/-- C12, the claim as stated fails: at start-up in Single mode no layout is loaded
and the target `L1` is the current layout name, yet `switchToLayout` schedules
the deferred transition. -/
theorem switchToLayout_guard_counterexample :
    currentLayoutName scenarioStartup = "L1" ∧
    switchToLayout demoEnv scenarioStartup "L1" (-1) =
      some (true, record scenarioStartup
        [Call.singleShotTransition 350 "L1" "/home/u/.config/latte/L1.layout.latte" (-1)]) := by
  decide

/-- C12, amended. When at least one layout is loaded, the target is the current
layout name and no memory-mode change is pending, `switchToLayout` returns
`false` and leaves the whole state, call log included, as it was. -/
theorem switchToLayout_guard (env : Env) (s : LayoutManager) (layoutName : String)
    (hloaded : s.m_activeLayouts ≠ []) (hcurrent : layoutName = currentLayoutName s) :
    switchToLayout env s layoutName (-1) = some (false, s) := by
  apply switchToLayout_of_guard
  refine ⟨?_, hcurrent.symm, rfl⟩
  cases h : s.m_activeLayouts with
  | nil => exact absurd h hloaded
  | cons a rest => simp

/-- In `scenarioSingle` the layout `L1` is loaded and current: switching to it does nothing. -/
theorem switchToLayout_guard_witness :
    scenarioSingle.m_activeLayouts ≠ [] ∧ "L1" = currentLayoutName scenarioSingle ∧
    switchToLayout demoEnv scenarioSingle "L1" (-1) = some (false, scenarioSingle) :=
  ⟨by decide, by decide, switchToLayout_guard demoEnv scenarioSingle "L1" (by decide) (by decide)⟩

/-- C13, the claim as stated fails: the layout `Ghost` has no file and
`switchToLayout` returns `true` for it, the value it also returns for `L2`,
whose transition it schedules; and for the target `Alternative`, which has no
file either, it creates the layout file and schedules the transition. -/
theorem switchToLayout_not_found_counterexample :
    layoutPath demoEnv "Ghost" = "" ∧
    switchToLayout demoEnv scenarioSingle "Ghost" (-1) = some (true, scenarioSingle) ∧
    switchToLayout demoEnv scenarioSingle "L2" (-1) =
      some (true, record scenarioSingle
        [Call.singleShotTransition 350 "L2" "/home/u/.config/latte/L2.layout.latte" (-1)]) ∧
    layoutPath demoEnv "Alternative" = "" ∧
    switchToLayout demoEnv scenarioSingle "Alternative" (-1) =
      some (true, record scenarioSingle
        [Call.copyFile "/usr/share/latte/preset1" "/home/u/.config/latte/Alternative.layout.latte",
          Call.singleShotTransition 350 "Alternative"
            "/home/u/.config/latte/Alternative.layout.latte" (-1)]) := by
  decide

/-- C13, amended. For a target other than `Alternative` whose path cannot be
resolved, `switchToLayout`, when it returns, has changed nothing but the call
log, and every new call is a switching signal (the announcements of a mode
change) or a request to the host to change its current activity (a loaded
target in Multiple mode): no layout is loaded or unloaded, no deferred
transition is scheduled, and the settings keep their values. -/
theorem switchToLayout_not_found (env : Env) (s : LayoutManager) (layoutName : String)
    (previousMemoryUsage : Int) (r : Bool × LayoutManager)
    (hpath : layoutPath env layoutName = "") (hname : layoutName ≠ "Alternative")
    (hr : switchToLayout env s layoutName previousMemoryUsage = some r) :
    ∃ cs : List Call, r.2 = record s cs ∧ scheduledTransitions cs = [] ∧
      ∀ c ∈ cs, (∃ l, c = Call.currentLayoutIsSwitching l) ∨ (∃ a, c = Call.setCurrentActivity a) := by
  by_cases hg : s.m_activeLayouts.length > 0 ∧ currentLayoutName s = layoutName ∧
      previousMemoryUsage = -1
  · rw [switchToLayout_of_guard env s _ _ hg] at hr
    cases hr
    exact ⟨[], (record_nil s).symm, rfl, by simp⟩
  · rcases switchToPresentLayout_cases s layoutName previousMemoryUsage with
      hp | hp | ⟨layout, a, _, _, _, _, _, _, hp⟩
    · unfold switchToLayout at hr
      rw [if_neg hg, hp] at hr
      cases hr
    · rw [switchToLayout_continue env s _ _ hg hp] at hr
      cases hr
      have hna : ¬ (layoutPath env layoutName = "" ∧ layoutName = "Alternative") :=
        fun h => hname h.2
      have hres : resolvedPath env layoutName = "" := by
        unfold resolvedPath
        rw [if_neg hna, hpath]
      rw [(creationCalls_spec env layoutName).2 hna,
        (schedulingCalls_spec env s layoutName previousMemoryUsage).2.1 hres]
      refine ⟨_, rfl, ?_, ?_⟩
      · simp only [List.append_nil]
        have hall := (switchingAnnouncements_spec s previousMemoryUsage).1
        generalize switchingAnnouncements s previousMemoryUsage = cs at hall
        induction cs with
        | nil => rfl
        | cons c rest ih =>
          obtain ⟨l, hl⟩ := hall c (List.mem_cons_self _ _)
          subst hl
          exact ih (fun c hc => hall c (List.mem_cons_of_mem _ hc))
      · intro c hc
        simp only [List.append_nil] at hc
        exact Or.inl ((switchingAnnouncements_spec s previousMemoryUsage).1 c hc)
    · unfold switchToLayout at hr
      rw [if_neg hg, hp] at hr
      cases hr
      refine ⟨_, rfl, rfl, ?_⟩
      intro c hc
      rw [List.mem_singleton] at hc
      exact Or.inr ⟨a, hc⟩

/-- In `scenarioSingle` the target `Ghost` has no file: nothing changes. -/
theorem switchToLayout_not_found_witness :
    layoutPath demoEnv "Ghost" = "" ∧ "Ghost" ≠ "Alternative" ∧
    switchToLayout demoEnv scenarioSingle "Ghost" (-1) = some (true, scenarioSingle) ∧
    ∃ cs : List Call, (true, scenarioSingle).2 = record scenarioSingle cs ∧
      scheduledTransitions cs = [] ∧
      ∀ c ∈ cs, (∃ l, c = Call.currentLayoutIsSwitching l) ∨ (∃ a, c = Call.setCurrentActivity a) :=
  ⟨by decide, by decide, by decide,
    switchToLayout_not_found demoEnv scenarioSingle "Ghost" (-1) (true, scenarioSingle)
      (by decide) (by decide) (by decide)⟩

/-- C14, the claim as stated fails. In scenario A, in Multiple mode, the target
`L1` is loaded and applies to the current activity `act1`: `switchToLayout`
asks nothing of the host; it does nothing when `L1` is the current layout
name, and schedules the deferred transition when it is not. -/
theorem switchToLayout_present_counterexample :
    memoryUsage scenarioA = .MultipleLayouts ∧
    activeLayout scenarioA "L1" =
      some { ptr := 2, name := "L1", activities := ["act1", "act4"], lastUsedActivity := "act1",
             isOriginalLayout := true } ∧
    scenarioA.activityConsumer.currentActivity ∈
      appliedActivities scenarioA
        { ptr := 2, name := "L1", activities := ["act1", "act4"], lastUsedActivity := "act1",
          isOriginalLayout := true } ∧
    switchToLayout demoEnv scenarioA "L1" (-1) = some (false, scenarioA) ∧
    switchToLayout demoEnv scenarioStale "L1" (-1) =
      some (true, record scenarioStale
        [Call.singleShotTransition 350 "L1" "/home/u/.config/latte/L1.layout.latte" (-1)]) := by
  decide

/-- C14, amended. In Multiple mode with no memory-mode change pending, when the
target layout is loaded, is not the current layout name and does not apply to
the current activity, `switchToLayout` returns `true` having done nothing but
ask the host to make current the layout's last used activity when that is
non-empty, and the first of its applied activities otherwise (provided it
has one). -/
theorem switchToLayout_context_switch (env : Env) (s : LayoutManager) (layoutName : String)
    (layout : ActiveLayout) (hmode : memoryUsage s = .MultipleLayouts)
    (hloaded : activeLayout s layoutName = some layout)
    (hcurrent : currentLayoutName s ≠ layoutName)
    (hforeign : s.activityConsumer.currentActivity ∉ appliedActivities s layout)
    (hnext : layout.lastUsedActivity ≠ "" ∨ appliedActivities s layout ≠ []) :
    ∃ next : String,
      (layout.lastUsedActivity ≠ "" → next = layout.lastUsedActivity) ∧
      (layout.lastUsedActivity = "" → (appliedActivities s layout).head? = some next) ∧
      switchToLayout env s layoutName (-1) = some (true, record s [Call.setCurrentActivity next]) := by
  have hg : ¬ (s.m_activeLayouts.length > 0 ∧ currentLayoutName s = layoutName ∧ (-1 : Int) = -1) :=
    fun h => hcurrent h.2.1
  have hm : memoryUsage s = .MultipleLayouts ∧ (-1 : Int) = -1 := ⟨hmode, rfl⟩
  unfold switchToLayout
  rw [if_neg hg]
  unfold switchToPresentLayout
  rw [if_pos hm, hloaded]
  simp only []
  by_cases hu : layout.lastUsedActivity = ""
  · cases hh : (appliedActivities s layout).head? with
    | none =>
      rw [List.head?_eq_none_iff] at hh
      exact absurd hh (hnext.resolve_left (fun h => h hu))
    | some a =>
      refine ⟨a, fun h => absurd hu h, fun _ => rfl, ?_⟩
      simp [hu, hh, hforeign]
  · refine ⟨layout.lastUsedActivity, fun _ => rfl, fun h => absurd h hu, ?_⟩
    simp [hu, hforeign]

/-- In scenario A the loaded layout `L2` does not apply to the current activity
`act1`: the host is asked to make `act2`, its last used activity, current. -/
theorem switchToLayout_context_switch_witness :
    memoryUsage scenarioA = .MultipleLayouts ∧
    switchToLayout demoEnv scenarioA "L2" (-1) =
      some (true, record scenarioA [Call.setCurrentActivity "act2"]) ∧
    ∃ next : String,
      ((ActiveLayout.mk 3 "L2" ["act2"] "act2" true).lastUsedActivity ≠ "" →
        next = (ActiveLayout.mk 3 "L2" ["act2"] "act2" true).lastUsedActivity) ∧
      ((ActiveLayout.mk 3 "L2" ["act2"] "act2" true).lastUsedActivity = "" →
        (appliedActivities scenarioA (ActiveLayout.mk 3 "L2" ["act2"] "act2" true)).head? =
          some next) ∧
      switchToLayout demoEnv scenarioA "L2" (-1) =
        some (true, record scenarioA [Call.setCurrentActivity next]) :=
  ⟨by decide, by decide,
    switchToLayout_context_switch demoEnv scenarioA "L2" (ActiveLayout.mk 3 "L2" ["act2"] "act2" true)
      (by decide) (by decide) (by decide) (by decide) (by decide)⟩

/-! ## The claim about the announcement of a switch -/

theorem switchingNotices_creationCalls (env : Env) (n : String) :
    switchingNotices (creationCalls env n) = [] := by
  have h := (creationCalls_spec env n).1
  generalize creationCalls env n = cs at h
  induction cs with
  | nil => rfl
  | cons c rest ih =>
    obtain ⟨a, b, hc⟩ := h c (List.mem_cons_self _ _)
    subst hc
    exact ih (fun c hc => h c (List.mem_cons_of_mem _ hc))

/-- C20, the claim as stated fails. In `scenarioWork`, in Multiple mode, the orphan
layout `Work` is loaded and the target `Home` has no activities either: with no
memory-mode change involved `switchToLayout` still announces `Work` as
switching, and with a memory-mode change involved it announces `Work` twice. -/
theorem switchToLayout_announces_counterexample :
    (switchToLayout demoEnv scenarioWork "Home" (-1)).map (fun r => switchingNotices r.2.calls) =
      some ["Work"] ∧
    (switchToLayout demoEnv scenarioWork "Home" 0).map (fun r => switchingNotices r.2.calls) =
      some ["L1", "L2", "Work", "Work"] := by
  decide

/-- C20, amended. When `switchToLayout` returns, its new calls are, first, one
switching signal for every loaded original layout, in order, and then one for
every shared layout when a memory-mode change is involved, and none of these
when it is not; no new call is an unload step; and the remaining calls hold at
most one more switching signal, which occurs only in Multiple mode for a target
other than the master that, read from its file, has no activities, and which
names a loaded original layout without activities of another name. -/
theorem switchToLayout_announces (env : Env) (s : LayoutManager) (layoutName : String)
    (previousMemoryUsage : Int) (r : Bool × LayoutManager)
    (hr : switchToLayout env s layoutName previousMemoryUsage = some r) :
    ∃ rest : List Call,
      r.2 = record s
        ((if previousMemoryUsage ≠ -1 then
            ((s.m_activeLayouts.filter (fun layout => layout.isOriginalLayout)).map
                (fun layout => Call.currentLayoutIsSwitching layout.name)) ++
              s.m_sharedLayouts.map (fun layout => Call.currentLayoutIsSwitching layout.name)
          else []) ++ rest) ∧
      (∀ c ∈ r.2.calls.drop s.calls.length, c.isUnload = false) ∧
      (switchingNotices rest = [] ∨
        ∃ l ∈ s.m_activeLayouts,
          switchingNotices rest = [l.name] ∧
          memoryUsage s = .MultipleLayouts ∧ layoutName ≠ env.MultipleLayoutsName ∧
          l.isOriginalLayout = true ∧ l.activities = [] ∧
          (env.readFile (resolvedPath env layoutName)).activities = [] ∧
          env.layoutName (resolvedPath env layoutName) ≠ l.name) := by
  have hann : switchingAnnouncements s previousMemoryUsage =
      (if previousMemoryUsage ≠ -1 then
        ((s.m_activeLayouts.filter (fun layout => layout.isOriginalLayout)).map
            (fun layout => Call.currentLayoutIsSwitching layout.name)) ++
          s.m_sharedLayouts.map (fun layout => Call.currentLayoutIsSwitching layout.name)
      else []) := rfl
  rw [← hann]
  have hdrop : ∀ cs : List Call, (record s cs).calls.drop s.calls.length = cs := by
    intro cs
    unfold record
    simp
  by_cases hg : s.m_activeLayouts.length > 0 ∧ currentLayoutName s = layoutName ∧
      previousMemoryUsage = -1
  · rw [switchToLayout_of_guard env s _ _ hg] at hr
    cases hr
    refine ⟨[], ?_, ?_, Or.inl rfl⟩
    · rw [(switchingAnnouncements_spec s previousMemoryUsage).2 hg.2.2]
      exact (record_nil s).symm
    · simp
  · rcases switchToPresentLayout_cases s layoutName previousMemoryUsage with
      hp | hp | ⟨layout, a, _, hprev, _, _, _, _, hp⟩
    · unfold switchToLayout at hr
      rw [if_neg hg, hp] at hr
      cases hr
    · rw [switchToLayout_continue env s _ _ hg hp] at hr
      cases hr
      refine ⟨creationCalls env layoutName ++ schedulingCalls env s layoutName previousMemoryUsage,
        by simp only [List.append_assoc], ?_, ?_⟩
      · simp only [hdrop]
        intro c hc
        rcases List.mem_append.mp hc with h | h
        · rcases List.mem_append.mp h with h | h
          · obtain ⟨l, hl⟩ := (switchingAnnouncements_spec s previousMemoryUsage).1 c h
            rw [hl]
            rfl
          · obtain ⟨x, y, hl⟩ := (creationCalls_spec env layoutName).1 c h
            rw [hl]
            rfl
        · exact ((schedulingCalls_spec env s layoutName previousMemoryUsage).1 c h).1
      · rw [switchingNotices_append, switchingNotices_creationCalls, List.nil_append]
        exact (schedulingCalls_spec env s layoutName previousMemoryUsage).2.2
    · unfold switchToLayout at hr
      rw [if_neg hg, hp] at hr
      cases hr
      refine ⟨[Call.setCurrentActivity a], ?_, ?_, Or.inl rfl⟩
      · rw [(switchingAnnouncements_spec s previousMemoryUsage).2 hprev]
        rfl
      · simp only [hdrop]
        intro c hc
        rw [List.mem_singleton] at hc
        rw [hc]
        rfl

/-- In `scenarioWork` a switch to `Home` with the previous mode Single announces
the original layouts `L1`, `L2` and `Work`, and then `Work` once more. -/
theorem switchToLayout_announces_witness :
    switchToLayout demoEnv scenarioWork "Home" 0 =
      some (true, record scenarioWork
        [Call.currentLayoutIsSwitching "L1", Call.currentLayoutIsSwitching "L2",
          Call.currentLayoutIsSwitching "Work", Call.currentLayoutIsSwitching "Work",
          Call.singleShotTransition 350 "Home" "/home/u/.config/latte/Home.layout.latte" 0]) ∧
    ∃ rest : List Call,
      (true, record scenarioWork
        [Call.currentLayoutIsSwitching "L1", Call.currentLayoutIsSwitching "L2",
          Call.currentLayoutIsSwitching "Work", Call.currentLayoutIsSwitching "Work",
          Call.singleShotTransition 350 "Home" "/home/u/.config/latte/Home.layout.latte" 0]).2 =
        record scenarioWork
        ((if (0 : Int) ≠ -1 then
            ((scenarioWork.m_activeLayouts.filter (fun layout => layout.isOriginalLayout)).map
                (fun layout => Call.currentLayoutIsSwitching layout.name)) ++
              scenarioWork.m_sharedLayouts.map
                (fun layout => Call.currentLayoutIsSwitching layout.name)
          else []) ++ rest) ∧
      (∀ c ∈ (true, record scenarioWork
        [Call.currentLayoutIsSwitching "L1", Call.currentLayoutIsSwitching "L2",
          Call.currentLayoutIsSwitching "Work", Call.currentLayoutIsSwitching "Work",
          Call.singleShotTransition 350 "Home" "/home/u/.config/latte/Home.layout.latte"
            0]).2.calls.drop scenarioWork.calls.length, c.isUnload = false) ∧
      (switchingNotices rest = [] ∨
        ∃ l ∈ scenarioWork.m_activeLayouts,
          switchingNotices rest = [l.name] ∧
          memoryUsage scenarioWork = .MultipleLayouts ∧ "Home" ≠ demoEnv.MultipleLayoutsName ∧
          l.isOriginalLayout = true ∧ l.activities = [] ∧
          (demoEnv.readFile (resolvedPath demoEnv "Home")).activities = [] ∧
          demoEnv.layoutName (resolvedPath demoEnv "Home") ≠ l.name) :=
  ⟨by decide,
    switchToLayout_announces demoEnv scenarioWork "Home" 0 _ (by decide)⟩

/-! ## Facts about `unload` and the full transition -/

theorem unloadActiveLayouts_eq (multipleMode : Bool) (ls : List ActiveLayout) (s : LayoutManager)
    (h : s.m_activeLayouts = ls) :
    unloadActiveLayouts multipleMode ls s =
      { s with
        m_activeLayouts := []
        calls := s.calls ++
          ls.flatMap (fun l => fullUnloadCalls (l.isOriginalLayout && multipleMode) l.name) } := by
  induction ls generalizing s with
  | nil =>
    unfold unloadActiveLayouts
    cases s
    simp only [] at h
    simp [h]
  | cons l rest ih =>
    unfold unloadActiveLayouts
    simp only []
    rw [ih _ (by simp [record, clearUnloadedContainmentsFromLinkedFile]; split_ifs <;> rfl)]
    unfold fullUnloadCalls clearUnloadedContainmentsFromLinkedFile
    cases ho : l.isOriginalLayout <;> cases hm : multipleMode <;>
      simp [record, List.flatMap_cons, ho]

theorem unloadSharedLayouts_eq (multipleMode : Bool) (ls : List SharedLayout) (s : LayoutManager)
    (h : s.m_sharedLayouts = ls) :
    unloadSharedLayouts multipleMode ls s =
      { s with
        m_sharedLayouts := []
        calls := s.calls ++ ls.flatMap (fun l => fullUnloadCalls multipleMode l.name) } := by
  induction ls generalizing s with
  | nil =>
    unfold unloadSharedLayouts
    cases s
    simp only [] at h
    simp [h]
  | cons l rest ih =>
    unfold unloadSharedLayouts
    simp only []
    rw [ih _ (by simp [record, clearUnloadedContainmentsFromLinkedFile]; split_ifs <;> rfl)]
    unfold fullUnloadCalls clearUnloadedContainmentsFromLinkedFile
    cases hm : multipleMode <;> simp [record, List.flatMap_cons]

/-- The effect of `unload`: both lists are emptied, and every layout goes through
its unload steps, the loaded layouts first. -/
theorem unload_eq (env : Env) (s : LayoutManager) :
    unload env s =
      { s with
        m_activeLayouts := []
        m_sharedLayouts := []
        calls := s.calls ++
          s.m_activeLayouts.flatMap (fun l =>
            fullUnloadCalls (l.isOriginalLayout && (activeLayout s env.MultipleLayoutsName).isSome)
              l.name) ++
          s.m_sharedLayouts.flatMap (fun l =>
            fullUnloadCalls (activeLayout s env.MultipleLayoutsName).isSome l.name) ++
          tempFileCalls env } := by
  unfold unload tempFileCalls
  simp only []
  rw [unloadActiveLayouts_eq _ _ s rfl, unloadSharedLayouts_eq _ _ _ rfl]
  cases h1 : env.fileExists (env.homePath ++ "/.config/lattedock.copy1.bak") <;>
    cases h2 : env.fileExists (env.homePath ++ "/.config/lattedock.copy2.bak") <;>
    simp [record, List.append_assoc]

/-- The effect of the full transition. -/
theorem fullTransition_eq (env : Env) (s : LayoutManager) (n lPath : String) (init : Bool) :
    fullTransition env s n lPath init =
      { s with
        m_activeLayouts :=
          [ActiveLayout.construct env (unload env s)
            (if init then layoutPath env env.MultipleLayoutsName else lPath)
            (if init then env.MultipleLayoutsName else n)]
        m_sharedLayouts := []
        calls := s.calls ++
          s.m_activeLayouts.flatMap (fun l =>
            fullUnloadCalls (l.isOriginalLayout && (activeLayout s env.MultipleLayoutsName).isSome)
              l.name) ++
          s.m_sharedLayouts.flatMap (fun l =>
            fullUnloadCalls (activeLayout s env.MultipleLayoutsName).isSome l.name) ++
          tempFileCalls env ++
          [Call.newActiveLayout (if init then layoutPath env env.MultipleLayoutsName else lPath)
              (if init then env.MultipleLayoutsName else n),
            Call.initToCorona (if init then env.MultipleLayoutsName else n),
            Call.loadLatteLayout (if init then layoutPath env env.MultipleLayoutsName else lPath),
            Call.activeLayoutsChanged] } := by
  unfold fullTransition
  simp only []
  rw [addLayout_construct env (unload env s) (record (unload env s) _) _ _ rfl]
  rw [unload_eq]
  simp [record, loadLatteLayout, ActiveLayout.construct, List.append_assoc]

/-- Claim C15: when the deferred part of `switchToLayout` runs in Single mode, or
while Multiple mode is being set up (master not loaded), or with the previous
mode Multiple, its first step unloads every loaded and every shared layout, an
original layout being flushed before its teardown when the master was loaded,
and only then constructs and loads one layout; after this step the list of
loaded layouts has exactly one element, named the target, or the master when
Multiple mode is being set up.  In Single mode the deferred part returns with
exactly this one layout, named the target, loaded. -/
theorem deferred_full_transition (env : Env) (s : LayoutManager) (layoutName lPath : String)
    (previousMemoryUsage : Int)
    (h : memoryUsage s = .SingleLayout ∨ initializingMultipleLayouts env s = true
      ∨ previousMemoryUsage = LayoutsMemoryUsage.MultipleLayouts.toInt) :
    ∃ l : ActiveLayout,
      l.name = (if initializingMultipleLayouts env s = true then env.MultipleLayoutsName
        else layoutName) ∧
      (deferredFirstStep env s layoutName lPath previousMemoryUsage).m_activeLayouts = [l] ∧
      (deferredFirstStep env s layoutName lPath previousMemoryUsage).m_sharedLayouts = [] ∧
      (deferredFirstStep env s layoutName lPath previousMemoryUsage).calls =
        s.calls ++
          s.m_activeLayouts.flatMap (fun a =>
            fullUnloadCalls
              (a.isOriginalLayout && (activeLayout s env.MultipleLayoutsName).isSome) a.name) ++
          s.m_sharedLayouts.flatMap (fun a =>
            fullUnloadCalls (activeLayout s env.MultipleLayoutsName).isSome a.name) ++
          tempFileCalls env ++
          [Call.newActiveLayout
              (if initializingMultipleLayouts env s = true then
                layoutPath env env.MultipleLayoutsName else lPath) l.name,
            Call.initToCorona l.name,
            Call.loadLatteLayout
              (if initializingMultipleLayouts env s = true then
                layoutPath env env.MultipleLayoutsName else lPath),
            Call.activeLayoutsChanged] ∧
      (memoryUsage s = .SingleLayout →
        l.name = layoutName ∧
        ∃ s2, switchToLayoutDeferred env s layoutName lPath previousMemoryUsage = some s2 ∧
          s2.m_activeLayouts = [l]) := by
  have hfirst : deferredFirstStep env s layoutName lPath previousMemoryUsage =
      fullTransition env s layoutName lPath (initializingMultipleLayouts env s) := by
    unfold deferredFirstStep
    rw [if_pos h]
  refine ⟨ActiveLayout.construct env (unload env s)
      (if initializingMultipleLayouts env s = true then layoutPath env env.MultipleLayoutsName
        else lPath)
      (if initializingMultipleLayouts env s = true then env.MultipleLayoutsName else layoutName),
    rfl, ?_, ?_, ?_, ?_⟩
  · rw [hfirst, fullTransition_eq]
  · rw [hfirst, fullTransition_eq]
  · rw [hfirst, fullTransition_eq]
    rfl
  · intro hsingle
    have hinit : initializingMultipleLayouts env s = false := by
      unfold initializingMultipleLayouts
      simp [hsingle]
    refine ⟨by simp [hinit, ActiveLayout.construct], ?_⟩
    unfold switchToLayoutDeferred
    rw [hfirst, fullTransition_eq]
    have hm : memoryUsage
        { s with
          m_activeLayouts :=
            [ActiveLayout.construct env (unload env s)
              (if initializingMultipleLayouts env s = true then
                layoutPath env env.MultipleLayoutsName else lPath)
              (if initializingMultipleLayouts env s = true then env.MultipleLayoutsName
                else layoutName)]
          m_sharedLayouts := []
          calls := s.calls ++
            s.m_activeLayouts.flatMap (fun l =>
              fullUnloadCalls
                (l.isOriginalLayout && (activeLayout s env.MultipleLayoutsName).isSome) l.name) ++
            s.m_sharedLayouts.flatMap (fun l =>
              fullUnloadCalls (activeLayout s env.MultipleLayoutsName).isSome l.name) ++
            tempFileCalls env ++
            [Call.newActiveLayout
                (if initializingMultipleLayouts env s = true then
                  layoutPath env env.MultipleLayoutsName else lPath)
                (if initializingMultipleLayouts env s = true then env.MultipleLayoutsName
                  else layoutName),
              Call.initToCorona
                (if initializingMultipleLayouts env s = true then env.MultipleLayoutsName
                  else layoutName),
              Call.loadLatteLayout
                (if initializingMultipleLayouts env s = true then
                  layoutPath env env.MultipleLayoutsName else lPath),
              Call.activeLayoutsChanged] } = .SingleLayout := hsingle
    unfold deferredSecondStep
    simp only [hm, Option.map_some']
    refine ⟨_, rfl, ?_⟩
    unfold recordCurrentLayout
    simp only []
    split_ifs <;> rfl

/-- Claim C15, at a concrete input: in the Single mode scenario the deferred
switch to `L2` leaves exactly one loaded layout, named `L2`. -/
theorem deferred_full_transition_witness :
    ∃ l : ActiveLayout,
      l.name = (if initializingMultipleLayouts demoEnv scenarioSingle = true then
        demoEnv.MultipleLayoutsName else "L2") ∧
      (deferredFirstStep demoEnv scenarioSingle "L2" "/home/u/.config/latte/L2.layout.latte"
        (-1)).m_activeLayouts = [l] ∧
      (deferredFirstStep demoEnv scenarioSingle "L2" "/home/u/.config/latte/L2.layout.latte"
        (-1)).m_sharedLayouts = [] ∧
      (deferredFirstStep demoEnv scenarioSingle "L2" "/home/u/.config/latte/L2.layout.latte"
        (-1)).calls =
        scenarioSingle.calls ++
          scenarioSingle.m_activeLayouts.flatMap (fun a =>
            fullUnloadCalls
              (a.isOriginalLayout &&
                (activeLayout scenarioSingle demoEnv.MultipleLayoutsName).isSome) a.name) ++
          scenarioSingle.m_sharedLayouts.flatMap (fun a =>
            fullUnloadCalls (activeLayout scenarioSingle demoEnv.MultipleLayoutsName).isSome
              a.name) ++
          tempFileCalls demoEnv ++
          [Call.newActiveLayout
              (if initializingMultipleLayouts demoEnv scenarioSingle = true then
                layoutPath demoEnv demoEnv.MultipleLayoutsName
                else "/home/u/.config/latte/L2.layout.latte") l.name,
            Call.initToCorona l.name,
            Call.loadLatteLayout
              (if initializingMultipleLayouts demoEnv scenarioSingle = true then
                layoutPath demoEnv demoEnv.MultipleLayoutsName
                else "/home/u/.config/latte/L2.layout.latte"),
            Call.activeLayoutsChanged] ∧
      (memoryUsage scenarioSingle = .SingleLayout →
        l.name = "L2" ∧
        ∃ s2, switchToLayoutDeferred demoEnv scenarioSingle "L2"
            "/home/u/.config/latte/L2.layout.latte" (-1) = some s2 ∧
          s2.m_activeLayouts = [l]) :=
  deferred_full_transition demoEnv scenarioSingle "L2" "/home/u/.config/latte/L2.layout.latte"
    (-1) (Or.inl (by decide))

/-! ## Facts about the start requests of the deferred transition -/

theorem startRequests_append (xs ys : List Call) :
    startRequests (xs ++ ys) = startRequests xs ++ startRequests ys := by
  induction xs with
  | nil => rfl
  | cons c rest ih => cases c <;> simp [startRequests, ih]

theorem startRequests_eq_nil (cs : List Call)
    (h : ∀ c ∈ cs, ∀ m a b, c ≠ Call.singleShotStartActivity m a b) : startRequests cs = [] := by
  induction cs with
  | nil => rfl
  | cons c rest ih =>
    have hrest := ih (fun x hx => h x (List.mem_cons_of_mem _ hx))
    have hc := h c (List.mem_cons_self _ _)
    cases c <;> simp [startRequests, hrest] at hc ⊢

theorem startRequests_scheduleStartActivities (lastUsedActivity : String) (acts : List String)
    (i : Nat) :
    startRequests (scheduleStartActivities lastUsedActivity acts i) =
      (acts.enumFrom i).map (fun p => (p.1 * 1000, p.2)) := by
  induction acts generalizing i with
  | nil => rfl
  | cons a rest ih => simp [scheduleStartActivities, startRequests, ih, List.enumFrom]

theorem startRequests_unloadCalls (mode : LayoutsMemoryUsage) (l : ActiveLayout) :
    startRequests (unloadCalls mode l) = [] := by
  apply startRequests_eq_nil
  intro c hc m a b
  unfold unloadCalls at hc
  simp only [List.mem_append, List.mem_cons, List.mem_singleton, List.not_mem_nil, or_false] at hc
  rcases hc with ((hc | hc | hc) | hc) | hc
  · split_ifs at hc
    · simp only [List.mem_singleton] at hc
      subst hc
      simp
    · simp at hc
  · subst hc
    simp
  · subst hc
    simp
  · split_ifs at hc
    · simp at hc
    · simp only [List.mem_singleton] at hc
      subst hc
      simp
  · subst hc
    simp

theorem startRequests_record (s0 t : LayoutManager) (c : Call) (hc : startRequests [c] = [])
    (h : ∃ cs, t.calls = s0.calls ++ cs ∧ startRequests cs = []) :
    ∃ cs, (record t [c]).calls = s0.calls ++ cs ∧ startRequests cs = [] := by
  obtain ⟨cs, h1, h2⟩ := h
  exact ⟨cs ++ [c], by simp [record, h1], by rw [startRequests_append, h2, hc]; rfl⟩

theorem addNeededLayout_startRequests (env : Env) (s : LayoutManager) (n : String) :
    ∃ cs, (addNeededLayout env s n).calls = s.calls ++ cs ∧ startRequests cs = [] := by
  by_cases h : activeLayout s n = none
  · unfold addNeededLayout
    simp only [h]
    rw [addLayout_construct env s (record s [Call.newActiveLayout (layoutPath env n) n]) _ _ rfl]
    split_ifs
    · refine startRequests_record _ _ _ ?_ (startRequests_record _ _ _ ?_ ?_)
      · rfl
      · rfl
      · exact ⟨[Call.newActiveLayout (layoutPath env n) n, Call.initToCorona n],
          by simp [record], rfl⟩
    · refine startRequests_record _ _ _ ?_ ?_
      · rfl
      · exact ⟨[Call.newActiveLayout (layoutPath env n) n, Call.initToCorona n],
          by simp [record], rfl⟩
  · rw [addNeededLayout_of_loaded env s n h]
    exact ⟨[], by simp, rfl⟩

theorem addNeededLayouts_startRequests (env : Env) (names : List String) (s : LayoutManager) :
    ∃ cs, (addNeededLayouts env names s).calls = s.calls ++ cs ∧ startRequests cs = [] := by
  induction names generalizing s with
  | nil => exact ⟨[], by simp [addNeededLayouts], rfl⟩
  | cons n rest ih =>
    unfold addNeededLayouts
    obtain ⟨cs1, h1, e1⟩ := addNeededLayout_startRequests env s n
    obtain ⟨cs2, h2, e2⟩ := ih (addNeededLayout env s n)
    exact ⟨cs1 ++ cs2, by rw [h2, h1, List.append_assoc], by rw [startRequests_append, e1, e2]; rfl⟩

theorem addLayoutForOrphans_startRequests (env : Env) (s : LayoutManager) (orphans : String)
    (allRes : Bool) :
    ∃ cs, (addLayoutForOrphans env s orphans allRes).calls = s.calls ++ cs ∧
      startRequests cs = [] := by
  by_cases h : allRes = true ∨ activeLayout s orphans ≠ none
  · rw [addLayoutForOrphans_of_loaded env s orphans allRes h]
    exact ⟨[], by simp, rfl⟩
  · rw [not_or] at h
    have hf : allRes = false := by simpa using h.1
    have hnone : activeLayout s orphans = none := by simpa using h.2
    subst hf
    rw [addLayoutForOrphans_of_not_loaded env s orphans hnone]
    exact ⟨_, rfl, rfl⟩

/-- The synchronizer schedules no start request. -/
theorem sync_startRequests (env : Env) (s : LayoutManager) (lfo : String) :
    ∃ cs, (syncMultipleLayoutsToActivities env s lfo).calls = s.calls ++ cs ∧
      startRequests cs = [] := by
  obtain ⟨name, cs3, hup, hcs3⟩ := updateCurrent_eq (afterLoad env s lfo)
  obtain ⟨cs1, h1, e1⟩ := addLayoutForOrphans_startRequests env (afterUnload env s lfo)
    (orphanLayoutName s lfo) (reservation env s).allRunningActivitiesWillBeReserved
  obtain ⟨cs2, h2, e2⟩ := addNeededLayouts_startRequests env (reservation env s).layoutsToLoad
    (addLayoutForOrphans env (afterUnload env s lfo) (orphanLayoutName s lfo)
      (reservation env s).allRunningActivitiesWillBeReserved)
  have hload : (afterLoad env s lfo).calls =
      s.calls ++ ((unloadedBy env (layoutsToUnload env s lfo) s.m_activeLayouts).flatMap
        (unloadCalls (memoryUsage s)) ++ cs1 ++ cs2) := by
    unfold afterLoad
    rw [h2, h1, afterUnload_eq]
    simp only [List.append_assoc]
  have hunload : startRequests
      ((unloadedBy env (layoutsToUnload env s lfo) s.m_activeLayouts).flatMap
        (unloadCalls (memoryUsage s))) = [] := by
    apply startRequests_eq_nil
    intro c hc m a b hcontra
    rw [List.mem_flatMap] at hc
    obtain ⟨l, _, hl⟩ := hc
    have hx := startRequests_unloadCalls (memoryUsage s) l
    obtain ⟨pre, post, hsplit⟩ := List.append_of_mem hl
    rw [hsplit, startRequests_append, hcontra] at hx
    simp [startRequests] at hx
  have hcs3e : startRequests cs3 = [] := by
    apply startRequests_eq_nil
    intro c hc m a b
    rw [hcs3 c hc]
    simp
  refine ⟨(unloadedBy env (layoutsToUnload env s lfo) s.m_activeLayouts).flatMap
      (unloadCalls (memoryUsage s)) ++ cs1 ++ cs2 ++ cs3 ++ [Call.activeLayoutsChanged], ?_, ?_⟩
  · rw [sync_eq, hup]
    simp only [record, hload, List.append_assoc]
  · simp only [startRequests_append, hunload, e1, e2, hcs3e, List.append_nil]
    rfl

theorem orphanedActivities_snd (s : LayoutManager) :
    (orphanedActivities s).2 =
      { s with m_assignedLayouts := (orphanedActivities s).2.m_assignedLayouts } := rfl

theorem recordCurrentLayout_calls (s : LayoutManager) (n : String) :
    (recordCurrentLayout s n).calls = s.calls := by
  unfold recordCurrentLayout
  simp only []
  split_ifs <;> rfl

/-- Claim C18 as stated fails.  With the orphan layout `Work` loaded and the
orphan activity `act3` current, the deferred switch to the unassigned, unloaded
layout `Home` requests no start at all although the orphan set is `act3`; with
the assigned activity `act1` current, its one request, 1000 ms later, is for the
last used activity of `Home`, which is empty, and not for `act3`. -/
theorem deferred_start_requests_counterexample :
    memoryUsage scenarioWork = .MultipleLayouts ∧
    initializingMultipleLayouts demoEnv scenarioWork = false ∧
    activeLayout scenarioWork "Home" = none ∧
    layoutIsAssigned scenarioWork "Home" = false ∧
    (orphanedActivities scenarioWork).1 = ["act3"] ∧
    (switchToLayoutDeferred demoEnv scenarioWork "Home" "/home/u/.config/latte/Home.layout.latte"
      (-1)).map (fun r => startRequests r.calls) = some [] ∧
    (orphanedActivities scenarioWorkElsewhere).1 = ["act3"] ∧
    (switchToLayoutDeferred demoEnv scenarioWorkElsewhere "Home"
      "/home/u/.config/latte/Home.layout.latte" (-1)).map (fun r => startRequests r.calls) =
      some [(1000, "")] := by
  decide

/-- Claim C18, amended: in Multiple mode with the master loaded and a previous
mode other than Multiple, the deferred part of `switchToLayout` for a target that
is not loaded behaves as follows.  For a target assigned to an activity whose
file declares a non-empty activity list, it returns and the start requests it
schedules are exactly one per element of the declared list, the k-th
(k = 0, 1, ...) after k times 1000 ms.  For a target assigned to no activity it
returns and starts none of the orphan activities as such: its only start
request, made when the orphan set is empty or lacks the current activity, is for
the last used activity of the layout, 1000 ms later. -/
theorem deferred_start_requests (env : Env) (s : LayoutManager) (layoutName lPath : String)
    (previousMemoryUsage : Int)
    (hmode : memoryUsage s = .MultipleLayouts)
    (hmaster : activeLayout s env.MultipleLayoutsName ≠ none)
    (hprev : previousMemoryUsage ≠ LayoutsMemoryUsage.MultipleLayouts.toInt)
    (hnot : activeLayout s layoutName = none) :
    (layoutIsAssigned s layoutName = true →
      (env.readFile (env.layoutFilePath layoutName)).activities ≠ [] →
      ∃ s2, switchToLayoutDeferred env s layoutName lPath previousMemoryUsage = some s2 ∧
        startRequests (s2.calls.drop s.calls.length) =
          (env.readFile (env.layoutFilePath layoutName)).activities.enum.map
            (fun p => (p.1 * 1000, p.2))) ∧
    (layoutIsAssigned s layoutName = false →
      ∃ s2, switchToLayoutDeferred env s layoutName lPath previousMemoryUsage = some s2 ∧
        startRequests (s2.calls.drop s.calls.length) =
          if (orphanedActivities s).1 = []
              ∨ s.activityConsumer.currentActivity ∉ (orphanedActivities s).1 then
            [(1000, (env.readFile (env.layoutFilePath layoutName)).lastUsedActivity)]
          else []) := by
  have hinit : initializingMultipleLayouts env s = false := by
    unfold initializingMultipleLayouts
    simp [hmaster]
  have hfirst : deferredFirstStep env s layoutName lPath previousMemoryUsage = s := by
    unfold deferredFirstStep
    rw [if_neg]
    rw [hmode, hinit]
    simp [hprev]
  have hdef : switchToLayoutDeferred env s layoutName lPath previousMemoryUsage =
      (activateLayoutActivities env s layoutName).map
        (fun s2 => recordCurrentLayout s2 layoutName) := by
    unfold switchToLayoutDeferred
    rw [hfirst, hinit]
    unfold deferredSecondStep
    simp [hmode, hnot]
  constructor
  · intro hassigned hne
    rw [hdef]
    unfold activateLayoutActivities
    simp only [hassigned, Bool.not_true, if_true]
    by_cases hfound : (env.readFile (env.layoutFilePath layoutName)).lastUsedActivity ∈
        (env.readFile (env.layoutFilePath layoutName)).activities
    · simp only [hfound, decide_True, Bool.true_eq_false, if_false, Option.map_some']
      refine ⟨_, rfl, ?_⟩
      rw [recordCurrentLayout_calls]
      simp only [record, List.drop_left]
      rw [startRequests_scheduleStartActivities]
      rfl
    · simp only [hfound, decide_False, if_true]
      cases hacts : (env.readFile (env.layoutFilePath layoutName)).activities with
      | nil => exact absurd hacts hne
      | cons first rest =>
        simp only [Option.map_some']
        refine ⟨_, rfl, ?_⟩
        rw [recordCurrentLayout_calls]
        simp only [record, List.append_assoc, List.drop_left]
        rw [startRequests_append, startRequests_scheduleStartActivities]
        simp [startRequests, List.enum]
  · intro hassigned
    rw [hdef]
    unfold activateLayoutActivities
    simp only [hassigned, Bool.not_false, Bool.true_eq_false, if_false, Option.map_some']
    refine ⟨_, rfl, ?_⟩
    rw [recordCurrentLayout_calls]
    have hcond : ((decide ((env.readFile (env.layoutFilePath layoutName)).lastUsedActivity ∈
          (orphanedActivities s).1) = false ∧ (orphanedActivities s).1.length = 0)
        ∨ (orphanedActivities s).2.activityConsumer.currentActivity ∉ (orphanedActivities s).1) ↔
        ((orphanedActivities s).1 = []
          ∨ s.activityConsumer.currentActivity ∉ (orphanedActivities s).1) := by
      have hc : (orphanedActivities s).2.activityConsumer = s.activityConsumer := rfl
      rw [hc]
      constructor
      · rintro (⟨_, h0⟩ | h)
        · exact Or.inl (List.length_eq_zero.mp h0)
        · exact Or.inr h
      · rintro (h | h)
        · exact Or.inl ⟨by simp [h], by simp [h]⟩
        · exact Or.inr h
    have hcalls : (orphanedActivities s).2.calls = s.calls := rfl
    by_cases hc : (orphanedActivities s).1 = []
        ∨ s.activityConsumer.currentActivity ∉ (orphanedActivities s).1
    · rw [if_pos (hcond.mpr hc), if_pos hc]
      obtain ⟨cs, hcs, hnil⟩ := sync_startRequests env
        (record (orphanedActivities s).2
          [Call.singleShotStartActivity 1000
            (env.readFile (env.layoutFilePath layoutName)).lastUsedActivity true]) layoutName
      rw [hcs]
      simp only [record, hcalls, List.append_assoc, List.drop_left]
      rw [startRequests_append, hnil]
      rfl
    · rw [if_neg (fun h => hc (hcond.mp h)), if_neg hc]
      obtain ⟨cs, hcs, hnil⟩ := sync_startRequests env (orphanedActivities s).2 layoutName
      rw [hcs, hcalls, List.drop_left]
      exact hnil

/-- Claim C18, amended, at a concrete input: the deferred switch to the assigned
layout `L1`, which is not loaded, schedules the start of its activities. -/
theorem deferred_start_requests_witness :
    memoryUsage scenarioResting = .MultipleLayouts ∧
    layoutIsAssigned scenarioResting "L1" = true ∧
    ∃ s2, switchToLayoutDeferred demoEnv scenarioResting "L1"
        "/home/u/.config/latte/L1.layout.latte" (-1) = some s2 ∧
      startRequests (s2.calls.drop scenarioResting.calls.length) =
        (demoEnv.readFile (demoEnv.layoutFilePath "L1")).activities.enum.map
          (fun p => (p.1 * 1000, p.2)) :=
  ⟨by decide, by decide,
    (deferred_start_requests demoEnv scenarioResting "L1" "/home/u/.config/latte/L1.layout.latte"
      (-1) (by decide) (by decide) (by decide) (by decide)).1 (by decide) (by decide)⟩

/-! ## The unload set of the synchronizer -/

theorem mem_unloadedBy_of (env : Env) (names : List String) (active : List ActiveLayout)
    (hd : (active.map (fun l => l.name)).Nodup) (l : ActiveLayout) (hl : l ∈ active)
    (hn : l.name ∈ names) (hm : l.name ≠ env.MultipleLayoutsName) :
    l ∈ unloadedBy env names active := by
  induction names generalizing active with
  | nil => simp at hn
  | cons n rest ih =>
    rw [unloadedBy_cons]
    split_ifs with hmn
    · apply ih active hd hl
      rcases List.mem_cons.mp hn with h | h
      · exact absurd (h.trans hmn) hm
      · exact h
    · cases hf : active.find? (fun l => l.name == n) with
      | none =>
        simp only []
        apply ih active hd hl
        rcases List.mem_cons.mp hn with h | h
        · exfalso
          rw [List.find?_eq_none] at hf
          exact hf l hl (by simp [h])
        · exact h
      | some x =>
        simp only []
        have hxn : x.name = n := by simpa using @List.find?_some _ (fun l => l.name == n) x _ hf
        have hxa : x ∈ active := List.mem_of_find?_eq_some hf
        by_cases hln : l.name = n
        · have : l = x := List.inj_on_of_nodup_map hd hl hxa (hln.trans hxn.symm)
          rw [this]
          exact List.mem_cons_self _ _
        · apply List.mem_cons_of_mem
          have hsub : (active.eraseP (fun l => l.name == n)).Sublist active :=
            List.eraseP_sublist _
          apply ih _ (List.Nodup.sublist (hsub.map (fun l => l.name)) hd)
          · rw [List.mem_eraseP_of_neg (by simpa using hln)]
            exact hl
          · rcases List.mem_cons.mp hn with h | h
            · exact absurd h hln
            · exact h

/-- Claim C19 as stated fails: the master layout is never unloaded.  In the
state where every running activity is assigned and the orphan layout `Work` is
loaded, the master has an empty activity set and all activities are reserved,
yet the synchronizer unloads `Work` only. -/
theorem sync_unload_set_counterexample :
    (reservation demoEnv scenarioWorkSettled).allRunningActivitiesWillBeReserved = true ∧
    demoMaster ∈ scenarioWorkSettled.m_activeLayouts ∧
    demoMaster.activities = [] ∧
    (unloadedBy demoEnv (layoutsToUnload demoEnv scenarioWorkSettled "")
      scenarioWorkSettled.m_activeLayouts).map (fun l => l.name) = ["Work"] ∧
    demoMaster ∈ (syncMultipleLayoutsToActivities demoEnv scenarioWorkSettled "").m_activeLayouts ∧
    ((syncMultipleLayoutsToActivities demoEnv scenarioWorkSettled "").calls.filter
      Call.isUnload).map Call.layout =
      [some "Work", some "Work", some "Work", some "Work", some "Work"] := by
  decide

/-- Claim C19, amended: in a state whose loaded layouts have pairwise distinct
names, a loaded layout `l` with a non-empty name is unloaded by
`syncMultipleLayoutsToActivities` exactly when it is not the master and either
its name is neither in `layoutsToLoad` nor the orphan layout name, or it has an
empty activity set and all running activities are reserved.  Here `layoutsToLoad`
holds the master and the assignments of the running activities, all activities
are reserved when every running activity has an assignment, and the layouts
unloaded are those whose unload calls the call makes, before any other call. -/
theorem sync_unload_set (env : Env) (s : LayoutManager) (layoutForOrphans : String)
    (hd : NamesDistinct s) (l : ActiveLayout) (hl : l ∈ s.m_activeLayouts)
    (hname : l.name ≠ "") :
    (l ∈ unloadedBy env (layoutsToUnload env s layoutForOrphans) s.m_activeLayouts ↔
      l.name ≠ env.MultipleLayoutsName ∧
      ((l.name ∉ (reservation env s).layoutsToLoad
          ∧ l.name ≠ orphanLayoutName s layoutForOrphans) ∨
        (l.activities = [] ∧ (reservation env s).allRunningActivitiesWillBeReserved = true))) ∧
    (∀ x, x ∈ (reservation env s).layoutsToLoad ↔
      x = env.MultipleLayoutsName ∨
        (x ≠ "" ∧ ∃ a ∈ runningActivities s, s.m_assignedLayouts.value a = x)) ∧
    ((reservation env s).allRunningActivitiesWillBeReserved = true ↔
      ∀ a ∈ runningActivities s, s.m_assignedLayouts.value a ≠ "") ∧
    ∃ rest : List Call,
      (syncMultipleLayoutsToActivities env s layoutForOrphans).calls =
        s.calls ++
          (unloadedBy env (layoutsToUnload env s layoutForOrphans) s.m_activeLayouts).flatMap
            (unloadCalls (memoryUsage s)) ++ rest ∧
      ∀ c ∈ rest, c.isUnload = false := by
  refine ⟨⟨?_, ?_⟩, mem_layoutsToLoad env s, allReserved_iff env s, ?_⟩
  · intro hmem
    obtain ⟨_, hin, hmaster⟩ := mem_unloadedBy env _ _ l hmem
    refine ⟨hmaster, ?_⟩
    unfold layoutsToUnload at hin
    simp only [] at hin
    rw [mem_collectLayoutsToUnload] at hin
    rcases hin with h | ⟨_, l2, hl2, ht⟩
    · simp at h
    · have hl2name : l2.name = l.name := by
        rcases tempLayoutName_eq (reservation env s).layoutsToLoad
            (orphanLayoutName s layoutForOrphans)
            (reservation env s).allRunningActivitiesWillBeReserved l2 with h1 | ⟨h1, _, _⟩
        · rw [← h1, ht]
        · exact absurd (ht.symm.trans h1) hname
      have heq : l2 = l := List.inj_on_of_nodup_map hd hl2 hl hl2name
      subst heq
      unfold tempLayoutName at ht
      split_ifs at ht with c1 c2
      · exact Or.inl c1
      · exact Or.inr c2
      · exact absurd ht.symm hname
  · rintro ⟨hmaster, hcond⟩
    apply mem_unloadedBy_of env _ _ hd l hl _ hmaster
    unfold layoutsToUnload
    simp only []
    rw [mem_collectLayoutsToUnload]
    refine Or.inr ⟨hname, l, hl, ?_⟩
    unfold tempLayoutName
    rcases hcond with c | c
    · rw [if_pos c]
    · split_ifs <;> rfl
  · obtain ⟨added, loads, tail, _, hcalls, _, _, hloads, htail, _, _, _⟩ :=
      sync_shape env s layoutForOrphans
    refine ⟨loads ++ tail, ?_, ?_⟩
    · rw [hcalls, List.append_assoc]
    · intro c hc
      rcases List.mem_append.mp hc with h | h
      · exact hloads c h
      · exact (htail c h).1

/-- Claim C19, amended, at a concrete input: when the activity `act2` has stopped,
the layout `L2` is in the unload set. -/
theorem sync_unload_set_witness :
    NamesDistinct scenarioSwap ∧ demoL2 ∈ scenarioSwap.m_activeLayouts ∧ demoL2.name ≠ "" ∧
    (demoL2 ∈ unloadedBy demoEnv (layoutsToUnload demoEnv scenarioSwap "")
        scenarioSwap.m_activeLayouts ↔
      demoL2.name ≠ demoEnv.MultipleLayoutsName ∧
      ((demoL2.name ∉ (reservation demoEnv scenarioSwap).layoutsToLoad
          ∧ demoL2.name ≠ orphanLayoutName scenarioSwap "") ∨
        (demoL2.activities = []
          ∧ (reservation demoEnv scenarioSwap).allRunningActivitiesWillBeReserved = true))) :=
  ⟨by unfold NamesDistinct; decide, by decide, by decide,
    (sync_unload_set demoEnv scenarioSwap "" (by unfold NamesDistinct; decide) demoL2
      (by decide) (by decide)).1⟩

/-! ## Distinct names of the loaded layouts -/

theorem sync_namesDistinct (env : Env) (s : LayoutManager) (lfo : String)
    (hd : NamesDistinct s) : NamesDistinct (syncMultipleLayoutsToActivities env s lfo) := by
  obtain ⟨added, loads, tail, hact, _, hnd, hadded, _⟩ := sync_shape env s lfo
  unfold NamesDistinct at hd ⊢
  rw [hact, List.map_append, List.nodup_append]
  refine ⟨List.Nodup.sublist ((keptBy_sublist env _ _).map (fun l => l.name)) hd, hnd, ?_⟩
  intro x hx1 hx2
  obtain ⟨l1, hl1, rfl⟩ := List.mem_map.mp hx1
  obtain ⟨l2, hl2, hn⟩ := List.mem_map.mp hx2
  exact (hadded l2 hl2).2.1 l1 hl1 hn.symm

theorem deferredFirstStep_namesDistinct (env : Env) (s : LayoutManager) (n lPath : String)
    (prev : Int) (hd : NamesDistinct s) :
    NamesDistinct (deferredFirstStep env s n lPath prev) := by
  unfold deferredFirstStep
  split_ifs
  · rw [fullTransition_eq]
    unfold NamesDistinct
    simp
  · exact hd

theorem activateLayoutActivities_namesDistinct (env : Env) (s s2 : LayoutManager) (n : String)
    (hd : NamesDistinct s) (h : activateLayoutActivities env s n = some s2) :
    NamesDistinct s2 := by
  unfold activateLayoutActivities at h
  simp only [] at h
  split_ifs at h with h1 h2
  · cases hacts : (env.readFile (env.layoutFilePath n)).activities with
    | nil =>
      rw [hacts] at h
      simp at h
    | cons first rest =>
      rw [hacts] at h
      simp only [Option.some.injEq] at h
      rw [← h]
      exact hd
  · simp only [Option.some.injEq] at h
    rw [← h]
    exact hd
  · simp only [Option.some.injEq] at h
    rw [← h]
    exact sync_namesDistinct env _ n hd
  · simp only [Option.some.injEq] at h
    rw [← h]
    exact sync_namesDistinct env _ n hd

theorem deferred_namesDistinct (env : Env) (s s2 : LayoutManager) (n lPath : String)
    (prev : Int) (hd : NamesDistinct s)
    (h : switchToLayoutDeferred env s n lPath prev = some s2) : NamesDistinct s2 := by
  unfold switchToLayoutDeferred at h
  rw [Option.map_eq_some'] at h
  obtain ⟨s1, hs1, hrec⟩ := h
  have hfirst := deferredFirstStep_namesDistinct env s n lPath prev hd
  have hsecond : NamesDistinct s1 := by
    unfold deferredSecondStep at hs1
    split at hs1
    · split_ifs at hs1
      · exact activateLayoutActivities_namesDistinct env _ _ n hfirst hs1
      · simp only [Option.some.injEq] at hs1
        rw [← hs1]
        exact sync_namesDistinct env _ n hfirst
    · simp only [Option.some.injEq] at hs1
      rw [← hs1]
      exact hfirst
  rw [← hrec]
  unfold recordCurrentLayout
  simp only []
  split_ifs <;> exact hsecond

/-- Claim C17: in every state reachable from an empty list of loaded layouts by
the synchronizer, by `unload`, by the deferred part of `switchToLayout` and by
steps that leave the list alone, the names of the loaded layouts are pairwise
distinct. -/
theorem reachable_names_distinct (env : Env) (s : LayoutManager) (h : Reachable env s) :
    NamesDistinct s := by
  induction h with
  | start s h =>
    unfold NamesDistinct
    rw [h]
    exact List.nodup_nil
  | sync s lfo _ ih => exact sync_namesDistinct env s lfo ih
  | unload s _ _ =>
    rw [unload_eq]
    unfold NamesDistinct
    exact List.nodup_nil
  | deferred s s2 n lPath prev _ hstep ih => exact deferred_namesDistinct env s s2 n lPath prev ih hstep
  | other s s2 _ hsame ih =>
    unfold NamesDistinct at ih ⊢
    rw [hsame]
    exact ih

/-- Claim C17, at a concrete input: the state reached from the start state, in
which no layout is loaded, by one run of the synchronizer has distinct names. -/
theorem reachable_names_distinct_witness :
    Reachable demoEnv (syncMultipleLayoutsToActivities demoEnv scenarioStartup "L1") ∧
    NamesDistinct (syncMultipleLayoutsToActivities demoEnv scenarioStartup "L1") :=
  ⟨Reachable.sync scenarioStartup "L1" (Reachable.start scenarioStartup rfl),
    reachable_names_distinct demoEnv _
      (Reachable.sync scenarioStartup "L1" (Reachable.start scenarioStartup rfl))⟩

/-! ## The assignment map and the catalog -/

theorem mem_assign (m : QHash) (k v : String) (e : String × String)
    (he : e ∈ (m.assign k v).entries) : e ∈ m.entries ∨ e = (k, v) := by
  unfold QHash.assign at he
  split_ifs at he
  · simp only [List.mem_map] at he
    obtain ⟨x, hx, hxe⟩ := he
    by_cases hk : (x.1 == k) = true
    · rw [if_pos hk] at hxe
      right
      rw [← hxe]
      have : x.1 = k := by simpa using hk
      rw [this]
    · rw [if_neg hk] at hxe
      left
      rw [← hxe]
      exact hx
  · simp only [List.mem_append, List.mem_singleton] at he
    exact he

theorem mem_assignActivities (name : String) (vs : List String) (m : QHash)
    (e : String × String) (he : e ∈ (assignActivities name vs m).entries) :
    e ∈ m.entries ∨ (e.2 = name ∧ e.1 ∈ vs) := by
  induction vs generalizing m with
  | nil => exact Or.inl he
  | cons a rest ih =>
    unfold assignActivities at he
    rcases ih _ he with h | ⟨h1, h2⟩
    · rcases mem_assign m a name e h with h3 | h3
      · exact Or.inl h3
      · right
        rw [h3]
        exact ⟨rfl, List.mem_cons_self _ _⟩
    · exact Or.inr ⟨h1, List.mem_cons_of_mem _ h2⟩

theorem loadLayoutFiles_invariant (env : Env) (all : List String) (acts : List String)
    (files : List String) (s : LayoutManager) (hsub : ∀ f ∈ files, f ∈ all)
    (hacts : s.activityConsumer.activities = acts)
    (hinv : ∀ e ∈ s.m_assignedLayouts.entries, e.2 ∈ s.m_layouts ∧
      ∃ file ∈ all, env.layoutName (catalogPath env file) = e.2 ∧
        e.1 ∈ (env.readFile (catalogPath env file)).activities.filter
          (fun a => acts.contains a)) :
    (loadLayoutFiles env files s).activityConsumer.activities = acts ∧
    ∀ e ∈ (loadLayoutFiles env files s).m_assignedLayouts.entries,
      e.2 ∈ (loadLayoutFiles env files s).m_layouts ∧
      ∃ file ∈ all, env.layoutName (catalogPath env file) = e.2 ∧
        e.1 ∈ (env.readFile (catalogPath env file)).activities.filter
          (fun a => acts.contains a) := by
  induction files generalizing s with
  | nil => exact ⟨hacts, hinv⟩
  | cons f rest ih =>
    unfold loadLayoutFiles
    simp only []
    apply ih
    · intro g hg
      exact hsub g (List.mem_cons_of_mem _ hg)
    · split_ifs <;> exact hacts
    · have key : ∀ e ∈ (assignActivities (env.layoutName (catalogPath env f))
          (validActivities s (env.readFile (catalogPath env f)).activities)
          s.m_assignedLayouts).entries,
          e.2 ∈ s.m_layouts ++ [env.layoutName (catalogPath env f)] ∧
          ∃ file ∈ all, env.layoutName (catalogPath env file) = e.2 ∧
            e.1 ∈ (env.readFile (catalogPath env file)).activities.filter
              (fun a => acts.contains a) := by
        intro e he
        rcases mem_assignActivities _ _ _ e he with h | ⟨h1, h2⟩
        · obtain ⟨q1, q2⟩ := hinv e h
          exact ⟨List.mem_append_left _ q1, q2⟩
        · refine ⟨by rw [h1]; simp, f, hsub f (List.mem_cons_self _ _), h1.symm, ?_⟩
          unfold validActivities at h2
          rw [hacts] at h2
          exact h2
      split_ifs <;> exact key

/-- The rescan `loadLayouts` establishes the invariant of the assignment map. -/
theorem loadLayouts_catalogInvariant (env : Env) (s : LayoutManager) :
    CatalogInvariant env (loadLayouts env s) := by
  have h := loadLayoutFiles_invariant env (env.entryList "*.layout.latte")
    s.activityConsumer.activities (env.entryList "*.layout.latte")
    { s with
      m_layouts := []
      m_menuLayouts := []
      m_presetsPaths := []
      m_assignedLayouts := { entries := [] } }
    (fun f hf => hf) rfl (by simp)
  obtain ⟨h1, h2⟩ := h
  intro e he
  obtain ⟨q1, file, q2, q3, q4⟩ := h2 e he
  refine ⟨q1, file, q2, q3, ?_⟩
  unfold validActivities
  have hc : (loadLayouts env s).activityConsumer.activities = s.activityConsumer.activities := h1
  rw [hc]
  exact q4

/-- Claim C16 fails on the code.  After the rescan of the Single mode scenario the
assignment map satisfies the invariant; `orphanedActivities`, which should only
consult the map, adds the entry `act3 -> ""` to it, which names no layout of the
catalog, and `shouldSwitchToLayout`, which tests the presence of the key, then
answers the empty string instead of `Work` for `act3`.  The synchronizer adds
the same entry for the running unassigned activity `act3` of scenario B. -/
theorem orphanedActivities_adds_entries :
    CatalogInvariant demoEnv (loadLayouts demoEnv scenarioSingle) ∧
    (loadLayouts demoEnv scenarioSingle).m_assignedLayouts.entries =
      [("act1", "L1"), ("act2", "L2")] ∧
    (orphanedActivities (loadLayouts demoEnv scenarioSingle)).2.m_assignedLayouts.entries =
      [("act1", "L1"), ("act2", "L2"), ("act3", "")] ∧
    ¬ CatalogInvariant demoEnv (orphanedActivities (loadLayouts demoEnv scenarioSingle)).2 ∧
    shouldSwitchToLayout (loadLayouts demoEnv scenarioSingle) "act3" = "Work" ∧
    shouldSwitchToLayout (orphanedActivities (loadLayouts demoEnv scenarioSingle)).2 "act3" = "" ∧
    scenarioB.m_assignedLayouts.entries = [("act1", "L1"), ("act2", "L2"), ("act4", "L1")] ∧
    (syncMultipleLayoutsToActivities demoEnv scenarioB "").m_assignedLayouts.entries =
      [("act1", "L1"), ("act2", "L2"), ("act4", "L1"), ("act3", "")] := by
  decide

/-! ## Out-of-range list access in `switchToLayout` -/

/-- The block for a loaded target indexes an empty list exactly when, in Multiple
mode with no memory-mode change pending, the target is loaded, has no last used
activity and applies to no activity. -/
theorem switchToPresentLayout_eq_none_iff (s : LayoutManager) (n : String) (prev : Int) :
    switchToPresentLayout s n prev = none ↔
      memoryUsage s = .MultipleLayouts ∧ prev = -1 ∧
        ∃ layout, activeLayout s n = some layout ∧ layout.lastUsedActivity = "" ∧
          appliedActivities s layout = [] := by
  unfold switchToPresentLayout
  by_cases hm : memoryUsage s = .MultipleLayouts ∧ prev = -1
  · rw [if_pos hm]
    cases hl : activeLayout s n with
    | none => simp
    | some layout =>
      simp only []
      by_cases hu : layout.lastUsedActivity = ""
      · cases hh : appliedActivities s layout with
        | nil => simp [hu, hh, hm.1, hm.2]
        | cons a rest =>
          by_cases hc : s.activityConsumer.currentActivity ∈ a :: rest
          · simp [hu, hc, hh]
          · simp [hu, hc, hh]
      · by_cases hc : s.activityConsumer.currentActivity ∈ appliedActivities s layout
        · simp [hu, hc]
        · simp [hu, hc]
  · rw [if_neg hm]
    constructor
    · intro h
      simp at h
    · rintro ⟨h1, h2, _⟩
      exact absurd ⟨h1, h2⟩ hm

/-- The immediate part of `switchToLayout` indexes an empty list exactly when the
guard does not return and the block for a loaded target reads
`appliedActivities[0]` of an empty list. -/
theorem switchToLayout_eq_none_iff (env : Env) (s : LayoutManager) (n : String) (prev : Int) :
    switchToLayout env s n prev = none ↔
      ¬ (s.m_activeLayouts.length > 0 ∧ currentLayoutName s = n ∧ prev = -1) ∧
      memoryUsage s = .MultipleLayouts ∧ prev = -1 ∧
        ∃ layout, activeLayout s n = some layout ∧ layout.lastUsedActivity = "" ∧
          appliedActivities s layout = [] := by
  rw [← switchToPresentLayout_eq_none_iff]
  by_cases hg : s.m_activeLayouts.length > 0 ∧ currentLayoutName s = n ∧ prev = -1
  · rw [switchToLayout_of_guard env s n prev hg]
    simp [hg]
  · cases hp : switchToPresentLayout s n prev with
    | none =>
      unfold switchToLayout
      rw [if_neg hg, hp]
      simp [hg]
    | some r =>
      cases r with
      | none =>
        rw [switchToLayout_continue env s n prev hg hp]
        simp
      | some s2 =>
        unfold switchToLayout
        rw [if_neg hg, hp]
        simp

theorem layoutIsAssigned_iff (s : LayoutManager) (n : String) :
    layoutIsAssigned s n = true ↔ ∃ e ∈ s.m_assignedLayouts.entries, e.2 = n := by
  unfold layoutIsAssigned
  simp

/-- The activation block indexes an empty list exactly when the target is
assigned to some activity and its file declares no activities. -/
theorem activateLayoutActivities_eq_none_iff (env : Env) (s : LayoutManager) (n : String) :
    activateLayoutActivities env s n = none ↔
      layoutIsAssigned s n = true ∧ (env.readFile (env.layoutFilePath n)).activities = [] := by
  unfold activateLayoutActivities
  simp only []
  cases ha : layoutIsAssigned s n
  · simp
  · simp only [Bool.not_true, if_true, true_and]
    cases hacts : (env.readFile (env.layoutFilePath n)).activities with
    | nil => simp
    | cons first rest =>
      by_cases hf : (env.readFile (env.layoutFilePath n)).lastUsedActivity ∈ first :: rest
      · simp [hf]
      · simp [hf]

/-- Under the invariant of the assignment map, and when the file of a layout of
the catalog is found again under the name read from it, a layout assigned to
an activity declares at least one activity. -/
theorem assigned_activities_nonempty (env : Env) (s : LayoutManager) (n : String)
    (hinv : CatalogInvariant env s)
    (hfile : ∀ file ∈ env.entryList "*.layout.latte",
      env.layoutFilePath (env.layoutName (catalogPath env file)) = catalogPath env file)
    (h : layoutIsAssigned s n = true) :
    (env.readFile (env.layoutFilePath n)).activities ≠ [] := by
  rw [layoutIsAssigned_iff] at h
  obtain ⟨e, he, hen⟩ := h
  obtain ⟨_, file, hfmem, hfname, hact⟩ := hinv e he
  have hpath : env.layoutFilePath n = catalogPath env file := by
    rw [← hen, ← hfname]
    exact hfile file hfmem
  rw [hpath]
  unfold validActivities at hact
  intro hnil
  rw [hnil] at hact
  simp at hact

/-- Under the invariant of the assignment map the deferred part of
`switchToLayout` indexes no empty list: it returns. -/
theorem switchToLayoutDeferred_returns (env : Env) (s : LayoutManager) (n lPath : String)
    (prev : Int) (hinv : CatalogInvariant env s)
    (hfile : ∀ file ∈ env.entryList "*.layout.latte",
      env.layoutFilePath (env.layoutName (catalogPath env file)) = catalogPath env file) :
    ∃ s2, switchToLayoutDeferred env s n lPath prev = some s2 := by
  have hmap : (deferredFirstStep env s n lPath prev).m_assignedLayouts = s.m_assignedLayouts := by
    unfold deferredFirstStep
    split_ifs
    · rw [fullTransition_eq]
    · rfl
  have hsome : ∃ s1, deferredSecondStep env (deferredFirstStep env s n lPath prev) n
      (initializingMultipleLayouts env s) = some s1 := by
    unfold deferredSecondStep
    split
    · split_ifs
      · cases hact : activateLayoutActivities env (deferredFirstStep env s n lPath prev) n with
        | some s1 => exact ⟨s1, rfl⟩
        | none =>
          exfalso
          rw [activateLayoutActivities_eq_none_iff] at hact
          have hassigned : layoutIsAssigned s n = true := by
            have := hact.1
            unfold layoutIsAssigned at this ⊢
            rw [hmap] at this
            exact this
          exact assigned_activities_nonempty env s n hinv hfile hassigned hact.2
      · exact ⟨_, rfl⟩
    · exact ⟨_, rfl⟩
  obtain ⟨s1, hs1⟩ := hsome
  unfold switchToLayoutDeferred
  rw [hs1]
  exact ⟨_, rfl⟩

/-- In `scenarioAssigned`, where the invariant holds, the deferred switch to the
assigned layout `L1` returns. -/
theorem switchToLayoutDeferred_returns_example :
    CatalogInvariant demoEnv scenarioAssigned ∧
    ∃ s2, switchToLayoutDeferred demoEnv scenarioAssigned "L1"
      "/home/u/.config/latte/L1.layout.latte" (-1) = some s2 :=
  ⟨by decide,
    switchToLayoutDeferred_returns demoEnv scenarioAssigned "L1"
      "/home/u/.config/latte/L1.layout.latte" (-1) (by decide) (by decide)⟩

/-- Outside the invariant the activation block does index an empty list: in
`scenarioMisassigned` the target `Home` is assigned and its file declares no
activities, `switchToLayout` schedules the deferred transition, and the
transition reads `layout.activities()[0]` of an empty list. -/
theorem activateLayoutActivities_misassigned :
    ¬ AssignmentInvariant demoEnv scenarioMisassigned ∧
    layoutIsAssigned scenarioMisassigned "Home" = true ∧
    (demoEnv.readFile (demoEnv.layoutFilePath "Home")).activities = [] ∧
    switchToLayout demoEnv scenarioMisassigned "Home" (-1) =
      some (true, record scenarioMisassigned
        [Call.singleShotTransition 350 "Home" "/home/u/.config/latte/Home.layout.latte" (-1)]) ∧
    activateLayoutActivities demoEnv scenarioMisassigned "Home" = none ∧
    switchToLayoutDeferred demoEnv scenarioMisassigned "Home"
      "/home/u/.config/latte/Home.layout.latte" (-1) = none := by
  decide

/-! ## The invariant of the assignment map along the engine's operations -/

/-- The invariant with respect to the catalog gives the invariant with respect to
the layout files, when the file of a layout of the catalog is the one
`layoutPath` finds under the name read from it. -/
theorem assignmentInvariant_of_catalogInvariant (env : Env) (s : LayoutManager)
    (hcat : CatalogInvariant env s)
    (hfile : ∀ file ∈ env.entryList "*.layout.latte",
      layoutPath env (env.layoutName (catalogPath env file)) = catalogPath env file) :
    AssignmentInvariant env s := by
  intro e he _
  obtain ⟨_, file, hfmem, hfname, hact⟩ := hcat e he
  rw [← hfname, hfile file hfmem]
  unfold validActivities at hact
  exact List.mem_of_mem_filter hact

/-- The rescan `loadLayouts` establishes the invariant of the assignment map. -/
theorem loadLayouts_assignmentInvariant (env : Env) (s : LayoutManager)
    (hfile : ∀ file ∈ env.entryList "*.layout.latte",
      layoutPath env (env.layoutName (catalogPath env file)) = catalogPath env file) :
    AssignmentInvariant env (loadLayouts env s) :=
  assignmentInvariant_of_catalogInvariant env _ (loadLayouts_catalogInvariant env s) hfile

/-- The synchronizer keeps the invariant of the assignment map: the entries it
adds carry the empty name. -/
theorem sync_assignmentInvariant (env : Env) (s : LayoutManager) (lfo : String)
    (hinv : AssignmentInvariant env s) :
    AssignmentInvariant env (syncMultipleLayoutsToActivities env s lfo) := by
  obtain ⟨_, _, _, _, _, _, _, _, _, hmap, _, _⟩ := sync_shape env s lfo
  intro e he hne
  rw [hmap] at he
  unfold reservation at he
  rcases reserveLayouts_entries _ _ e he with h | h
  · exact hinv e h hne
  · exact absurd h hne

/-! ## Safety of the list accesses of `switchToLayout` -/

theorem appliedActivities_congr (s s2 : LayoutManager) (l : ActiveLayout)
    (hmap : s2.m_assignedLayouts = s.m_assignedLayouts)
    (hacts : s2.activityConsumer.activities = s.activityConsumer.activities) :
    appliedActivities s2 l = appliedActivities s l := by
  unfold appliedActivities
  rw [hmap, hacts]

/-- After the synchronizer has run in a state with distinct names, the invariant
of the assignment map and running activities that the host knows, every loaded
layout with a non-empty name other than the master applies to some activity. -/
theorem sync_applied_nonempty (env : Env) (s : LayoutManager) (lfo : String)
    (hd : NamesDistinct s) (hinv : AssignmentInvariant env s)
    (hrun : ∀ a ∈ runningActivities s, a ∈ s.activityConsumer.activities)
    (l : ActiveLayout) (hl : l ∈ (syncMultipleLayoutsToActivities env s lfo).m_activeLayouts)
    (hn : l.name ≠ "") (hm : l.name ≠ env.MultipleLayoutsName) :
    appliedActivities (syncMultipleLayoutsToActivities env s lfo) l ≠ [] := by
  by_cases hact : l.activities = []
  · have hset := sync_result_settled env s lfo hd hinv l hl hn hm
    unfold tempLayoutName at hset
    split_ifs at hset with c1 c2
    · exact absurd hset hn
    · exact absurd hset hn
    · have hall : ¬ ((reservation env s).allRunningActivitiesWillBeReserved = true) :=
        fun h => c2 ⟨hact, h⟩
      rw [allReserved_iff] at hall
      push_neg at hall
      obtain ⟨a, ha, hva⟩ := hall
      obtain ⟨_, _, _, _, _, _, _, _, _, hmap, _, hcons⟩ := sync_shape env s lfo
      have hmem : a ∈ appliedActivities (syncMultipleLayoutsToActivities env s lfo) l := by
        unfold appliedActivities
        rw [if_pos hact, List.mem_filter, hcons, hmap]
        refine ⟨hrun a ha, ?_⟩
        unfold reservation
        rw [reserveLayouts_value]
        simpa using hva
      intro hnil
      rw [hnil] at hmem
      exact List.not_mem_nil _ hmem
  · unfold appliedActivities
    rw [if_neg hact]
    exact hact

/-- The deferred part of `switchToLayout` returns when a target that is assigned
declares at least one activity. -/
theorem switchToLayoutDeferred_returns_of (env : Env) (s : LayoutManager) (n lPath : String)
    (prev : Int)
    (hne : layoutIsAssigned s n = true → (env.readFile (env.layoutFilePath n)).activities ≠ []) :
    ∃ s2, switchToLayoutDeferred env s n lPath prev = some s2 := by
  have hmap : (deferredFirstStep env s n lPath prev).m_assignedLayouts = s.m_assignedLayouts := by
    unfold deferredFirstStep
    split_ifs
    · rw [fullTransition_eq]
    · rfl
  have hsome : ∃ s1, deferredSecondStep env (deferredFirstStep env s n lPath prev) n
      (initializingMultipleLayouts env s) = some s1 := by
    unfold deferredSecondStep
    split
    · split_ifs
      · cases hact : activateLayoutActivities env (deferredFirstStep env s n lPath prev) n with
        | some s1 => exact ⟨s1, rfl⟩
        | none =>
          exfalso
          rw [activateLayoutActivities_eq_none_iff] at hact
          have hassigned : layoutIsAssigned s n = true := by
            have := hact.1
            unfold layoutIsAssigned at this ⊢
            rw [hmap] at this
            exact this
          exact hne hassigned hact.2
      · exact ⟨_, rfl⟩
    · exact ⟨_, rfl⟩
  obtain ⟨s1, hs1⟩ := hsome
  unfold switchToLayoutDeferred
  rw [hs1]
  exact ⟨_, rfl⟩

/-- Claim C21 as stated fails: the invariant of the assignment map does not keep
`appliedActivities[0]` in range.  In `scenarioRescanned` the synchronizer has
loaded `Work` for the running activity `act3`, unassigned in the map scanned
before the file of `L2` declared it, and the rescan has then assigned `act3` to
`L2`: the invariant holds, `Work` is loaded, has no last used activity and
applies to no activity, and `switchToLayout` reads `appliedActivities[0]` of an
empty list.  In the state the synchronizer leaves for a host without unassigned
activities, the same happens for the master layout as target. -/
theorem switchToLayout_safe_access_counterexample :
    CatalogInvariant rescanEnv scenarioRescanned ∧
    AssignmentInvariant rescanEnv scenarioRescanned ∧
    memoryUsage scenarioRescanned = .MultipleLayouts ∧
    (activeLayout scenarioRescanned "Work").map
      (fun l => (l.lastUsedActivity, appliedActivities scenarioRescanned l)) = some ("", []) ∧
    switchToLayout rescanEnv scenarioRescanned "Work" (-1) = none ∧
    CatalogInvariant demoEnv (syncMultipleLayoutsToActivities demoEnv scenarioAssigned "") ∧
    AssignmentInvariant demoEnv (syncMultipleLayoutsToActivities demoEnv scenarioAssigned "") ∧
    (activeLayout (syncMultipleLayoutsToActivities demoEnv scenarioAssigned "")
        ".multiple-layouts_hidden").map
      (fun l => (l.lastUsedActivity,
        appliedActivities (syncMultipleLayoutsToActivities demoEnv scenarioAssigned "") l)) =
      some ("", []) ∧
    switchToLayout demoEnv (syncMultipleLayoutsToActivities demoEnv scenarioAssigned "")
      ".multiple-layouts_hidden" (-1) = none := by
  decide

/-- Claim C21, amended.  Let the state satisfy the invariant of the assignment
map and the target have a non-empty name.  First, if moreover the loaded
layouts have distinct names, the running activities are activities the host
knows and the target is not the master, then in every state that has the
loaded layouts and the assignment map the synchronizer leaves and the same
known activities, the applied activities of the loaded target are non-empty, so
that `appliedActivities[0]` is in range, and `switchToLayout` returns.
Second, if the file `Importer::layoutFilePath` names for the target is the one
`layoutPath` finds, then a target that is assigned declares at least one
activity, so that `layout.activities()[0]` is in range, and the deferred part
of `switchToLayout` returns. -/
theorem switchToLayout_safe_access (env : Env) (s : LayoutManager)
    (layoutForOrphans layoutName lPath : String) (previousMemoryUsage : Int)
    (hinv : AssignmentInvariant env s) (hname : layoutName ≠ "") :
    (NamesDistinct s → (∀ a ∈ runningActivities s, a ∈ s.activityConsumer.activities) →
      layoutName ≠ env.MultipleLayoutsName →
      ∀ s2 : LayoutManager,
        s2.m_activeLayouts =
          (syncMultipleLayoutsToActivities env s layoutForOrphans).m_activeLayouts →
        s2.m_assignedLayouts =
          (syncMultipleLayoutsToActivities env s layoutForOrphans).m_assignedLayouts →
        s2.activityConsumer.activities = s.activityConsumer.activities →
        (∀ layout, activeLayout s2 layoutName = some layout →
          appliedActivities s2 layout ≠ []) ∧
        ∃ r, switchToLayout env s2 layoutName previousMemoryUsage = some r) ∧
    (env.layoutFilePath layoutName = layoutPath env layoutName →
      (layoutIsAssigned s layoutName = true →
        (env.readFile (env.layoutFilePath layoutName)).activities ≠ []) ∧
      ∃ s2, switchToLayoutDeferred env s layoutName lPath previousMemoryUsage = some s2) := by
  constructor
  · intro hd hrun hmaster s2 hlist hmap hacts
    have hacts2 : s2.activityConsumer.activities =
        (syncMultipleLayoutsToActivities env s layoutForOrphans).activityConsumer.activities := by
      obtain ⟨_, _, _, _, _, _, _, _, _, _, _, hcons⟩ := sync_shape env s layoutForOrphans
      rw [hacts, hcons]
    have happlied : ∀ layout, activeLayout s2 layoutName = some layout →
        appliedActivities s2 layout ≠ [] := by
      intro layout hfound
      have hfind : s2.m_activeLayouts.find? (fun l => l.name == layoutName) = some layout :=
        hfound
      have hmem : layout ∈ s2.m_activeLayouts := List.mem_of_find?_eq_some hfind
      have hn : layout.name = layoutName := by
        simpa using @List.find?_some _ (fun l => l.name == layoutName) layout _ hfind
      rw [appliedActivities_congr _ s2 layout hmap hacts2]
      apply sync_applied_nonempty env s layoutForOrphans hd hinv hrun layout
      · rw [← hlist]
        exact hmem
      · rw [hn]
        exact hname
      · rw [hn]
        exact hmaster
    refine ⟨happlied, ?_⟩
    cases hres : switchToLayout env s2 layoutName previousMemoryUsage with
    | some r => exact ⟨r, rfl⟩
    | none =>
      exfalso
      rw [switchToLayout_eq_none_iff] at hres
      obtain ⟨_, _, _, layout, hfound, _, hnil⟩ := hres
      exact happlied layout hfound hnil
  · intro hpath
    have hne : layoutIsAssigned s layoutName = true →
        (env.readFile (env.layoutFilePath layoutName)).activities ≠ [] := by
      intro hassigned
      rw [layoutIsAssigned_iff] at hassigned
      obtain ⟨e, he, hen⟩ := hassigned
      have hmem := hinv e he (by rw [hen]; exact hname)
      rw [hen, ← hpath] at hmem
      intro hnil
      rw [hnil] at hmem
      exact List.not_mem_nil _ hmem
    exact ⟨hne, switchToLayoutDeferred_returns_of env s layoutName lPath previousMemoryUsage hne⟩

/-- Claim C21, amended, at a concrete input: after the synchronizer has loaded
`Work` for the unassigned activity `act3`, `switchToLayout` for `Work` returns,
and so does the deferred part for `Work`. -/
theorem switchToLayout_safe_access_witness :
    AssignmentInvariant rescanEnv scenarioScanned ∧
    activeLayout (syncMultipleLayoutsToActivities rescanEnv scenarioScanned "") "Work" ≠ none ∧
    currentLayoutName (syncMultipleLayoutsToActivities rescanEnv scenarioScanned "") ≠ "Work" ∧
    (∃ r, switchToLayout rescanEnv (syncMultipleLayoutsToActivities rescanEnv scenarioScanned "")
      "Work" (-1) = some r) ∧
    (∃ s2, switchToLayoutDeferred rescanEnv scenarioScanned "Work"
      "/home/u/.config/latte/Work.layout.latte" (-1) = some s2) :=
  ⟨by decide, by decide, by decide,
    ((switchToLayout_safe_access rescanEnv scenarioScanned "" "Work"
      "/home/u/.config/latte/Work.layout.latte" (-1) (by decide) (by decide)).1
      (by unfold NamesDistinct; decide) (by decide) (by decide) _ rfl rfl rfl).2,
    ((switchToLayout_safe_access rescanEnv scenarioScanned "" "Work"
      "/home/u/.config/latte/Work.layout.latte" (-1) (by decide) (by decide)).2
      (by decide)).2⟩

/-- Claim C1 as stated fails.  In `scenarioStaleAssignment`, in Multiple mode, the
running activity `act3` is assigned to `Work`, whose file declares no
activities: the first call loads `Work`, and the second call, with nothing
changed, unloads it, as a layout without activities while every running
activity is reserved, and loads it again. -/
theorem sync_idempotent_counterexample :
    memoryUsage scenarioStaleAssignment = .MultipleLayouts ∧
    NamesDistinct scenarioStaleAssignment ∧
    ¬ AssignmentInvariant demoEnv scenarioStaleAssignment ∧
    ((syncMultipleLayoutsToActivities demoEnv
        (syncMultipleLayoutsToActivities demoEnv scenarioStaleAssignment "") "").calls.drop
      (syncMultipleLayoutsToActivities demoEnv scenarioStaleAssignment "").calls.length).filter
        (fun c => c.isUnload || c.isLoad) =
      [Call.syncToLayoutFile "Work", Call.unloadContainments "Work",
        Call.unloadLatteViews "Work",
        Call.clearUnloadedContainmentsFromLinkedFile "Work" false, Call.deleteLayout "Work",
        Call.newActiveLayout "/home/u/.config/latte/Work.layout.latte" "Work",
        Call.initToCorona "Work", Call.importToCorona "Work"] := by
  decide

end Latte
